import Mathlib

/-!
# heaptrace: breakpoint dispatch, symbol resolution, pause/handoff and the event loop

A shallow embedding of `src/src/debugger.c` and `src/src/heap.c`.

* The tracer process is a `World`: the `HeaptraceContext`, the heap of
  `Breakpoint` objects (a pointer is a natural number, `NULL` is `none`), the
  file-level globals, the tracee (register file and byte-addressed memory) and
  the chronological list of externally visible calls (`Event`).
* Unsigned 64-bit arithmetic is arithmetic on `Nat` reduced modulo `2 ^ 64`;
  wait statuses are natural numbers.
* `ASSERT` aborts the tracer: the world's `status` leaves `running` and no
  later statement has any effect. The same holds after `exit` and after a
  successful `execv`.
* A handler call is recorded as an event with its arguments. The pre-handler
  `_pre_entry`, which is part of the sources, then runs: it may hand the tracee
  to the debugger and not return. The handlers of `handlers.h` are external
  collaborators: they return and leave the tracer state and the tracee untouched.
* `breakpoint.c`, `proc.c` and the headers are not among the sources: the helpers
  `install_breakpoint`, `_remove_breakpoint`, `_remove_breakpoints`, `pme_walk`,
  `pme_find_addr` and the macro `ASSERT` follow the specification, the table
  capacity `BREAKPOINTS_COUNT` is a parameter.
* What `lookup_symbols`, `build_pme_list`, the signature finder and
  `evaluate_symbol_defs` return or do is a parameter of the functions that call them.
-/

namespace Heaptrace

/-! ## Machine words and tracee memory -/

/-- Reduction of a natural number to an unsigned 64-bit word. -/
def u64 (n : Nat) : Nat := n % 2 ^ 64

/-- The part of `struct user_regs_struct` that the tracer reads or writes. -/
structure Regs where
  rip : Nat
  rdi : Nat
  rsi : Nat
  rdx : Nat
  rax : Nat
  rsp : Nat
deriving DecidableEq, Repr

/-- The traced process: its register file and its memory, one byte per address. -/
structure Tracee where
  regs : Regs
  mem : Nat → Nat

/-- The little-endian 64-bit word stored at `addr` (what `PTRACE_PEEKDATA` returns). -/
def peek (mem : Nat → Nat) (addr : Nat) : Nat :=
  (List.range 8).foldr (fun i acc => mem (addr + i) % 256 + 256 * acc) 0

/-- Memory after storing the 64-bit word `val` at `addr` (what `PTRACE_POKEDATA` does). -/
def poke (mem : Nat → Nat) (addr val : Nat) : Nat → Nat :=
  fun a => if addr ≤ a ∧ a < addr + 8 then (val / 256 ^ (a - addr)) % 256 else mem a

/-! ## Data model -/

/-- The `struct Breakpoint` fields used by the tracer core. Function pointers
are numbers with `0` for `NULL`; `_bp` is the owner pointer of a return-catcher. -/
structure Breakpoint where
  name : String
  addr : Nat
  orig_data : Nat
  pre_handler : Nat
  pre_handler_nargs : Int
  post_handler : Nat
  _is_inside : Bool
  _bp : Option Nat
deriving DecidableEq, Repr, Inhabited

/-- Classification of a mapped region (`pet` of a `ProcMapsEntry`). -/
inductive ProcELFType where
  | PROCELF_TYPE_BINARY
  | PROCELF_TYPE_LIBC
  | PROCELF_TYPE_OTHER
deriving DecidableEq, Repr

/-- One region of the tracee memory map. -/
structure ProcMapsEntry where
  pet : ProcELFType
  base : Nat
  end_ : Nat
deriving DecidableEq, Repr

/-- The fields of `HeaptraceContext` that the modelled functions touch. -/
structure HeaptraceContext where
  pid : Int
  breakpoints : Nat → Option Nat
  pme_head : List ProcMapsEntry
  ret_ptr_section_type : Option ProcELFType
  malloc_count : Nat
  calloc_count : Nat
  free_count : Nat
  realloc_count : Nat
  reallocarray_count : Nat
  between_pre_and_post : Option String
  status : Nat
  status16 : Nat
  should_map_syms : Bool

/-- Externally visible calls made by the tracer, in the order they are issued. -/
inductive Event where
  | ptrace_getregs (pid : Int)
  | ptrace_setregs (pid : Int) (regs : Regs)
  | ptrace_peekdata (pid : Int) (addr : Nat)
  | ptrace_pokedata (pid : Int) (addr val : Nat)
  | ptrace_singlestep (pid : Int) (tracee : Tracee)
  | ptrace_cont (pid : Int) (sig : Nat)
  | ptrace_detach (pid : Int) (sig : Nat)
  | ptrace_setoptions (pid : Int) (opts : Nat)
  | ptrace_geteventmsg (pid : Int)
  | wait
  | pre_handler (bp : Breakpoint) (args : List Nat)
  | post_handler (bp : Breakpoint) (arg : Nat)
  | install_breakpoint (bp : Breakpoint) (ok : Bool)
  | remove_breakpoint (bp : Breakpoint)
  | remove_breakpoints
  | execv (args : List (List Char))
  | assert_failed

/-- Whether the tracer process is still executing its own code. -/
inductive ProcStatus where
  | running
  | aborted
  | replaced
  | exited
deriving DecidableEq, Repr

/-- The tracer together with its environment. -/
structure World where
  ctx : HeaptraceContext
  heap : Nat → Breakpoint
  next : Nat
  in_breakpoint : Bool
  OPT_VERBOSE : Bool
  OPT_FOLLOW_FORK : Bool
  OPT_GDB_PATH : List Char
  BREAK_MAIN : Int
  BREAK_SIGSEGV : Int
  tracee : Tracee
  trace : List Event
  status : ProcStatus

/-! ## Primitive operations -/

/-- Append one event to the trace. -/
def World.emit (w : World) (e : Event) : World :=
  { w with trace := w.trace ++ [e] }

/-- Assign fields of the breakpoint object that `p` points to. -/
def World.update (w : World) (p : Nat) (f : Breakpoint → Breakpoint) : World :=
  { w with heap := fun q => if q = p then f (w.heap q) else w.heap q }

/-- Replace the breakpoint table of the context. -/
def World.setTable (w : World) (t : Nat → Option Nat) : World :=
  { w with ctx := { w.ctx with breakpoints := t } }

/-- Assign the file-level flag `in_breakpoint`. -/
def World.set_in_breakpoint (w : World) (b : Bool) : World :=
  { w with in_breakpoint := b }

/-- Assign `ctx->ret_ptr_section_type`. -/
def World.set_ret_ptr_section_type (w : World) (t : ProcELFType) : World :=
  { w with ctx := { w.ctx with ret_ptr_section_type := some t } }

/-- Assign `ctx->should_map_syms`. -/
def World.set_should_map_syms (w : World) (b : Bool) : World :=
  { w with ctx := { w.ctx with should_map_syms := b } }

/-- Replace the tracee state. -/
def World.setTracee (w : World) (t : Tracee) : World :=
  { w with tracee := t }

/-- The tracer stops executing its own code. -/
def World.halt (w : World) (s : ProcStatus) : World :=
  { w with status := s }

/-- Modelled from the spec: the macro `ASSERT(q, ...)` of `logging.h`, "assertion with a
'please report' message; the tracer aborts". -/
def ASSERT (q : Bool) (w : World) : World :=
  if q then w else (w.emit Event.assert_failed).halt ProcStatus.aborted

/-- Read the tracee register file: `ptrace(PTRACE_GETREGS, pid, NULL, &regs)`;
the registers read are `w.tracee.regs`. -/
def ptrace_getregs (w : World) (pid : Int) : World :=
  w.emit (Event.ptrace_getregs pid)

/-- Write the tracee register file: `ptrace(PTRACE_SETREGS, pid, NULL, &regs)`. -/
def ptrace_setregs (w : World) (pid : Int) (regs : Regs) : World :=
  (w.emit (Event.ptrace_setregs pid regs)).setTracee { regs := regs, mem := w.tracee.mem }

/-- Read a word of tracee memory: `ptrace(PTRACE_PEEKDATA, pid, addr, NULL)`;
the word read is `peek w.tracee.mem addr`. -/
def ptrace_peekdata (w : World) (pid : Int) (addr : Nat) : World :=
  w.emit (Event.ptrace_peekdata pid addr)

/-- Write a word of tracee memory: `ptrace(PTRACE_POKEDATA, pid, addr, val)`. -/
def ptrace_pokedata (w : World) (pid : Int) (addr val : Nat) : World :=
  (w.emit (Event.ptrace_pokedata pid addr val)).setTracee
    { regs := w.tracee.regs, mem := poke w.tracee.mem addr val }

/-- Let the tracee execute one instruction: `ptrace(PTRACE_SINGLESTEP, pid, NULL, NULL)`.
The event records the tracee state the instruction is executed from. -/
def ptrace_singlestep (cpu : Tracee → Tracee) (w : World) (pid : Int) : World :=
  (w.emit (Event.ptrace_singlestep pid w.tracee)).setTracee (cpu w.tracee)

/-- The call `wait(NULL)`. -/
def wait (w : World) : World := w.emit Event.wait

/-- The word written to re-arm a breakpoint:
`(orig_data & ~0xff) | ('\xcc' & 0xff)` on unsigned 64-bit operands. -/
def trap_word (orig_data : Nat) : Nat :=
  (u64 orig_data - u64 orig_data % 256) + 0xcc

/-- A zeroed `struct Breakpoint`. -/
def zero_breakpoint : Breakpoint :=
  { name := "", addr := 0, orig_data := 0, pre_handler := 0, pre_handler_nargs := 0,
    post_handler := 0, _is_inside := false, _bp := none }

/-- Allocation `calloc(1, sizeof(struct Breakpoint))`; the pointer returned is `w.next`. -/
def calloc_breakpoint (w : World) : World :=
  { w with heap := fun q => if q = w.next then zero_breakpoint else w.heap q, next := w.next + 1 }

/-! ## Breakpoint table helpers (`breakpoint.c` and `proc.c` are not part of the sources) -/

/-- Modelled from the spec: `pme_find_addr` (find-by-addr), "returns the region
whose half-open range contains a, or null". -/
def pme_find_addr (head : List ProcMapsEntry) (addr : Nat) : Option ProcMapsEntry :=
  head.find? (fun e => decide (e.base ≤ addr) && decide (addr < e.end_))

/-- The first free slot of the breakpoint table, if any. -/
def first_free_slot (BREAKPOINTS_COUNT : Nat) (t : Nat → Option Nat) : Option Nat :=
  (List.range BREAKPOINTS_COUNT).find? (fun i => (t i).isNone)

/-- Whether some installed breakpoint already has address `addr`. -/
def addr_installed (BREAKPOINTS_COUNT : Nat) (w : World) (addr : Nat) : Bool :=
  (List.range BREAKPOINTS_COUNT).any (fun i =>
    match w.ctx.breakpoints i with
    | some q => decide ((w.heap q).addr = addr)
    | none => false)

/-- The successful part of `install_breakpoint`: save, patch, store in `slot`. -/
def install_at (w : World) (p : Nat) (slot : Nat) : World :=
  let addr := (w.heap p).addr
  let word := peek w.tracee.mem addr
  let tab := w.ctx.breakpoints
  let w := w.emit (Event.install_breakpoint (w.heap p) true)
  let w := ptrace_peekdata w w.ctx.pid addr
  let w := w.update p (fun b => { b with orig_data := word % 256 })
  let w := ptrace_pokedata w w.ctx.pid addr (word - word % 256 + 0xcc)
  w.setTable (fun i => if i = slot then some p else tab i)

/-- Modelled from the spec: `install_breakpoint` (Install), "require bp.address ≠ 0
and no existing installed breakpoint at that address; read the word at bp.address,
save the low byte as bp.original-byte, write back the word with its low byte replaced
by the trap opcode; store bp in the first free slot". A table without a free slot
counts as a failed requirement. -/
def install_breakpoint (BREAKPOINTS_COUNT : Nat) (w : World) (p : Nat) : World :=
  if (w.heap p).addr = 0 ∨ addr_installed BREAKPOINTS_COUNT w (w.heap p).addr = true then
    w.emit (Event.install_breakpoint (w.heap p) false)
  else
    match first_free_slot BREAKPOINTS_COUNT w.ctx.breakpoints with
    | none => w.emit (Event.install_breakpoint (w.heap p) false)
    | some slot => install_at w p slot

/-- Modelled from the spec: `_remove_breakpoint` (Uninstall), "write the word at
bp.address with its low byte replaced by bp.original-byte; clear the slot (or leave
for reuse) according to the flag". -/
def _remove_breakpoint (w : World) (p : Nat) (opts : Nat) : World :=
  let addr := (w.heap p).addr
  let word := peek w.tracee.mem addr
  let tab := w.ctx.breakpoints
  let w := w.emit (Event.remove_breakpoint (w.heap p))
  let w := ptrace_peekdata w w.ctx.pid addr
  let w := ptrace_pokedata w w.ctx.pid addr (word - word % 256 + (w.heap p).orig_data % 256)
  if opts ≠ 0 then w.setTable (fun i => if tab i = some p then none else tab i) else w

/-! ## Operation ids and pause/handoff (heap.c) -/

/-- The function `get_oid`: the world after the call and the value returned (which is
returned only when the world is still running). -/
def get_oid (w : World) : World × Nat :=
  let oid := u64 (u64 (u64 (u64 (w.ctx.malloc_count + w.ctx.calloc_count) + w.ctx.free_count) +
    w.ctx.realloc_count) + w.ctx.reallocarray_count)
  (ASSERT (decide (oid < 0xFFFFFFFFFFFFFFF0)) w, oid)

/-- The signal numbers used by the tracer. -/
def SIGTRAP : Nat := 5

/-- Signal number of `SIGSEGV`. -/
def SIGSEGV : Nat := 11

/-- Signal number of `SIGCONT`. -/
def SIGCONT : Nat := 18

/-- Signal number of `SIGSTOP`. -/
def SIGSTOP : Nat := 19

/-- The call `ptrace(PTRACE_DETACH, pid, NULL, sig)`. -/
def ptrace_detach (w : World) (pid : Int) (sig : Nat) : World :=
  w.emit (Event.ptrace_detach pid sig)

/-- The call `ptrace(PTRACE_CONT, pid, NULL, sig)`. -/
def ptrace_cont (w : World) (pid : Int) (sig : Nat) : World :=
  w.emit (Event.ptrace_cont pid sig)

/-- The call `ptrace(PTRACE_SETOPTIONS, pid, NULL, opts)`. -/
def ptrace_setoptions (w : World) (pid : Int) (opts : Nat) : World :=
  w.emit (Event.ptrace_setoptions pid opts)

/-- The call `ptrace(PTRACE_GETEVENTMSG, pid, NULL, &msg)`. -/
def ptrace_geteventmsg (w : World) (pid : Int) : World :=
  w.emit (Event.ptrace_geteventmsg pid)

/-- Modelled from the spec: `_remove_breakpoints` with `BREAKPOINT_OPTS_ALL`, "uninstall
all breakpoints": every table entry is uninstalled and its slot cleared. -/
def _remove_breakpoints (BREAKPOINTS_COUNT : Nat) (w : World) : World :=
  (List.range BREAKPOINTS_COUNT).foldl (fun w i =>
    match w.ctx.breakpoints i with
    | some p => _remove_breakpoint w p 1
    | none => w) (w.emit Event.remove_breakpoints)

/-- Conversion of an `int` argument to `uint64_t`. -/
def u64_of_int (x : Int) : Nat := (x % 2 ^ 64).toNat

/-- The characters `printf("%d")` produces for an `int`. -/
def decimal (n : Int) : List Char :=
  if n < 0 then '-' :: Nat.toDigits 10 n.natAbs else Nat.toDigits 10 n.toNat

/-- The string `snprintf(buf, size, "%d", n)` leaves in `buf`: at most `size - 1`
characters of the decimal form. -/
def snprintf_d (size : Nat) (n : Int) : List Char := (decimal n).take (size - 1)

/-- The function `check_should_break`; `execv_ok` tells whether `execv` succeeds, in
which case the debugger replaces the tracer. Logging is left out. -/
def check_should_break (BREAKPOINTS_COUNT : Nat) (execv_ok : Bool) (w : World)
    (oid break_at : Nat) (_prepend_newline : Int) : World :=
  let should_break := decide (break_at = oid)
  if should_break then
    let w := _remove_breakpoints BREAKPOINTS_COUNT w
    let w := ptrace_detach w w.ctx.pid SIGSTOP
    let buf := snprintf_d 10 w.ctx.pid
    let args := [w.OPT_GDB_PATH, ['-', 'p'], buf]
    let w := w.emit (Event.execv args)
    if execv_ok then w.halt ProcStatus.replaced else ASSERT false w
  else w

/-! ## `_check_breakpoints` (debugger.c, lines 23-116) -/

/-- The function `_pre_entry` (lines 243-246), the pre-handler of the entry breakpoint. -/
def _pre_entry (BREAKPOINTS_COUNT : Nat) (execv_ok : Bool) (w : World) : World :=
  let w := w.set_should_map_syms true
  check_should_break BREAKPOINTS_COUNT execv_ok w 1 (u64_of_int w.BREAK_MAIN) 0

/-- The body that runs when the pre-handler pointer `f` is called: `_pre_entry` when `f`
is its address `pre_entry`. Every other pre-handler is a function of `handlers.h`, which
is not among the sources: an external collaborator that returns and leaves the tracer
state and the tracee as they are. -/
def run_pre_handler (BREAKPOINTS_COUNT : Nat) (execv_ok : Bool) (pre_entry : Nat) (f : Nat)
    (w : World) : World :=
  if f = pre_entry then _pre_entry BREAKPOINTS_COUNT execv_ok w else w

/-- Lines 43-54: call the pre-handler with `pre_handler_nargs` argument registers; the
call is recorded with its arguments, then the handler runs. -/
def call_pre_handler (BREAKPOINTS_COUNT : Nat) (execv_ok : Bool) (pre_entry : Nat) (w : World)
    (p : Nat) (regs : Regs) : World :=
  let nargs := (w.heap p).pre_handler_nargs
  if nargs = 0 then
    run_pre_handler BREAKPOINTS_COUNT execv_ok pre_entry (w.heap p).pre_handler
      (w.emit (Event.pre_handler (w.heap p) []))
  else if nargs = 1 then
    run_pre_handler BREAKPOINTS_COUNT execv_ok pre_entry (w.heap p).pre_handler
      (w.emit (Event.pre_handler (w.heap p) [regs.rdi]))
  else if nargs = 2 then
    run_pre_handler BREAKPOINTS_COUNT execv_ok pre_entry (w.heap p).pre_handler
      (w.emit (Event.pre_handler (w.heap p) [regs.rdi, regs.rsi]))
  else if nargs = 3 then
    run_pre_handler BREAKPOINTS_COUNT execv_ok pre_entry (w.heap p).pre_handler
      (w.emit (Event.pre_handler (w.heap p) [regs.rdi, regs.rsi, regs.rdx]))
  else ASSERT false w

/-- Lines 68-81: read the return address and build the return value catcher object;
the pointer `bp2` is the value of `w.next` before the call. -/
def alloc_return_catcher (w : World) (regs : Regs) : World :=
  let val_at_reg_rsp := peek w.tracee.mem regs.rsp
  let w := ptrace_peekdata w w.ctx.pid regs.rsp
  let w :=
    if w.OPT_VERBOSE then
      match pme_find_addr w.ctx.pme_head val_at_reg_rsp with
      | some pme => w.set_ret_ptr_section_type pme.pet
      | none => w
    else w
  let bp2 := w.next
  let w := calloc_breakpoint w
  let w := w.update bp2 (fun b => { b with name := "_tmp" })
  let w := w.update bp2 (fun b => { b with addr := val_at_reg_rsp })
  let w := w.update bp2 (fun b => { b with pre_handler := 0 })
  w.update bp2 (fun b => { b with post_handler := 0 })

/-- Lines 68-83: install the return value catcher and link it to its owner. -/
def install_return_catcher (BREAKPOINTS_COUNT : Nat) (w : World) (p : Nat) (regs : Regs) :
    World :=
  let bp2 := w.next
  let w := alloc_return_catcher w regs
  let w := install_breakpoint BREAKPOINTS_COUNT w bp2
  w.update bp2 (fun b => { b with _bp := some p })

/-- Lines 64-87: first hit of a regular breakpoint while no tracked call is active. -/
def enter_breakpoint (BREAKPOINTS_COUNT : Nat) (w : World) (p : Nat) (regs : Regs) : World :=
  let w := w.set_in_breakpoint true
  let w := w.update p (fun b => { b with _is_inside := true })
  if (w.heap p).post_handler ≠ 0 then install_return_catcher BREAKPOINTS_COUNT w p regs
  else w.set_in_breakpoint false

/-- Lines 93-104: a return value catcher was hit; `orig_bp` is its non-null `_bp`,
so the C `else` of `if (orig_bp)` has no counterpart. -/
def leave_breakpoint (w : World) (p : Nat) (orig_bp : Nat) (regs : Regs) : World :=
  let w :=
    if (w.heap orig_bp).post_handler ≠ 0 then
      w.emit (Event.post_handler (w.heap orig_bp) regs.rax)
    else w
  let w := _remove_breakpoint w p 1
  let w := w.update orig_bp (fun b => { b with _is_inside := false })
  w.set_in_breakpoint false

/-- Lines 90-91 and 107-108: write the trap opcode back at the hit address. -/
def reinstall (w : World) (p : Nat) (reg_rip : Nat) : World :=
  ptrace_pokedata w w.ctx.pid reg_rip (trap_word (w.heap p).orig_data)

/-- Lines 61-109: what follows the single-step. -/
def after_singlestep (BREAKPOINTS_COUNT : Nat) (w : World) (p : Nat) (regs : Regs)
    (reg_rip : Nat) : World :=
  if (w.heap p)._is_inside = false then
    match (w.heap p)._bp with
    | none =>
      let w := if w.in_breakpoint = false then enter_breakpoint BREAKPOINTS_COUNT w p regs else w
      reinstall w p reg_rip
    | some orig_bp => leave_breakpoint w p orig_bp regs
  else
    reinstall w p reg_rip

/-- Lines 36-55: restore the displaced word, rewind the instruction pointer and
call the pre-handler when no tracked call is active. -/
def before_singlestep (BREAKPOINTS_COUNT : Nat) (execv_ok : Bool) (pre_entry : Nat) (w : World)
    (p : Nat) (regs : Regs) (reg_rip : Nat) : World :=
  let w := ptrace_pokedata w w.ctx.pid reg_rip (u64 (w.heap p).orig_data)
  let w := ptrace_setregs w w.ctx.pid regs
  if w.in_breakpoint = false ∧ (w.heap p)._is_inside = false ∧ (w.heap p).pre_handler ≠ 0 then
    call_pre_handler BREAKPOINTS_COUNT execv_ok pre_entry w p regs
  else w

/-- Lines 34-111: the body run for a table entry whose address is the hit address.
The local register copy has `rip` set to `reg_rip` from line 39 on. A pre-handler that
aborts the tracer or replaces it by the debugger does not return, and nothing of the
body follows. -/
def hit (BREAKPOINTS_COUNT : Nat) (cpu : Tracee → Tracee) (execv_ok : Bool) (pre_entry : Nat)
    (w : World) (p : Nat) (regs : Regs) (reg_rip : Nat) : World :=
  let regs := { regs with rip := reg_rip }
  let w := before_singlestep BREAKPOINTS_COUNT execv_ok pre_entry w p regs reg_rip
  if w.status ≠ ProcStatus.running then w
  else
    let w := ptrace_singlestep cpu w w.ctx.pid
    let w := wait w
    after_singlestep BREAKPOINTS_COUNT w p regs reg_rip

/-- One iteration of the `for` loop of lines 30-115. -/
def visit (BREAKPOINTS_COUNT : Nat) (cpu : Tracee → Tracee) (execv_ok : Bool) (pre_entry : Nat)
    (regs : Regs) (reg_rip : Nat) (i : Nat) (w : World) : World :=
  if w.status ≠ ProcStatus.running then w
  else
    match w.ctx.breakpoints i with
    | none => w
    | some p =>
      if (w.heap p).addr = reg_rip then
        hit BREAKPOINTS_COUNT cpu execv_ok pre_entry w p regs reg_rip
      else w

/-- The iterations `i, i + 1, ..., i + n - 1` of the loop. -/
def visit_from (BREAKPOINTS_COUNT : Nat) (cpu : Tracee → Tracee) (execv_ok : Bool)
    (pre_entry : Nat) (regs : Regs) (reg_rip : Nat) : Nat → Nat → World → World
  | 0, _, w => w
  | n + 1, i, w =>
    visit_from BREAKPOINTS_COUNT cpu execv_ok pre_entry regs reg_rip n (i + 1)
      (visit BREAKPOINTS_COUNT cpu execv_ok pre_entry regs reg_rip i w)

/-- The hit address computed at line 26: `(uint64_t)regs.rip - 1`. -/
def hit_address (regs : Regs) : Nat := u64 (u64 regs.rip + (2 ^ 64 - 1))

/-- The function `_check_breakpoints`; `execv_ok` tells whether an `execv` of the debugger
succeeds and `pre_entry` is the address of `_pre_entry`. The local `_was_bp` is assigned
but never read and the function returns nothing, so it does not appear. -/
def _check_breakpoints (BREAKPOINTS_COUNT : Nat) (cpu : Tracee → Tracee) (execv_ok : Bool)
    (pre_entry : Nat) (w : World) : World :=
  let regs := w.tracee.regs
  let w := ptrace_getregs w w.ctx.pid
  let reg_rip := hit_address regs
  visit_from BREAKPOINTS_COUNT cpu execv_ok pre_entry regs reg_rip BREAKPOINTS_COUNT 0 w

/-! ## Symbol resolution (debugger.c, lines 119-179) -/

/-- The kinds of a `SymbolEntry`. -/
inductive SEType where
  | SE_TYPE_UNRESOLVED
  | SE_TYPE_STATIC
  | SE_TYPE_DYNAMIC
  | SE_TYPE_DYNAMIC_PLT
deriving DecidableEq, Repr

/-- A symbol record: name, kind and file offset. -/
structure SymbolEntry where
  name : String
  type : SEType
  offset : Nat
deriving DecidableEq, Repr

/-- One result of the signature finder. -/
structure FunctionSignature where
  name : String
  offset : Nat
deriving DecidableEq, Repr

/-- Modelled from the spec: `pme_walk` (find-by-kind), "returns the lowest-based
matching region"; of several regions with that base the first of the list. -/
def pme_walk (head : List ProcMapsEntry) (t : ProcELFType) : Option ProcMapsEntry :=
  (head.filter (fun e => decide (e.pet = t))).foldl
    (fun best e =>
      match best with
      | none => some e
      | some b => if e.base < b.base then some e else some b)
    none

/-- The function `_calc_offset`: the world after the call and the address returned. -/
def _calc_offset (w : World) (se : SymbolEntry) : World × Nat :=
  match pme_walk w.ctx.pme_head ProcELFType.PROCELF_TYPE_BINARY with
  | none => (ASSERT false w, 0)
  | some bin_pme =>
    if se.type = SEType.SE_TYPE_STATIC then (w, u64 (bin_pme.base + se.offset))
    else if se.type = SEType.SE_TYPE_DYNAMIC ∨ se.type = SEType.SE_TYPE_DYNAMIC_PLT then
      match pme_walk w.ctx.pme_head ProcELFType.PROCELF_TYPE_LIBC with
      | none => (w, 0)
      | some _ =>
        let got_ptr := u64 (bin_pme.base + se.offset)
        let got_val := u64 (peek w.tracee.mem got_ptr)
        let w := ptrace_peekdata w w.ctx.pid got_ptr
        if se.type = SEType.SE_TYPE_DYNAMIC_PLT ∧
            (got_val ≥ bin_pme.base ∧ got_val < bin_pme.end_) then
          (w, u64 (got_val + (2 ^ 64 - 6)))
        else (w, got_val)
    else (w, 0)

/-- Lines 165-172: give the address `ptr` to every breakpoint of the null-terminated
array `bps` whose name is the name of `sig`. -/
def assign_signature (w : World) (bps : List Nat) (sig : FunctionSignature) (ptr : Nat) : World :=
  bps.foldl (fun w bp =>
    if sig.name = (w.heap bp).name then w.update bp (fun b => { b with addr := ptr }) else w) w

/-- The function `evaluate_funcid`; `sigs` is the array returned by
`find_function_signatures`, of which the entries 0 to 4 are read, and `bps` the entries
of the breakpoint array before its terminating null pointer. -/
def evaluate_funcid (w : World) (bps : List Nat) (sigs : List FunctionSignature) : World :=
  match pme_walk w.ctx.pme_head ProcELFType.PROCELF_TYPE_BINARY with
  | none => ASSERT false w
  | some bin_pme =>
    (sigs.take 5).foldl (fun w sig =>
      if sig.offset ≠ 0 then assign_signature w bps sig (u64 (bin_pme.base + sig.offset))
      else w) w

/-! ## The event loop (debugger.c, lines 182-213 and 346-473) -/

/-- The macro `WIFEXITED` of `sys/wait.h`. -/
def WIFEXITED (status : Nat) : Bool := status % 128 == 0

/-- The macro `WIFSIGNALED` of `sys/wait.h`:
`((signed char) ((status & 0x7f) + 1) >> 1) > 0`. -/
def WIFSIGNALED (status : Nat) : Bool :=
  let v : Int := (status % 128 + 1 : Nat)
  let sc : Int := if v ≥ 128 then v - 256 else v
  decide (sc / 2 > 0)

/-- The value of `STATUS_SIGSEGV` (debugger.h). -/
def STATUS_SIGSEGV : Nat := 0xb7f

/-- The ptrace event numbers and option bits of `linux/ptrace.h`. -/
def PTRACE_EVENT_FORK : Nat := 1

/-- Event number of a `vfork`. -/
def PTRACE_EVENT_VFORK : Nat := 2

/-- Event number of a `clone`. -/
def PTRACE_EVENT_CLONE : Nat := 3

/-- Event number of an `exec`. -/
def PTRACE_EVENT_EXEC : Nat := 4

/-- Option bit `PTRACE_O_TRACEFORK`. -/
def PTRACE_O_TRACEFORK : Nat := 2

/-- Option bit `PTRACE_O_TRACEVFORK`. -/
def PTRACE_O_TRACEVFORK : Nat := 4

/-- Option bit `PTRACE_O_TRACECLONE`. -/
def PTRACE_O_TRACECLONE : Nat := 8

/-- Option bit `PTRACE_O_TRACEEXEC`. -/
def PTRACE_O_TRACEEXEC : Nat := 16

/-- Conversion of a `long` to `int`. -/
def int_of_long (x : Int) : Int := (x + 2 ^ 31) % 2 ^ 32 - 2 ^ 31

/-- Lines 192 and 197: the report names the operation in progress, which calls `get_oid`. -/
def log_between_pre_and_post (w : World) : World :=
  if w.ctx.between_pre_and_post ≠ none then (get_oid w).1 else w

/-- The function `end_debugger`; the text of the log, `show_stats` and `free_ctx` are
left out. -/
def end_debugger (BREAKPOINTS_COUNT : Nat) (execv_ok : Bool) (w : World)
    (should_detach : Bool) : World :=
  let status := w.ctx.status
  let _was_sigsegv :=
    if w.ctx.status16 = PTRACE_EVENT_EXEC then false
    else if status = STATUS_SIGSEGV ∨ status = 0x67f ∨
        (WIFSIGNALED status = true ∧ ¬ WIFEXITED status = true) then true
    else false
  let w :=
    if w.ctx.status16 = PTRACE_EVENT_EXEC then log_between_pre_and_post w
    else if status = STATUS_SIGSEGV ∨ status = 0x67f ∨
        (WIFSIGNALED status = true ∧ ¬ WIFEXITED status = true) then log_between_pre_and_post w
    else w
  if w.status ≠ ProcStatus.running then w
  else
    let w :=
      if _was_sigsegv then
        check_should_break BREAKPOINTS_COUNT execv_ok w 1 (u64_of_int w.BREAK_SIGSEGV) 0
      else w
    if w.status ≠ ProcStatus.running then w
    else
      let w := if should_detach then ptrace_detach w w.ctx.pid SIGCONT else w
      w.halt ProcStatus.exited

/-- The state of the `while` loop of `start_debugger`: the world and the locals
`child` and `first_signal`. -/
structure LoopState where
  w : World
  child : Int
  first_signal : Bool

/-- Lines 348-357: record the status, set the trace options, read the registers. -/
def loop_prologue (s : LoopState) (status : Nat) : LoopState :=
  let w := { s.w with ctx := { s.w.ctx with status := status, status16 := status / 65536 } }
  let w :=
    if w.OPT_FOLLOW_FORK then
      ptrace_setoptions w s.child
        (PTRACE_O_TRACEFORK + PTRACE_O_TRACEVFORK + PTRACE_O_TRACECLONE + PTRACE_O_TRACEEXEC)
    else ptrace_setoptions w s.child PTRACE_O_TRACEEXEC
  let w := ptrace_getregs w s.child
  { s with w := w }

/-- Lines 359-374: on the first stop, install the entry breakpoint. `at_entry` is what
`get_auxv_entry` returns, `pre_entry` the address of `_pre_entry`, and `junk` the
content of the memory `malloc` returns. -/
def loop_first_signal (BREAKPOINTS_COUNT : Nat) (at_entry pre_entry : Nat) (junk : Breakpoint)
    (s : LoopState) : LoopState :=
  if s.first_signal then
    let w := ASSERT (decide (at_entry ≠ 0)) s.w
    if w.status ≠ ProcStatus.running then { s with w := w, first_signal := false }
    else
      let bp_entry := w.next
      let w := { w with heap := fun q => if q = w.next then junk else w.heap q,
                        next := w.next + 1 }
      let w := w.update bp_entry (fun b => { b with name := "_entry" })
      let w := w.update bp_entry (fun b => { b with addr := at_entry })
      let w := w.update bp_entry (fun b => { b with pre_handler := pre_entry })
      let w := w.update bp_entry (fun b => { b with pre_handler_nargs := 0 })
      let w := w.update bp_entry (fun b => { b with post_handler := 0 })
      let w := install_breakpoint BREAKPOINTS_COUNT w bp_entry
      { s with w := w, first_signal := false }
  else s

/-- Lines 380-401: a fork, vfork or clone event; `newpid` is the event message, a `long`
that is converted to `int` where a pid is expected. -/
def loop_fork (s : LoopState) (newpid : Int) : LoopState :=
  let w := ptrace_geteventmsg s.w s.child
  if w.OPT_FOLLOW_FORK then
    let w := ptrace_detach w s.child SIGCONT
    let child := int_of_long newpid
    let w := { w with ctx := { w.ctx with pid := int_of_long newpid } }
    let w := ptrace_setoptions w (int_of_long newpid)
      (PTRACE_O_TRACEFORK + PTRACE_O_TRACEVFORK + PTRACE_O_TRACECLONE)
    { s with w := w, child := child }
  else
    let w := ptrace_detach w (int_of_long newpid) SIGSTOP
    { s with w := w }

/-- Lines 376-407: route the stop by its wait status. -/
def loop_dispatch (BREAKPOINTS_COUNT : Nat) (cpu : Tracee → Tracee) (execv_ok : Bool)
    (pre_entry : Nat) (newpid : Int) (status : Nat) (s : LoopState) : LoopState :=
  if WIFEXITED status = true ∨ WIFSIGNALED status = true ∨ status = STATUS_SIGSEGV ∨
      status = 0x67f then
    { s with w := end_debugger BREAKPOINTS_COUNT execv_ok s.w false }
  else if status = 0x57f then
    { s with w := _check_breakpoints BREAKPOINTS_COUNT cpu execv_ok pre_entry s.w }
  else if status / 65536 = PTRACE_EVENT_FORK ∨ status / 65536 = PTRACE_EVENT_VFORK ∨
      status / 65536 = PTRACE_EVENT_CLONE then
    loop_fork s newpid
  else if status / 65536 = PTRACE_EVENT_EXEC then
    { s with w := end_debugger BREAKPOINTS_COUNT execv_ok s.w true }
  else s

/-- Lines 409-472: map the symbols when requested, then continue the tracee.
`map_symbols` stands for lines 412-469, which rely on helpers outside the sources. -/
def loop_epilogue (map_symbols : Int → World → World) (s : LoopState) : LoopState :=
  let w :=
    if s.w.ctx.should_map_syms then
      map_symbols s.child { s.w with ctx := { s.w.ctx with should_map_syms := false } }
    else s.w
  if w.status ≠ ProcStatus.running then { s with w := w }
  else { s with w := ptrace_cont w s.child 0 }

/-- One iteration of the `while` loop of `start_debugger` for the wait status `status`.
A tracer that aborted, exited or was replaced executes nothing further. -/
def loop_iteration (BREAKPOINTS_COUNT : Nat) (cpu : Tracee → Tracee) (execv_ok : Bool)
    (map_symbols : Int → World → World) (at_entry pre_entry : Nat) (junk : Breakpoint)
    (newpid : Int) (status : Nat) (s : LoopState) : LoopState :=
  let s := loop_prologue s status
  let s := loop_first_signal BREAKPOINTS_COUNT at_entry pre_entry junk s
  if s.w.status ≠ ProcStatus.running then s
  else
    let s := loop_dispatch BREAKPOINTS_COUNT cpu execv_ok pre_entry newpid status s
    if s.w.status ≠ ProcStatus.running then s
    else loop_epilogue map_symbols s

/-! ## Vocabulary of the statements -/

/-- The events of lines 42-55 for a hit on the breakpoint `p`. -/
def pre_stage (w : World) (p : Nat) (regs : Regs) : List Event :=
  if w.in_breakpoint = false ∧ (w.heap p)._is_inside = false ∧ (w.heap p).pre_handler ≠ 0 then
    if 0 ≤ (w.heap p).pre_handler_nargs ∧ (w.heap p).pre_handler_nargs ≤ 3 then
      [Event.pre_handler (w.heap p)
        ([regs.rdi, regs.rsi, regs.rdx].take (w.heap p).pre_handler_nargs.toNat)]
    else [Event.assert_failed]
  else []

/-- The pre-handler is due but its arity is unsupported: the assertion of line 53 fails. -/
def pre_aborts (w : World) (p : Nat) : Prop :=
  (w.in_breakpoint = false ∧ (w.heap p)._is_inside = false ∧ (w.heap p).pre_handler ≠ 0) ∧
    ¬ (0 ≤ (w.heap p).pre_handler_nargs ∧ (w.heap p).pre_handler_nargs ≤ 3)

instance (w : World) (p : Nat) : Decidable (pre_aborts w p) := by
  unfold pre_aborts; infer_instance

/-- The pre-handler is due with a supported arity, it is `_pre_entry`, and break-at-main
is requested (`BREAK_MAIN` is 1): `_pre_entry` hands the tracee to the debugger through
`check_should_break` and does not return. -/
def pre_hands_off (pre_entry : Nat) (w : World) (p : Nat) : Prop :=
  (w.in_breakpoint = false ∧ (w.heap p)._is_inside = false ∧ (w.heap p).pre_handler ≠ 0) ∧
    (0 ≤ (w.heap p).pre_handler_nargs ∧ (w.heap p).pre_handler_nargs ≤ 3) ∧
    (w.heap p).pre_handler = pre_entry ∧ u64_of_int w.BREAK_MAIN = 1

/-- The events `_remove_breakpoint` issues. -/
def Event.is_uninstall : Event → Bool
  | Event.remove_breakpoint _ => true
  | Event.ptrace_peekdata _ _ => true
  | Event.ptrace_pokedata _ _ _ => true
  | _ => false

/-- The events of a handoff by `check_should_break`: the removal of all breakpoints with
its uninstall events, the detach with `SIGSTOP`, the `execv` of the debugger and, when
that fails, the failed assertion. -/
def handoff_events (pid : Int) (gdb : List Char) (uninstalls : List Event) (execv_ok : Bool) :
    List Event :=
  [Event.remove_breakpoints] ++ uninstalls ++
    [Event.ptrace_detach pid SIGSTOP, Event.execv [gdb, ['-', 'p'], snprintf_d 10 pid]] ++
    (if execv_ok = true then [] else [Event.assert_failed])

/-- The requirements of `install_breakpoint` hold and the table has a free slot. -/
def install_ok (BREAKPOINTS_COUNT : Nat) (w : World) (p : Nat) : Prop :=
  ¬ ((w.heap p).addr = 0 ∨ addr_installed BREAKPOINTS_COUNT w (w.heap p).addr = true) ∧
    (first_free_slot BREAKPOINTS_COUNT w.ctx.breakpoints).isSome = true

instance (N : Nat) (w : World) (p : Nat) : Decidable (install_ok N w p) := by
  unfold install_ok; infer_instance

/-- The world right after the `wait` of line 59, for a hit on the breakpoint `p`
with the rewound register copy `regs`. -/
def stepped (BREAKPOINTS_COUNT : Nat) (cpu : Tracee → Tracee) (execv_ok : Bool) (pre_entry : Nat)
    (w : World) (p : Nat) (regs : Regs) (reg_rip : Nat) : World :=
  wait (ptrace_singlestep cpu
    (before_singlestep BREAKPOINTS_COUNT execv_ok pre_entry w p regs reg_rip) w.ctx.pid)

/-- The world at line 68, after `in_breakpoint = 1; bp->_is_inside = 1`. -/
def entered (BREAKPOINTS_COUNT : Nat) (cpu : Tracee → Tracee) (execv_ok : Bool) (pre_entry : Nat)
    (w : World) (p : Nat) (regs : Regs) (reg_rip : Nat) : World :=
  ((stepped BREAKPOINTS_COUNT cpu execv_ok pre_entry w p regs reg_rip).set_in_breakpoint true).update p
    (fun b => { b with _is_inside := true })

/-- The local register copy after line 39: as read at the stop, with `rip` rewound. -/
def rewound (regs : Regs) : Regs := { regs with rip := hit_address regs }

/-- The return address read at line 68 during a hit on `p`. -/
def return_address (BREAKPOINTS_COUNT : Nat) (cpu : Tracee → Tracee) (execv_ok : Bool)
    (pre_entry : Nat) (w : World) (p : Nat) (regs : Regs) (reg_rip : Nat) : Nat :=
  peek (entered BREAKPOINTS_COUNT cpu execv_ok pre_entry w p regs reg_rip).tracee.mem regs.rsp

/-- The install of the return value catcher at line 82 succeeds during a hit on `p`. -/
def catcher_install_ok (BREAKPOINTS_COUNT : Nat) (cpu : Tracee → Tracee) (execv_ok : Bool)
    (pre_entry : Nat) (w : World) (p : Nat) (regs : Regs) (reg_rip : Nat) : Prop :=
  install_ok BREAKPOINTS_COUNT
    (alloc_return_catcher (entered BREAKPOINTS_COUNT cpu execv_ok pre_entry w p regs reg_rip) regs)
    w.next

/-- The return value catcher object as built by lines 77-81. -/
def tmp_breakpoint (val_at_reg_rsp : Nat) : Breakpoint :=
  { name := "_tmp", addr := val_at_reg_rsp, orig_data := 0, pre_handler := 0,
    pre_handler_nargs := 0, post_handler := 0, _is_inside := false, _bp := none }

/-- The tracer-side content of a world: table, pid, heap, allocation pointer,
`in_breakpoint`, process status and trace. -/
def Describes (w : World) (tab : Nat → Option Nat) (pid : Int) (heap : Nat → Breakpoint)
    (next : Nat) (inb : Bool) (st : ProcStatus) (tr : List Event) : Prop :=
  w.ctx.breakpoints = tab ∧ w.ctx.pid = pid ∧ w.heap = heap ∧ w.next = next ∧
    w.in_breakpoint = inb ∧ w.status = st ∧ w.trace = tr

/-- Valid pointers and pairwise distinct addresses in the breakpoint table: what
`install_breakpoint` and `calloc` maintain. -/
def TableOk (BREAKPOINTS_COUNT : Nat) (w : World) : Prop :=
  (∀ i, i < BREAKPOINTS_COUNT → ∀ p, w.ctx.breakpoints i = some p → p < w.next) ∧
  (∀ i, i < BREAKPOINTS_COUNT → ∀ j, j < BREAKPOINTS_COUNT → ∀ p q,
    w.ctx.breakpoints i = some p → w.ctx.breakpoints j = some q →
    (w.heap p).addr = (w.heap q).addr → i = j)

/-- The events up to and including the single-step of a hit on the breakpoint `p`. -/
def step_events (w : World) (p : Nat) (regs : Regs) (reg_rip : Nat) : List Event :=
  [Event.ptrace_pokedata w.ctx.pid reg_rip (u64 (w.heap p).orig_data),
    Event.ptrace_setregs w.ctx.pid regs] ++ pre_stage w p regs ++
  [Event.ptrace_singlestep w.ctx.pid
    { regs := regs, mem := poke w.tracee.mem reg_rip (u64 (w.heap p).orig_data) }, Event.wait]

/-- The events of a successful or failed `install_breakpoint` of the return value catcher
for the return address `val`, together with the read of that address. -/
def catcher_events (pid : Int) (rsp val word : Nat) (ok : Bool) : List Event :=
  [Event.ptrace_peekdata pid rsp, Event.install_breakpoint (tmp_breakpoint val) ok] ++
    (if ok then [Event.ptrace_peekdata pid val, Event.ptrace_pokedata pid val
      (word - word % 256 + 0xcc)] else [])

/-- The events of `_remove_breakpoint(ctx, bp, 1)` for the breakpoint object `b` when the
word at its address is `word`. -/
def remove_events (pid : Int) (b : Breakpoint) (word : Nat) : List Event :=
  [Event.remove_breakpoint b, Event.ptrace_peekdata pid b.addr,
    Event.ptrace_pokedata pid b.addr (word - word % 256 + b.orig_data % 256)]

/-- The seven ways the body of lines 34-111 can run for the breakpoint `p`, each with the
resulting tracer state; `t0` is the trace before the body. The register copy `regs`
is the one read at the stop and `a` the hit address. -/
def HitOutcome (N : Nat) (cpu : Tracee → Tracee) (execv_ok : Bool) (pre_entry : Nat)
    (w : World) (p : Nat) (regs : Regs) (a : Nat) (t0 : List Event) (w' : World) : Prop :=
  (pre_aborts w p ∧
    Describes w' w.ctx.breakpoints w.ctx.pid w.heap w.next w.in_breakpoint ProcStatus.aborted
      (t0 ++ [Event.ptrace_pokedata w.ctx.pid a (u64 (w.heap p).orig_data),
        Event.ptrace_setregs w.ctx.pid { regs with rip := a }, Event.assert_failed])) ∨
  (((w.heap p)._is_inside = true ∨ ((w.heap p)._bp = none ∧ w.in_breakpoint = true)) ∧
    Describes w' w.ctx.breakpoints w.ctx.pid w.heap w.next w.in_breakpoint ProcStatus.running
      (t0 ++ step_events w p { regs with rip := a } a ++
        [Event.ptrace_pokedata w.ctx.pid a (trap_word (w.heap p).orig_data)])) ∨
  (((w.heap p)._is_inside = false ∧ (w.heap p)._bp = none ∧ w.in_breakpoint = false ∧
      (w.heap p).post_handler = 0 ∧ (¬ pre_aborts w p ∧ ¬ pre_hands_off pre_entry w p)) ∧
    Describes w' w.ctx.breakpoints w.ctx.pid
      (fun q => if q = p then { w.heap q with _is_inside := true } else w.heap q)
      w.next false ProcStatus.running
      (t0 ++ step_events w p { regs with rip := a } a ++
        [Event.ptrace_pokedata w.ctx.pid a (trap_word (w.heap p).orig_data)])) ∨
  (((w.heap p)._is_inside = false ∧ (w.heap p)._bp = none ∧ w.in_breakpoint = false ∧
      (w.heap p).post_handler ≠ 0 ∧ (¬ pre_aborts w p ∧ ¬ pre_hands_off pre_entry w p) ∧
      ¬ catcher_install_ok N cpu execv_ok pre_entry w p { regs with rip := a } a) ∧
    Describes w' w.ctx.breakpoints w.ctx.pid
      (fun q => if q = w.next then
          { tmp_breakpoint
              (return_address N cpu execv_ok pre_entry w p { regs with rip := a } a) with
            _bp := some p }
        else if q = p then { w.heap q with _is_inside := true } else w.heap q)
      (w.next + 1) true ProcStatus.running
      (t0 ++ step_events w p { regs with rip := a } a ++
        catcher_events w.ctx.pid regs.rsp
          (return_address N cpu execv_ok pre_entry w p { regs with rip := a } a) 0 false ++
        [Event.ptrace_pokedata w.ctx.pid a (trap_word (w.heap p).orig_data)])) ∨
  (((w.heap p)._is_inside = false ∧ (w.heap p)._bp = none ∧ w.in_breakpoint = false ∧
      (w.heap p).post_handler ≠ 0 ∧ (¬ pre_aborts w p ∧ ¬ pre_hands_off pre_entry w p) ∧
      catcher_install_ok N cpu execv_ok pre_entry w p { regs with rip := a } a) ∧
    ∃ slot word, slot < N ∧ w.ctx.breakpoints slot = none ∧
    Describes w'
      (fun i => if i = slot then some w.next else w.ctx.breakpoints i) w.ctx.pid
      (fun q => if q = w.next then
          { tmp_breakpoint
              (return_address N cpu execv_ok pre_entry w p { regs with rip := a } a) with
            orig_data := word % 256, _bp := some p }
        else if q = p then { w.heap q with _is_inside := true } else w.heap q)
      (w.next + 1) true ProcStatus.running
      (t0 ++ step_events w p { regs with rip := a } a ++
        catcher_events w.ctx.pid regs.rsp
          (return_address N cpu execv_ok pre_entry w p { regs with rip := a } a) word true ++
        [Event.ptrace_pokedata w.ctx.pid a (trap_word (w.heap p).orig_data)])) ∨
  (∃ o, ((w.heap p)._is_inside = false ∧ (w.heap p)._bp = some o ∧
      (¬ pre_aborts w p ∧ ¬ pre_hands_off pre_entry w p)) ∧
    ∃ word,
    Describes w'
      (fun i => if w.ctx.breakpoints i = some p then none else w.ctx.breakpoints i) w.ctx.pid
      (fun q => if q = o then { w.heap q with _is_inside := false } else w.heap q)
      w.next false ProcStatus.running
      (t0 ++ step_events w p { regs with rip := a } a ++
        (if (w.heap o).post_handler ≠ 0 then [Event.post_handler (w.heap o) regs.rax]
          else []) ++
        remove_events w.ctx.pid (w.heap p) word)) ∨
  (pre_hands_off pre_entry w p ∧
    ∃ uninstalls, (∀ e, e ∈ uninstalls → e.is_uninstall = true) ∧
    (∀ i, i < N → w'.ctx.breakpoints i = none) ∧
    w'.ctx.pid = w.ctx.pid ∧ w'.heap = w.heap ∧ w'.next = w.next ∧
    w'.in_breakpoint = w.in_breakpoint ∧
    w'.status = (if execv_ok = true then ProcStatus.replaced else ProcStatus.aborted) ∧
    w'.trace = t0 ++ [Event.ptrace_pokedata w.ctx.pid a (u64 (w.heap p).orig_data),
        Event.ptrace_setregs w.ctx.pid { regs with rip := a }] ++
      pre_stage w p { regs with rip := a } ++
      handoff_events w.ctx.pid w.OPT_GDB_PATH uninstalls execv_ok)

/-- The pre-handler calls of a trace: breakpoint and argument list of each. -/
def pre_calls (t : List Event) : List (Breakpoint × List Nat) :=
  t.filterMap (fun e => match e with
    | Event.pre_handler b args => some (b, args)
    | _ => none)

/-- The post-handler calls of a trace: owner breakpoint and argument of each. -/
def post_calls (t : List Event) : List (Breakpoint × Nat) :=
  t.filterMap (fun e => match e with
    | Event.post_handler b arg => some (b, arg)
    | _ => none)

/-- The single-steps of a trace: the tracee state each one starts from. -/
def singlesteps (t : List Event) : List Tracee :=
  t.filterMap (fun e => match e with
    | Event.ptrace_singlestep _ t => some t
    | _ => none)

/-- Whether an event is a failed `install_breakpoint`. -/
def Event.is_install_failure : Event → Bool
  | Event.install_breakpoint _ ok => !ok
  | _ => false

/-! ## The dispatch as a state machine -/

/-- A breakpoint that is counted: it has both a pre- and a post-handler. -/
def tracked (b : Breakpoint) : Bool := b.pre_handler != 0 && b.post_handler != 0

/-- Number of pre-handler calls of counted breakpoints in a trace. -/
def pre_count (t : List Event) : Nat := ((pre_calls t).filter (fun c => tracked c.1)).length

/-- Number of post-handler calls of counted breakpoints in a trace. -/
def post_count (t : List Event) : Nat := ((post_calls t).filter (fun c => tracked c.1)).length

/-- The tracer dispatches the stops of the tracee one after the other; each stop comes
with the tracee state at that stop. A tracer that aborted or was replaced by the debugger
dispatches nothing. -/
def dispatch_hits (BREAKPOINTS_COUNT : Nat) (cpu : Tracee → Tracee) (execv_ok : Bool)
    (pre_entry : Nat) (w : World) (stops : List Tracee) : World :=
  stops.foldl (fun w t =>
    if w.status = ProcStatus.running then
      _check_breakpoints BREAKPOINTS_COUNT cpu execv_ok pre_entry (w.setTracee t)
    else w) w

/-- The initial state of the state machine: nothing dispatched yet, `in_breakpoint` clear,
a well-formed table of regular breakpoints none of which is inside. -/
def Initial (BREAKPOINTS_COUNT : Nat) (w : World) : Prop :=
  w.status = ProcStatus.running ∧ w.in_breakpoint = false ∧ w.trace = [] ∧
  TableOk BREAKPOINTS_COUNT w ∧
  ∀ i, i < BREAKPOINTS_COUNT → ∀ p, w.ctx.breakpoints i = some p →
    (w.heap p)._bp = none ∧ (w.heap p)._is_inside = false

/-- The adjustment the spec describes for a dynamic-plt symbol: "if the word lies within
[binary.base, binary.end), subtract 6; otherwise use the word as-is". -/
def plt_adjusted (bin : ProcMapsEntry) (word : Nat) : Nat :=
  if bin.base ≤ word ∧ word < bin.end_ then u64 (word + (2 ^ 64 - 6)) else word

/-- A signature that is consumed for breakpoints called `name`: non-zero offset, same name. -/
def signature_matches (name : String) (sig : FunctionSignature) : Bool :=
  decide (sig.offset ≠ 0) && decide (sig.name = name)

/-- The address a breakpoint called `name` ends with when the signatures are applied in
order to the address `addr`. -/
def funcid_addr (base : Nat) (sigs : List FunctionSignature) (name : String) (addr : Nat) : Nat :=
  sigs.foldl (fun a sig => if signature_matches name sig = true then u64 (base + sig.offset)
    else a) addr

/-- The exact sum of the five counters. -/
def counter_sum (c : HeaptraceContext) : Nat :=
  c.malloc_count + c.calloc_count + c.free_count + c.realloc_count + c.reallocarray_count

/-! ## Example worlds -/

/-- The entry breakpoint as `start_debugger` builds it: a pre-handler without arguments
and no post-handler. -/
def example_entry : Breakpoint :=
  { name := "_entry", addr := 0x400800, orig_data := 0x31, pre_handler := 3,
    pre_handler_nargs := 0, post_handler := 0, _is_inside := false, _bp := none }

/-- The `malloc` breakpoint as `start_debugger` builds it. -/
def example_malloc : Breakpoint :=
  { name := "malloc", addr := 0x401000, orig_data := 0x55, pre_handler := 1,
    pre_handler_nargs := 1, post_handler := 2, _is_inside := false, _bp := none }

/-- A context with the entry and the `malloc` breakpoint installed in a table of four. -/
def example_ctx : HeaptraceContext :=
  { pid := 4242,
    breakpoints := fun i => if i = 0 then some 0 else if i = 1 then some 1 else none,
    pme_head := [{ pet := ProcELFType.PROCELF_TYPE_BINARY, base := 0x400000, end_ := 0x500000 }],
    ret_ptr_section_type := none,
    malloc_count := 0, calloc_count := 0, free_count := 0, realloc_count := 0,
    reallocarray_count := 0, between_pre_and_post := none, status := 0x57f, status16 := 0,
    should_map_syms := false }

/-- The tracee stopped after the trap at the entry of `malloc`, called with 24; the
return address on the stack is 0x400900. -/
def example_stop_malloc : Tracee :=
  { regs := { rip := 0x401001, rdi := 24, rsi := 0, rdx := 0, rax := 0, rsp := 0x7ffe0000 },
    mem := fun a => if a = 0x7ffe0000 then 0x00 else if a = 0x7ffe0001 then 0x09
      else if a = 0x7ffe0002 then 0x40 else if a = 0x404018 then 0x36
      else if a = 0x404019 then 0x10 else if a = 0x40401a then 0x40 else 0 }

/-- The tracee stopped after the trap at the return address 0x400900 with 0x405000 in
`rax`. -/
def example_stop_return : Tracee :=
  { regs := { rip := 0x400901, rdi := 0, rsi := 0, rdx := 0, rax := 0x405000,
              rsp := 0x7ffe0008 },
    mem := fun _ => 0 }

/-- The tracee stopped after the trap at the entry point. -/
def example_stop_entry : Tracee :=
  { regs := { rip := 0x400801, rdi := 0, rsi := 0, rdx := 0, rax := 0, rsp := 0x7ffe0000 },
    mem := fun _ => 0 }

/-- A tracer before any dispatch, its tracee stopped at the entry of `malloc`. -/
def example_world : World :=
  { ctx := example_ctx,
    heap := fun p => if p = 0 then example_entry else if p = 1 then example_malloc
      else zero_breakpoint,
    next := 2, in_breakpoint := false, OPT_VERBOSE := false, OPT_FOLLOW_FORK := false,
    OPT_GDB_PATH := ['/', 'u', 's', 'r', '/', 'b', 'i', 'n', '/', 'g', 'd', 'b'],
    BREAK_MAIN := 0, BREAK_SIGSEGV := 0,
    tracee := example_stop_malloc, trace := [], status := ProcStatus.running }

/-- The return value catcher of the `malloc` call of `example_stop_malloc`. -/
def example_catcher : Breakpoint :=
  { name := "_tmp", addr := 0x400900, orig_data := 0x48, pre_handler := 0,
    pre_handler_nargs := 0, post_handler := 0, _is_inside := false, _bp := some 1 }

/-- A tracer inside the tracked `malloc` call, its tracee stopped at the return address. -/
def example_world_inside : World :=
  { ctx := { example_ctx with
      breakpoints := fun i => if i = 0 then some 0 else if i = 1 then some 1
        else if i = 2 then some 2 else none },
    heap := fun p => if p = 0 then example_entry
      else if p = 1 then { example_malloc with _is_inside := true }
      else if p = 2 then example_catcher else zero_breakpoint,
    next := 3, in_breakpoint := true, OPT_VERBOSE := false, OPT_FOLLOW_FORK := false,
    OPT_GDB_PATH := ['/', 'u', 's', 'r', '/', 'b', 'i', 'n', '/', 'g', 'd', 'b'],
    BREAK_MAIN := 0, BREAK_SIGSEGV := 0,
    tracee := example_stop_return, trace := [], status := ProcStatus.running }

/-- The single-step of the examples leaves the tracee as it is. -/
def example_cpu : Tracee → Tracee := fun t => t

/-- A dynamic-plt symbol record whose GOT word is at offset 0x4018 of the binary. -/
def example_plt_symbol : SymbolEntry :=
  { name := "malloc", type := SEType.SE_TYPE_DYNAMIC_PLT, offset := 0x4018 }

/-- The example world with a libc region in its memory map. -/
def example_world_libc : World :=
  { example_world with ctx := { example_ctx with pme_head :=
      [{ pet := ProcELFType.PROCELF_TYPE_BINARY, base := 0x400000, end_ := 0x500000 },
       { pet := ProcELFType.PROCELF_TYPE_LIBC, base := 0x7f0000000000,
         end_ := 0x7f0000200000 }] } }

/-- Five results of the signature finder: `malloc` and `free` are recognised. -/
def example_signatures : List FunctionSignature :=
  [{ name := "malloc", offset := 0x1180 }, { name := "calloc", offset := 0 },
   { name := "free", offset := 0x1200 }, { name := "realloc", offset := 0 },
   { name := "reallocarray", offset := 0 }]

/-- The loop of `start_debugger` after the first stop, tracking pid 4242. -/
def example_loop : LoopState :=
  { w := example_world, child := 4242, first_signal := false }

/-! ## The re-arm word as the source computes it (debugger.c, lines 91 and 108) -/

/-- The character constant `'\xcc'` converted to `int`: `char` is signed on x86-64. -/
def char_xcc : Int := -52

/-- The operator `~` on a `uint64_t`. -/
def not64 (x : Nat) : Nat := 2 ^ 64 - 1 - u64 x

/-- The expression of lines 91 and 108, operator by operator:
`((uint64_t)bp->orig_data & ~((uint64_t)0xff)) | ((uint64_t)'\xcc' & (uint64_t)0xff)`. -/
def rearm_word (orig_data : Nat) : Nat :=
  (u64 orig_data &&& not64 0xff) ||| (u64_of_int char_xcc &&& u64 0xff)

/-! ## Startup and symbol mapping in `start_debugger` (debugger.c, lines 249-311 and 409-469) -/

/-- The addresses of the handler functions of `handlers.h`. -/
structure Handlers where
  pre_malloc : Nat
  post_malloc : Nat
  pre_calloc : Nat
  post_calloc : Nat
  pre_free : Nat
  post_free : Nat
  pre_realloc : Nat
  post_realloc : Nat
  pre_reallocarray : Nat
  post_reallocarray : Nat

/-- One of the five blocks of lines 250-288: allocate a breakpoint object and set its
name and handlers; the pointer returned is `w.next`. -/
def new_allocator_breakpoint (w : World) (name : String) (pre_handler : Nat) (nargs : Int)
    (post_handler : Nat) : World :=
  let bp := w.next
  let w := calloc_breakpoint w
  let w := w.update bp (fun b => { b with name := name })
  let w := w.update bp (fun b => { b with pre_handler := pre_handler })
  let w := w.update bp (fun b => { b with pre_handler_nargs := nargs })
  w.update bp (fun b => { b with post_handler := post_handler })

/-- Lines 250-288: the breakpoint objects `bp_malloc`, `bp_calloc`, `bp_free`,
`bp_realloc` and `bp_reallocarray`, at the pointers `w.next` to `w.next + 4`. -/
def start_debugger_breakpoints (h : Handlers) (w : World) : World :=
  let w := new_allocator_breakpoint w "malloc" h.pre_malloc 1 h.post_malloc
  let w := new_allocator_breakpoint w "calloc" h.pre_calloc 2 h.post_calloc
  let w := new_allocator_breakpoint w "free" h.pre_free 1 h.post_free
  let w := new_allocator_breakpoint w "realloc" h.pre_realloc 2 h.post_realloc
  new_allocator_breakpoint w "reallocarray" h.pre_reallocarray 3 h.post_reallocarray

/-- What `start_debugger` has computed and reported at line 311, before it starts the
tracee: the flags and the warnings issued so far. -/
structure Startup where
  target_is_dynamic : Bool
  target_is_stripped : Bool
  show_banner : Bool
  look_for_brk : Bool
  warnings : List String

/-- The warning of line 307 (its request). -/
def symbols_warning : String := "Please specify symbols via the -s/--symbols argument."

/-- Lines 301-311: the flags computed from the five symbol records that `lookup_symbols`
has filled in, and the warning; `symbol_defs_str` is the argument of `--symbols`. -/
def start_debugger_flags (se_malloc se_calloc se_free se_realloc se_reallocarray : SymbolEntry)
    (symbol_defs_str : List Char) : Startup :=
  let target_is_dynamic :=
    (decide (se_malloc.type = SEType.SE_TYPE_DYNAMIC) ||
      decide (se_calloc.type = SEType.SE_TYPE_DYNAMIC) ||
      decide (se_free.type = SEType.SE_TYPE_DYNAMIC) ||
      decide (se_realloc.type = SEType.SE_TYPE_DYNAMIC) ||
      decide (se_reallocarray.type = SEType.SE_TYPE_DYNAMIC)) ||
    (decide (se_malloc.type = SEType.SE_TYPE_DYNAMIC_PLT) ||
      decide (se_calloc.type = SEType.SE_TYPE_DYNAMIC_PLT) ||
      decide (se_free.type = SEType.SE_TYPE_DYNAMIC_PLT) ||
      decide (se_realloc.type = SEType.SE_TYPE_DYNAMIC_PLT) ||
      decide (se_reallocarray.type = SEType.SE_TYPE_DYNAMIC_PLT))
  let target_is_stripped :=
    decide (se_malloc.type = SEType.SE_TYPE_UNRESOLVED) &&
      decide (se_calloc.type = SEType.SE_TYPE_UNRESOLVED) &&
      decide (se_free.type = SEType.SE_TYPE_UNRESOLVED) &&
      decide (se_realloc.type = SEType.SE_TYPE_UNRESOLVED) &&
      decide (se_reallocarray.type = SEType.SE_TYPE_UNRESOLVED)
  if target_is_stripped && decide (symbol_defs_str.length = 0) then
    { target_is_dynamic := target_is_dynamic, target_is_stripped := target_is_stripped,
      show_banner := true, look_for_brk := target_is_dynamic, warnings := [symbols_warning] }
  else
    { target_is_dynamic := target_is_dynamic, target_is_stripped := target_is_stripped,
      show_banner := false, look_for_brk := target_is_dynamic, warnings := [] }

/-- One of the assignments of lines 449-453: `bp->addr = _calc_offset(ctx, se)`. -/
def assign_offset (w : World) (bp : Nat) (se : SymbolEntry) : World :=
  if w.status ≠ ProcStatus.running then w
  else
    let r := _calc_offset w se
    if r.1.status ≠ ProcStatus.running then r.1
    else r.1.update bp (fun b => { b with addr := r.2 })

/-- Lines 412-469, run when `should_map_syms` was set: record the memory map, give each
allocator breakpoint its address, let the signature finder (for a stripped target) and
the `--symbols` overrides replace addresses, and install the five breakpoints. `maps` is
what `build_pme_list` returns, `sigs` what the signature finder returns, and
`evaluate_symbol_defs`, which is not among the sources, is a parameter. The libc path and
version strings are left out. -/
def map_symbols (BREAKPOINTS_COUNT : Nat) (maps : List ProcMapsEntry)
    (se_malloc se_calloc se_free se_realloc se_reallocarray : SymbolEntry)
    (bp_malloc bp_calloc bp_free bp_realloc bp_reallocarray : Nat)
    (target_is_stripped : Bool) (sigs : List FunctionSignature)
    (evaluate_symbol_defs : World → List Nat → World) (w : World) : World :=
  let w := { w with ctx := { w.ctx with pme_head := maps } }
  let w := ASSERT (pme_walk maps ProcELFType.PROCELF_TYPE_BINARY).isSome w
  let w := assign_offset w bp_malloc se_malloc
  let w := assign_offset w bp_calloc se_calloc
  let w := assign_offset w bp_free se_free
  let w := assign_offset w bp_realloc se_realloc
  let w := assign_offset w bp_reallocarray se_reallocarray
  if w.status ≠ ProcStatus.running then w
  else
    let bps := [bp_malloc, bp_calloc, bp_free, bp_realloc, bp_reallocarray]
    let w := if target_is_stripped then evaluate_funcid w bps sigs else w
    if w.status ≠ ProcStatus.running then w
    else
      let w := evaluate_symbol_defs w bps
      if w.status ≠ ProcStatus.running then w
      else bps.foldl (fun w bp => install_breakpoint BREAKPOINTS_COUNT w bp) w

/-! ## Vocabulary of the statements about shutdown and the event loop -/

/-- The events of a debugger handoff by `check_should_break`: the removal of all
breakpoints, the detach with `SIGSTOP` and the `execv` of the debugger. -/
def Event.is_handoff : Event → Bool
  | Event.remove_breakpoints => true
  | Event.ptrace_detach _ sig => sig == SIGSTOP
  | Event.execv _ => true
  | _ => false

/-- The condition under which `end_debugger` hands the tracee to the debugger: the
report of lines 187-199 does not abort, the stop is not an exec event, the wait status
is the sigsegv stop, the abort stop `0x67f` or a death by signal, and `BREAK_SIGSEGV`
is 1. -/
def handoff_due (w : World) : Prop :=
  (log_between_pre_and_post w).status = ProcStatus.running ∧
  w.ctx.status16 ≠ PTRACE_EVENT_EXEC ∧
  (w.ctx.status = STATUS_SIGSEGV ∨ w.ctx.status = 0x67f ∨
    (WIFSIGNALED w.ctx.status = true ∧ WIFEXITED w.ctx.status = false)) ∧
  u64_of_int w.BREAK_SIGSEGV = 1

/-- The example tracer with break-at-sigsegv set, its tracee stopped by `SIGABRT`
(wait status `0x67f`). -/
def example_world_abort : World :=
  { example_world with ctx := { example_ctx with status := 0x67f }, BREAK_SIGSEGV := 1 }

/-- The example tracer with break-at-sigsegv set, its tracee killed by `SIGKILL`
(wait status 9). -/
def example_world_killed : World :=
  { example_world with ctx := { example_ctx with status := 9 }, BREAK_SIGSEGV := 1 }

/-- The example tracer with break-at-sigsegv set, its tracee exited with status 0. -/
def example_world_exit : World :=
  { example_world with ctx := { example_ctx with status := 0 }, BREAK_SIGSEGV := 1 }

/-- The continues of the tracee that deliver the signal `sig`. -/
def Event.is_cont_with (sig : Nat) : Event → Bool
  | Event.ptrace_cont _ s => s == sig
  | _ => false

/-- The successful installs of a breakpoint named `name`. -/
def Event.is_install_of (name : String) : Event → Bool
  | Event.install_breakpoint b ok => ok && b.name == name
  | _ => false

/-- The tracee stopped by a trap at 0x402001, where no breakpoint was planted. -/
def example_stop_stray : Tracee :=
  { regs := { rip := 0x402001, rdi := 0, rsi := 0, rdx := 0, rax := 0, rsp := 0x7ffe0000 },
    mem := fun _ => 0 }

/-- The example loop at a trap that belongs to no breakpoint. -/
def example_loop_stray : LoopState :=
  { w := { example_world with tracee := example_stop_stray }, child := 4242,
    first_signal := false }

/-- The example loop with break-at-sigsegv set. -/
def example_loop_break_sigsegv : LoopState :=
  { w := { example_world with BREAK_SIGSEGV := 1 }, child := 4242, first_signal := false }

/-- Handler addresses for the examples. -/
def example_handlers : Handlers :=
  { pre_malloc := 1, post_malloc := 2, pre_calloc := 3, post_calloc := 4, pre_free := 5,
    post_free := 6, pre_realloc := 7, post_realloc := 8, pre_reallocarray := 9,
    post_reallocarray := 10 }

/-- A symbol record that `lookup_symbols` could not resolve. -/
def example_unresolved (name : String) : SymbolEntry :=
  { name := name, type := SEType.SE_TYPE_UNRESOLVED, offset := 0 }

/-- The tracer of a fully stripped target at line 289: an empty table and the five
allocator breakpoint objects at the pointers 0 to 4. -/
def example_world_stripped : World :=
  start_debugger_breakpoints example_handlers
    { example_world with
      ctx := { example_ctx with breakpoints := fun _ => none, pme_head := [] },
      heap := fun _ => zero_breakpoint, next := 0, tracee := example_stop_entry }

/-- The memory map of the examples: the binary at 0x400000. -/
def example_maps : List ProcMapsEntry :=
  [{ pet := ProcELFType.PROCELF_TYPE_BINARY, base := 0x400000, end_ := 0x500000 }]

/-- The symbol mapping of the stripped example: no `--symbols` override, the signature
finder returning `sigs`. -/
def example_map_symbols (sigs : List FunctionSignature) : World :=
  map_symbols 8 example_maps (example_unresolved "malloc") (example_unresolved "calloc")
    (example_unresolved "free") (example_unresolved "realloc")
    (example_unresolved "reallocarray") 0 1 2 3 4
    (start_debugger_flags (example_unresolved "malloc") (example_unresolved "calloc")
      (example_unresolved "free") (example_unresolved "realloc")
      (example_unresolved "reallocarray") []).target_is_stripped
    sigs (fun w _ => w) example_world_stripped

/-- Whether an event is the write of the word `val` at `addr`. -/
def Event.is_poke_of (addr val : Nat) : Event → Bool
  | Event.ptrace_pokedata _ a v => a == addr && v == val
  | _ => false

/-- The tracee stopped after the trap at the entry point, the trap opcode in place at
the entry point and at `malloc`. -/
def example_stop_entry_armed : Tracee :=
  { regs := { rip := 0x400801, rdi := 0, rsi := 0, rdx := 0, rax := 0, rsp := 0x7ffe0000 },
    mem := fun a => if a = 0x400800 then 0xcc else if a = 0x401000 then 0xcc else 0 }

/-- A tracer run with `--break-main` (`BREAK_MAIN` is 1) before any dispatch, its tracee
stopped at the entry point. -/
def example_world_break_main : World :=
  { example_world with BREAK_MAIN := 1, tracee := example_stop_entry_armed }

@[simp]
theorem emit_proj (w : World) (e : Event) :
    (w.emit e).ctx = w.ctx ∧ (w.emit e).heap = w.heap ∧ (w.emit e).next = w.next ∧
    (w.emit e).in_breakpoint = w.in_breakpoint ∧ (w.emit e).OPT_VERBOSE = w.OPT_VERBOSE ∧
    (w.emit e).OPT_FOLLOW_FORK = w.OPT_FOLLOW_FORK ∧ (w.emit e).OPT_GDB_PATH = w.OPT_GDB_PATH ∧
    (w.emit e).tracee = w.tracee ∧ (w.emit e).trace = w.trace ++ [e] ∧
    (w.emit e).status = w.status :=
  ⟨rfl, rfl, rfl, rfl, rfl, rfl, rfl, rfl, rfl, rfl⟩

@[simp]
theorem update_proj (w : World) (p : Nat) (f : Breakpoint → Breakpoint) :
    (w.update p f).ctx = w.ctx ∧
    (w.update p f).heap = (fun q => if q = p then f (w.heap q) else w.heap q) ∧
    (w.update p f).next = w.next ∧
    (w.update p f).in_breakpoint = w.in_breakpoint ∧ (w.update p f).OPT_VERBOSE = w.OPT_VERBOSE ∧
    (w.update p f).OPT_FOLLOW_FORK = w.OPT_FOLLOW_FORK ∧
    (w.update p f).OPT_GDB_PATH = w.OPT_GDB_PATH ∧
    (w.update p f).tracee = w.tracee ∧ (w.update p f).trace = w.trace ∧
    (w.update p f).status = w.status :=
  ⟨rfl, rfl, rfl, rfl, rfl, rfl, rfl, rfl, rfl, rfl⟩

@[simp]
theorem setTable_proj (w : World) (t : Nat → Option Nat) :
    (w.setTable t).ctx.breakpoints = t ∧ (w.setTable t).ctx.pid = w.ctx.pid ∧
    (w.setTable t).ctx.pme_head = w.ctx.pme_head ∧
    (w.setTable t).heap = w.heap ∧ (w.setTable t).next = w.next ∧
    (w.setTable t).in_breakpoint = w.in_breakpoint ∧ (w.setTable t).OPT_VERBOSE = w.OPT_VERBOSE ∧
    (w.setTable t).OPT_FOLLOW_FORK = w.OPT_FOLLOW_FORK ∧
    (w.setTable t).OPT_GDB_PATH = w.OPT_GDB_PATH ∧
    (w.setTable t).tracee = w.tracee ∧ (w.setTable t).trace = w.trace ∧
    (w.setTable t).status = w.status :=
  ⟨rfl, rfl, rfl, rfl, rfl, rfl, rfl, rfl, rfl, rfl, rfl, rfl⟩

@[simp]
theorem set_in_breakpoint_proj (w : World) (b : Bool) :
    (w.set_in_breakpoint b).ctx = w.ctx ∧ (w.set_in_breakpoint b).heap = w.heap ∧
    (w.set_in_breakpoint b).next = w.next ∧ (w.set_in_breakpoint b).in_breakpoint = b ∧
    (w.set_in_breakpoint b).OPT_VERBOSE = w.OPT_VERBOSE ∧
    (w.set_in_breakpoint b).OPT_FOLLOW_FORK = w.OPT_FOLLOW_FORK ∧
    (w.set_in_breakpoint b).OPT_GDB_PATH = w.OPT_GDB_PATH ∧
    (w.set_in_breakpoint b).tracee = w.tracee ∧ (w.set_in_breakpoint b).trace = w.trace ∧
    (w.set_in_breakpoint b).status = w.status :=
  ⟨rfl, rfl, rfl, rfl, rfl, rfl, rfl, rfl, rfl, rfl⟩

@[simp]
theorem set_ret_ptr_section_type_proj (w : World) (t : ProcELFType) :
    (w.set_ret_ptr_section_type t).ctx.breakpoints = w.ctx.breakpoints ∧
    (w.set_ret_ptr_section_type t).ctx.pid = w.ctx.pid ∧
    (w.set_ret_ptr_section_type t).ctx.pme_head = w.ctx.pme_head ∧
    (w.set_ret_ptr_section_type t).heap = w.heap ∧
    (w.set_ret_ptr_section_type t).next = w.next ∧
    (w.set_ret_ptr_section_type t).in_breakpoint = w.in_breakpoint ∧
    (w.set_ret_ptr_section_type t).OPT_VERBOSE = w.OPT_VERBOSE ∧
    (w.set_ret_ptr_section_type t).OPT_FOLLOW_FORK = w.OPT_FOLLOW_FORK ∧
    (w.set_ret_ptr_section_type t).OPT_GDB_PATH = w.OPT_GDB_PATH ∧
    (w.set_ret_ptr_section_type t).tracee = w.tracee ∧
    (w.set_ret_ptr_section_type t).trace = w.trace ∧
    (w.set_ret_ptr_section_type t).status = w.status :=
  ⟨rfl, rfl, rfl, rfl, rfl, rfl, rfl, rfl, rfl, rfl, rfl, rfl⟩

@[simp]
theorem setTracee_proj (w : World) (t : Tracee) :
    (w.setTracee t).ctx = w.ctx ∧ (w.setTracee t).heap = w.heap ∧
    (w.setTracee t).next = w.next ∧ (w.setTracee t).in_breakpoint = w.in_breakpoint ∧
    (w.setTracee t).OPT_VERBOSE = w.OPT_VERBOSE ∧
    (w.setTracee t).OPT_FOLLOW_FORK = w.OPT_FOLLOW_FORK ∧
    (w.setTracee t).OPT_GDB_PATH = w.OPT_GDB_PATH ∧
    (w.setTracee t).tracee = t ∧ (w.setTracee t).trace = w.trace ∧
    (w.setTracee t).status = w.status :=
  ⟨rfl, rfl, rfl, rfl, rfl, rfl, rfl, rfl, rfl, rfl⟩

@[simp]
theorem halt_proj (w : World) (s : ProcStatus) :
    (w.halt s).ctx = w.ctx ∧ (w.halt s).heap = w.heap ∧
    (w.halt s).next = w.next ∧ (w.halt s).in_breakpoint = w.in_breakpoint ∧
    (w.halt s).OPT_VERBOSE = w.OPT_VERBOSE ∧
    (w.halt s).OPT_FOLLOW_FORK = w.OPT_FOLLOW_FORK ∧
    (w.halt s).OPT_GDB_PATH = w.OPT_GDB_PATH ∧
    (w.halt s).tracee = w.tracee ∧ (w.halt s).trace = w.trace ∧
    (w.halt s).status = s :=
  ⟨rfl, rfl, rfl, rfl, rfl, rfl, rfl, rfl, rfl, rfl⟩

@[simp]
theorem calloc_breakpoint_proj (w : World) :
    (calloc_breakpoint w).ctx = w.ctx ∧
    (calloc_breakpoint w).heap = (fun q => if q = w.next then zero_breakpoint else w.heap q) ∧
    (calloc_breakpoint w).next = w.next + 1 ∧
    (calloc_breakpoint w).in_breakpoint = w.in_breakpoint ∧
    (calloc_breakpoint w).OPT_VERBOSE = w.OPT_VERBOSE ∧
    (calloc_breakpoint w).OPT_FOLLOW_FORK = w.OPT_FOLLOW_FORK ∧
    (calloc_breakpoint w).OPT_GDB_PATH = w.OPT_GDB_PATH ∧
    (calloc_breakpoint w).tracee = w.tracee ∧ (calloc_breakpoint w).trace = w.trace ∧
    (calloc_breakpoint w).status = w.status :=
  ⟨rfl, rfl, rfl, rfl, rfl, rfl, rfl, rfl, rfl, rfl⟩

@[simp]
theorem break_flags_proj (w : World) (e : Event) (p : Nat) (f : Breakpoint → Breakpoint)
    (t : Nat → Option Nat) (b : Bool) (y : ProcELFType) (x : Tracee) (s : ProcStatus) :
    (w.emit e).BREAK_MAIN = w.BREAK_MAIN ∧ (w.emit e).BREAK_SIGSEGV = w.BREAK_SIGSEGV ∧
    (w.update p f).BREAK_MAIN = w.BREAK_MAIN ∧ (w.update p f).BREAK_SIGSEGV = w.BREAK_SIGSEGV ∧
    (w.setTable t).BREAK_MAIN = w.BREAK_MAIN ∧ (w.setTable t).BREAK_SIGSEGV = w.BREAK_SIGSEGV ∧
    (w.set_in_breakpoint b).BREAK_MAIN = w.BREAK_MAIN ∧
    (w.set_in_breakpoint b).BREAK_SIGSEGV = w.BREAK_SIGSEGV ∧
    (w.set_ret_ptr_section_type y).BREAK_MAIN = w.BREAK_MAIN ∧
    (w.set_ret_ptr_section_type y).BREAK_SIGSEGV = w.BREAK_SIGSEGV ∧
    (w.setTracee x).BREAK_MAIN = w.BREAK_MAIN ∧ (w.setTracee x).BREAK_SIGSEGV = w.BREAK_SIGSEGV ∧
    (w.halt s).BREAK_MAIN = w.BREAK_MAIN ∧ (w.halt s).BREAK_SIGSEGV = w.BREAK_SIGSEGV ∧
    (calloc_breakpoint w).BREAK_MAIN = w.BREAK_MAIN ∧
    (calloc_breakpoint w).BREAK_SIGSEGV = w.BREAK_SIGSEGV :=
  ⟨rfl, rfl, rfl, rfl, rfl, rfl, rfl, rfl, rfl, rfl, rfl, rfl, rfl, rfl, rfl, rfl⟩

@[simp]
theorem set_should_map_syms_proj (w : World) (b : Bool) :
    (w.set_should_map_syms b).ctx.breakpoints = w.ctx.breakpoints ∧
    (w.set_should_map_syms b).ctx.pid = w.ctx.pid ∧
    (w.set_should_map_syms b).ctx.pme_head = w.ctx.pme_head ∧
    (w.set_should_map_syms b).ctx.should_map_syms = b ∧
    (w.set_should_map_syms b).heap = w.heap ∧ (w.set_should_map_syms b).next = w.next ∧
    (w.set_should_map_syms b).in_breakpoint = w.in_breakpoint ∧
    (w.set_should_map_syms b).OPT_VERBOSE = w.OPT_VERBOSE ∧
    (w.set_should_map_syms b).OPT_FOLLOW_FORK = w.OPT_FOLLOW_FORK ∧
    (w.set_should_map_syms b).OPT_GDB_PATH = w.OPT_GDB_PATH ∧
    (w.set_should_map_syms b).BREAK_MAIN = w.BREAK_MAIN ∧
    (w.set_should_map_syms b).BREAK_SIGSEGV = w.BREAK_SIGSEGV ∧
    (w.set_should_map_syms b).tracee = w.tracee ∧ (w.set_should_map_syms b).trace = w.trace ∧
    (w.set_should_map_syms b).status = w.status :=
  ⟨rfl, rfl, rfl, rfl, rfl, rfl, rfl, rfl, rfl, rfl, rfl, rfl, rfl, rfl, rfl⟩

attribute [simp] ptrace_getregs ptrace_setregs ptrace_peekdata ptrace_pokedata ptrace_singlestep
  wait reinstall ptrace_detach ptrace_cont ptrace_setoptions ptrace_geteventmsg

@[simp]
theorem ASSERT_false (w : World) :
    ASSERT false w = (w.emit Event.assert_failed).halt ProcStatus.aborted := rfl

@[simp]
theorem ASSERT_true (w : World) : ASSERT true w = w := rfl

/-! ## Install and uninstall -/

theorem first_free_slot_some {N : Nat} {t : Nat → Option Nat} {s : Nat}
    (h : first_free_slot N t = some s) : s < N ∧ t s = none := by
  unfold first_free_slot at h
  have h1 := List.find?_some h
  have h2 := List.mem_of_find?_eq_some h
  simp only [List.mem_range] at h2
  exact ⟨h2, by simpa using h1⟩

theorem addr_installed_false {N : Nat} {w : World} {a : Nat}
    (h : addr_installed N w a = false) :
    ∀ k, k < N → ∀ q, w.ctx.breakpoints k = some q → (w.heap q).addr ≠ a := by
  intro k hk q hq
  unfold addr_installed at h
  rw [List.any_eq_false] at h
  have := h k (List.mem_range.mpr hk)
  simpa [hq] using this

theorem install_at_proj (w : World) (p slot : Nat) :
    (install_at w p slot).ctx.breakpoints =
        (fun i => if i = slot then some p else w.ctx.breakpoints i) ∧
    (install_at w p slot).ctx.pid = w.ctx.pid ∧
    (install_at w p slot).heap = (fun q => if q = p then
        { w.heap q with orig_data := peek w.tracee.mem (w.heap p).addr % 256 } else w.heap q) ∧
    (install_at w p slot).next = w.next ∧
    (install_at w p slot).in_breakpoint = w.in_breakpoint ∧
    (install_at w p slot).status = w.status ∧
    (install_at w p slot).trace = w.trace ++
      [Event.install_breakpoint (w.heap p) true,
       Event.ptrace_peekdata w.ctx.pid (w.heap p).addr,
       Event.ptrace_pokedata w.ctx.pid (w.heap p).addr
        (peek w.tracee.mem (w.heap p).addr - peek w.tracee.mem (w.heap p).addr % 256 + 0xcc)] := by
  simp [install_at]

theorem install_breakpoint_fail (N : Nat) (w : World) (p : Nat) (h : ¬ install_ok N w p) :
    install_breakpoint N w p = w.emit (Event.install_breakpoint (w.heap p) false) := by
  unfold install_breakpoint
  unfold install_ok at h
  by_cases hc : (w.heap p).addr = 0 ∨ addr_installed N w (w.heap p).addr = true
  · rw [if_pos hc]
  · rw [if_neg hc]
    have : first_free_slot N w.ctx.breakpoints = none := by
      cases hf : first_free_slot N w.ctx.breakpoints with
      | none => rfl
      | some s => exact absurd ⟨hc, by simp [hf]⟩ h
    rw [this]

theorem install_breakpoint_ok (N : Nat) (w : World) (p : Nat) (h : install_ok N w p) :
    ∃ slot, slot < N ∧ w.ctx.breakpoints slot = none ∧
      install_breakpoint N w p = install_at w p slot := by
  unfold install_breakpoint
  obtain ⟨hc, hf⟩ := h
  rw [if_neg hc]
  cases hs : first_free_slot N w.ctx.breakpoints with
  | none => simp [hs] at hf
  | some s =>
    obtain ⟨h1, h2⟩ := first_free_slot_some hs
    exact ⟨s, h1, h2, rfl⟩

theorem remove_breakpoint_proj (w : World) (p : Nat) :
    (_remove_breakpoint w p 1).ctx.breakpoints =
        (fun i => if w.ctx.breakpoints i = some p then none else w.ctx.breakpoints i) ∧
    (_remove_breakpoint w p 1).ctx.pid = w.ctx.pid ∧
    (_remove_breakpoint w p 1).heap = w.heap ∧
    (_remove_breakpoint w p 1).next = w.next ∧
    (_remove_breakpoint w p 1).in_breakpoint = w.in_breakpoint ∧
    (_remove_breakpoint w p 1).status = w.status ∧
    (_remove_breakpoint w p 1).trace = w.trace ++
      [Event.remove_breakpoint (w.heap p),
       Event.ptrace_peekdata w.ctx.pid (w.heap p).addr,
       Event.ptrace_pokedata w.ctx.pid (w.heap p).addr
        (peek w.tracee.mem (w.heap p).addr - peek w.tracee.mem (w.heap p).addr % 256 +
          (w.heap p).orig_data % 256)] := by
  simp [_remove_breakpoint]

/-! ## Removing all breakpoints and the handoff to the debugger -/

theorem remove_breakpoint_extends (w : World) (p : Nat) :
    (_remove_breakpoint w p 1).ctx.pid = w.ctx.pid ∧
    (_remove_breakpoint w p 1).OPT_GDB_PATH = w.OPT_GDB_PATH ∧
    (_remove_breakpoint w p 1).status = w.status ∧
    (∀ i, w.ctx.breakpoints i = none ∨ w.ctx.breakpoints i = some p →
      (_remove_breakpoint w p 1).ctx.breakpoints i = none) ∧
    ∃ rest, (_remove_breakpoint w p 1).trace = w.trace ++ rest ∧
      ∀ e, e ∈ rest → e.is_uninstall = true := by
  refine ⟨by simp [remove_breakpoint_proj], by simp [_remove_breakpoint],
    by simp [remove_breakpoint_proj], ?_, ?_⟩
  · intro i hi
    simp only [remove_breakpoint_proj]
    rcases hi with h | h
    · simp [h]
    · simp [h]
  · rw [(remove_breakpoint_proj w p).2.2.2.2.2.2]
    exact ⟨_, rfl, by simp [Event.is_uninstall]⟩

theorem remove_all_fold (l : List Nat) :
    ∀ w : World,
    let w' := l.foldl (fun w i =>
      match w.ctx.breakpoints i with
      | some p => _remove_breakpoint w p 1
      | none => w) w
    w'.ctx.pid = w.ctx.pid ∧ w'.OPT_GDB_PATH = w.OPT_GDB_PATH ∧ w'.status = w.status ∧
    (∀ i, w.ctx.breakpoints i = none → w'.ctx.breakpoints i = none) ∧
    (∀ i, i ∈ l → w'.ctx.breakpoints i = none) ∧
    ∃ rest, w'.trace = w.trace ++ rest ∧ ∀ e, e ∈ rest → e.is_uninstall = true := by
  induction l with
  | nil => intro w; exact ⟨rfl, rfl, rfl, fun _ h => h, by simp, [], by simp, by simp⟩
  | cons a t ih =>
    intro w
    simp only [List.foldl_cons]
    cases ha : w.ctx.breakpoints a with
    | none =>
      simp only []
      obtain ⟨h1, h2, h3, h4, h5, h6⟩ := ih w
      refine ⟨h1, h2, h3, h4, ?_, h6⟩
      intro i hi
      rcases List.mem_cons.mp hi with h | h
      · subst h
        exact h4 i ha
      · exact h5 i h
    | some p =>
      simp only []
      obtain ⟨h1, h2, h3, h4, h5, rest2, h6, h7⟩ := ih (_remove_breakpoint w p 1)
      obtain ⟨r1, r2, r3, r4, rest1, r5, r6⟩ := remove_breakpoint_extends w p
      refine ⟨h1.trans r1, h2.trans r2, h3.trans r3, ?_, ?_, rest1 ++ rest2, ?_, ?_⟩
      · intro i hi
        exact h4 i (r4 i (Or.inl hi))
      · intro i hi
        rcases List.mem_cons.mp hi with h | h
        · subst h
          exact h4 i (r4 i (Or.inr ha))
        · exact h5 i h
      · rw [h6, r5, List.append_assoc]
      · intro e he
        rcases List.mem_append.mp he with h | h
        · exact r6 e h
        · exact h7 e h

theorem remove_breakpoints_spec (N : Nat) (w : World) :
    (_remove_breakpoints N w).ctx.pid = w.ctx.pid ∧
    (_remove_breakpoints N w).OPT_GDB_PATH = w.OPT_GDB_PATH ∧
    (_remove_breakpoints N w).status = w.status ∧
    (∀ i, i < N → (_remove_breakpoints N w).ctx.breakpoints i = none) ∧
    ∃ rest, (_remove_breakpoints N w).trace = w.trace ++ [Event.remove_breakpoints] ++ rest ∧
      ∀ e, e ∈ rest → e.is_uninstall = true := by
  obtain ⟨h1, h2, h3, -, h5, rest, h6, h7⟩ := remove_all_fold (List.range N)
    (w.emit Event.remove_breakpoints)
  refine ⟨by simpa using h1, by simpa using h2, by simpa using h3, ?_, rest, ?_, h7⟩
  · intro i hi
    exact h5 i (List.mem_range.mpr hi)
  · simpa [_remove_breakpoints] using h6

theorem remove_all_fold_fixed (l : List Nat) :
    ∀ w : World,
    (l.foldl (fun w i =>
      match w.ctx.breakpoints i with
      | some p => _remove_breakpoint w p 1
      | none => w) w).heap = w.heap ∧
    (l.foldl (fun w i =>
      match w.ctx.breakpoints i with
      | some p => _remove_breakpoint w p 1
      | none => w) w).next = w.next ∧
    (l.foldl (fun w i =>
      match w.ctx.breakpoints i with
      | some p => _remove_breakpoint w p 1
      | none => w) w).in_breakpoint = w.in_breakpoint := by
  induction l with
  | nil => intro w; exact ⟨rfl, rfl, rfl⟩
  | cons a t ih =>
    intro w
    simp only [List.foldl_cons]
    cases ha : w.ctx.breakpoints a with
    | none => simpa using ih w
    | some p =>
      simp only []
      obtain ⟨h1, h2, h3⟩ := ih (_remove_breakpoint w p 1)
      obtain ⟨-, -, r3, r4, r5, -, -⟩ := remove_breakpoint_proj w p
      exact ⟨h1.trans r3, h2.trans r4, h3.trans r5⟩

theorem remove_breakpoints_fixed (N : Nat) (w : World) :
    (_remove_breakpoints N w).heap = w.heap ∧ (_remove_breakpoints N w).next = w.next ∧
    (_remove_breakpoints N w).in_breakpoint = w.in_breakpoint := by
  simpa [_remove_breakpoints] using
    remove_all_fold_fixed (List.range N) (w.emit Event.remove_breakpoints)

theorem check_should_break_world (N : Nat) (execv_ok : Bool) (w : World) (x : Nat) (z : Int) :
    (check_should_break N execv_ok w x x z).status =
      (if execv_ok = true then ProcStatus.replaced else ProcStatus.aborted) ∧
    (∀ i, i < N → (check_should_break N execv_ok w x x z).ctx.breakpoints i = none) ∧
    (check_should_break N execv_ok w x x z).ctx.pid = w.ctx.pid ∧
    (check_should_break N execv_ok w x x z).heap = w.heap ∧
    (check_should_break N execv_ok w x x z).next = w.next ∧
    (check_should_break N execv_ok w x x z).in_breakpoint = w.in_breakpoint ∧
    ∃ uninstalls, (∀ e, e ∈ uninstalls → e.is_uninstall = true) ∧
      (check_should_break N execv_ok w x x z).trace =
        w.trace ++ handoff_events w.ctx.pid w.OPT_GDB_PATH uninstalls execv_ok := by
  obtain ⟨h1, h2, -, h4, rest, h5, h6⟩ := remove_breakpoints_spec N w
  obtain ⟨f1, f2, f3⟩ := remove_breakpoints_fixed N w
  generalize hR : _remove_breakpoints N w = R at h1 h2 h4 h5 f1 f2 f3
  have e : check_should_break N execv_ok w x x z =
      (if execv_ok = true then
        ((R.emit (Event.ptrace_detach w.ctx.pid SIGSTOP)).emit
          (Event.execv [w.OPT_GDB_PATH, ['-', 'p'], snprintf_d 10 w.ctx.pid])).halt
          ProcStatus.replaced
      else
        (((R.emit (Event.ptrace_detach w.ctx.pid SIGSTOP)).emit
          (Event.execv [w.OPT_GDB_PATH, ['-', 'p'], snprintf_d 10 w.ctx.pid])).emit
          Event.assert_failed).halt ProcStatus.aborted) := by
    simp only [check_should_break, decide_True, if_true, ptrace_detach, emit_proj, hR, h1, h2,
      ASSERT_false]
  rw [e]
  cases execv_ok with
  | true =>
    simp only [if_true, halt_proj, emit_proj]
    exact ⟨trivial, h4, h1, f1, f2, f3, rest, h6, by simp [h5, handoff_events]⟩
  | false =>
    simp only [Bool.false_eq_true, if_false, halt_proj, emit_proj]
    exact ⟨trivial, h4, h1, f1, f2, f3, rest, h6, by simp [h5, handoff_events]⟩

theorem pre_entry_returns (N : Nat) (execv_ok : Bool) (w : World)
    (h : u64_of_int w.BREAK_MAIN ≠ 1) :
    _pre_entry N execv_ok w = w.set_should_map_syms true := by
  unfold _pre_entry
  simp only [set_should_map_syms_proj]
  simp [check_should_break, h]

theorem pre_entry_hands_off (N : Nat) (execv_ok : Bool) (w : World)
    (h : u64_of_int w.BREAK_MAIN = 1) :
    _pre_entry N execv_ok w = check_should_break N execv_ok (w.set_should_map_syms true) 1 1 0 := by
  unfold _pre_entry
  simp only [set_should_map_syms_proj, h]

/-! ## The stage before the single-step -/

theorem run_pre_handler_returns (N : Nat) (execv_ok : Bool) (pre_entry f : Nat) (w : World)
    (h : f = pre_entry → u64_of_int w.BREAK_MAIN ≠ 1) :
    run_pre_handler N execv_ok pre_entry f w =
      if f = pre_entry then w.set_should_map_syms true else w := by
  unfold run_pre_handler
  split_ifs with hf
  · exact pre_entry_returns N execv_ok w (h hf)
  · rfl

theorem call_pre_handler_ok (N : Nat) (execv_ok : Bool) (pre_entry : Nat) (w : World) (p : Nat)
    (regs : Regs)
    (h : 0 ≤ (w.heap p).pre_handler_nargs ∧ (w.heap p).pre_handler_nargs ≤ 3) :
    call_pre_handler N execv_ok pre_entry w p regs =
      run_pre_handler N execv_ok pre_entry (w.heap p).pre_handler
        (w.emit (Event.pre_handler (w.heap p)
          ([regs.rdi, regs.rsi, regs.rdx].take (w.heap p).pre_handler_nargs.toNat))) := by
  obtain ⟨h0, h3⟩ := h
  generalize hn : (w.heap p).pre_handler_nargs = n at h0 h3
  simp only [call_pre_handler, hn]
  have : n = 0 ∨ n = 1 ∨ n = 2 ∨ n = 3 := by omega
  rcases this with rfl | rfl | rfl | rfl <;> simp

theorem call_pre_handler_bad (N : Nat) (execv_ok : Bool) (pre_entry : Nat) (w : World) (p : Nat)
    (regs : Regs)
    (h : ¬ (0 ≤ (w.heap p).pre_handler_nargs ∧ (w.heap p).pre_handler_nargs ≤ 3)) :
    call_pre_handler N execv_ok pre_entry w p regs =
      (w.emit Event.assert_failed).halt ProcStatus.aborted := by
  generalize hn : (w.heap p).pre_handler_nargs = n at h
  simp only [call_pre_handler, hn, ASSERT_false]
  have h0 : n ≠ 0 := by omega
  have h1 : n ≠ 1 := by omega
  have h2 : n ≠ 2 := by omega
  have h3 : n ≠ 3 := by omega
  simp [h0, h1, h2, h3]

theorem call_pre_handler_fixed (N : Nat) (execv_ok : Bool) (pre_entry : Nat) (w : World)
    (p : Nat) (regs : Regs) :
    (call_pre_handler N execv_ok pre_entry w p regs).ctx.pid = w.ctx.pid ∧
    (call_pre_handler N execv_ok pre_entry w p regs).heap = w.heap ∧
    (call_pre_handler N execv_ok pre_entry w p regs).next = w.next ∧
    (call_pre_handler N execv_ok pre_entry w p regs).in_breakpoint = w.in_breakpoint := by
  by_cases hn : 0 ≤ (w.heap p).pre_handler_nargs ∧ (w.heap p).pre_handler_nargs ≤ 3
  · rw [call_pre_handler_ok _ _ _ _ _ _ hn]
    unfold run_pre_handler
    split_ifs with hf
    · by_cases hm : u64_of_int w.BREAK_MAIN = 1
      · rw [pre_entry_hands_off _ _ _ (by simpa using hm)]
        obtain ⟨-, -, c3, c4, c5, c6, -⟩ := check_should_break_world N execv_ok
          ((w.emit (Event.pre_handler (w.heap p) ([regs.rdi, regs.rsi, regs.rdx].take
            (w.heap p).pre_handler_nargs.toNat))).set_should_map_syms true) 1 0
        exact ⟨by simpa using c3, by simpa using c4, by simpa using c5, by simpa using c6⟩
      · rw [pre_entry_returns _ _ _ (by simpa using hm)]
        simp
    · simp
  · rw [call_pre_handler_bad _ _ _ _ _ _ hn]
    simp

theorem call_pre_handler_returns (N : Nat) (execv_ok : Bool) (pre_entry : Nat) (w : World)
    (p : Nat) (regs : Regs)
    (h : ¬ ((0 ≤ (w.heap p).pre_handler_nargs ∧ (w.heap p).pre_handler_nargs ≤ 3) ∧
      (w.heap p).pre_handler = pre_entry ∧ u64_of_int w.BREAK_MAIN = 1)) :
    (call_pre_handler N execv_ok pre_entry w p regs).ctx.breakpoints = w.ctx.breakpoints ∧
    (call_pre_handler N execv_ok pre_entry w p regs).ctx.pme_head = w.ctx.pme_head ∧
    (call_pre_handler N execv_ok pre_entry w p regs).OPT_VERBOSE = w.OPT_VERBOSE ∧
    (call_pre_handler N execv_ok pre_entry w p regs).tracee = w.tracee ∧
    (call_pre_handler N execv_ok pre_entry w p regs).status =
      (if 0 ≤ (w.heap p).pre_handler_nargs ∧ (w.heap p).pre_handler_nargs ≤ 3 then w.status
        else ProcStatus.aborted) ∧
    (call_pre_handler N execv_ok pre_entry w p regs).trace = w.trace ++
      (if 0 ≤ (w.heap p).pre_handler_nargs ∧ (w.heap p).pre_handler_nargs ≤ 3 then
        [Event.pre_handler (w.heap p)
          ([regs.rdi, regs.rsi, regs.rdx].take (w.heap p).pre_handler_nargs.toNat)]
      else [Event.assert_failed]) := by
  by_cases hn : 0 ≤ (w.heap p).pre_handler_nargs ∧ (w.heap p).pre_handler_nargs ≤ 3
  · rw [call_pre_handler_ok _ _ _ _ _ _ hn, if_pos hn, if_pos hn,
      run_pre_handler_returns _ _ _ _ _ (fun hf => by
        intro hm
        exact h ⟨hn, hf, by simpa using hm⟩)]
    split_ifs <;> simp
  · rw [call_pre_handler_bad _ _ _ _ _ _ hn, if_neg hn, if_neg hn]
    simp

theorem call_pre_handler_handoff (N : Nat) (execv_ok : Bool) (pre_entry : Nat) (w : World)
    (p : Nat) (regs : Regs)
    (hn : 0 ≤ (w.heap p).pre_handler_nargs ∧ (w.heap p).pre_handler_nargs ≤ 3)
    (hf : (w.heap p).pre_handler = pre_entry) (hm : u64_of_int w.BREAK_MAIN = 1) :
    (call_pre_handler N execv_ok pre_entry w p regs).status =
      (if execv_ok = true then ProcStatus.replaced else ProcStatus.aborted) ∧
    (∀ i, i < N → (call_pre_handler N execv_ok pre_entry w p regs).ctx.breakpoints i = none) ∧
    ∃ uninstalls, (∀ e, e ∈ uninstalls → e.is_uninstall = true) ∧
      (call_pre_handler N execv_ok pre_entry w p regs).trace =
        w.trace ++ [Event.pre_handler (w.heap p)
          ([regs.rdi, regs.rsi, regs.rdx].take (w.heap p).pre_handler_nargs.toNat)] ++
        handoff_events w.ctx.pid w.OPT_GDB_PATH uninstalls execv_ok := by
  rw [call_pre_handler_ok _ _ _ _ _ _ hn]
  unfold run_pre_handler
  rw [if_pos hf, pre_entry_hands_off _ _ _ (by simpa using hm)]
  obtain ⟨c1, c2, -, -, -, -, uninstalls, c7, c8⟩ := check_should_break_world N execv_ok
    ((w.emit (Event.pre_handler (w.heap p) ([regs.rdi, regs.rsi, regs.rdx].take
      (w.heap p).pre_handler_nargs.toNat))).set_should_map_syms true) 1 0
  exact ⟨c1, c2, uninstalls, c7, by simpa using c8⟩

theorem before_singlestep_fixed (N : Nat) (execv_ok : Bool) (pre_entry : Nat) (w : World)
    (p : Nat) (regs : Regs) (a : Nat) :
    (before_singlestep N execv_ok pre_entry w p regs a).ctx.pid = w.ctx.pid ∧
    (before_singlestep N execv_ok pre_entry w p regs a).heap = w.heap ∧
    (before_singlestep N execv_ok pre_entry w p regs a).next = w.next ∧
    (before_singlestep N execv_ok pre_entry w p regs a).in_breakpoint = w.in_breakpoint := by
  unfold before_singlestep
  simp only []
  split_ifs
  · simp [call_pre_handler_fixed]
  · simp

theorem before_singlestep_proj (N : Nat) (execv_ok : Bool) (pre_entry : Nat) (w : World)
    (p : Nat) (regs : Regs) (a : Nat) (hh : ¬ pre_hands_off pre_entry w p) :
    (before_singlestep N execv_ok pre_entry w p regs a).ctx.breakpoints = w.ctx.breakpoints ∧
    (before_singlestep N execv_ok pre_entry w p regs a).ctx.pme_head = w.ctx.pme_head ∧
    (before_singlestep N execv_ok pre_entry w p regs a).OPT_VERBOSE = w.OPT_VERBOSE ∧
    (before_singlestep N execv_ok pre_entry w p regs a).tracee =
      { regs := regs, mem := poke w.tracee.mem a (u64 (w.heap p).orig_data) } ∧
    (before_singlestep N execv_ok pre_entry w p regs a).status =
      (if pre_aborts w p then ProcStatus.aborted else w.status) ∧
    (before_singlestep N execv_ok pre_entry w p regs a).trace =
      w.trace ++ [Event.ptrace_pokedata w.ctx.pid a (u64 (w.heap p).orig_data),
        Event.ptrace_setregs w.ctx.pid regs] ++ pre_stage w p regs := by
  unfold before_singlestep pre_stage pre_aborts
  unfold pre_hands_off at hh
  simp only [ptrace_pokedata, ptrace_setregs, setTracee_proj, emit_proj]
  by_cases hc : w.in_breakpoint = false ∧ (w.heap p)._is_inside = false ∧ (w.heap p).pre_handler ≠ 0
  · rw [if_pos hc, if_pos hc]
    obtain ⟨r1, r2, r3, r4, r5, r6⟩ := call_pre_handler_returns N execv_ok pre_entry
      (((w.emit (Event.ptrace_pokedata w.ctx.pid a (u64 (w.heap p).orig_data))).setTracee
        { regs := w.tracee.regs, mem := poke w.tracee.mem a (u64 (w.heap p).orig_data) }).emit
        (Event.ptrace_setregs w.ctx.pid regs) |>.setTracee
        { regs := regs, mem := poke w.tracee.mem a (u64 (w.heap p).orig_data) }) p regs
      (by
        simp only [setTracee_proj, emit_proj, break_flags_proj]
        intro hx
        exact hh ⟨hc, hx⟩)
    simp only [setTracee_proj, emit_proj] at r1 r2 r3 r4 r5 r6
    refine ⟨r1, r2, r3, r4, ?_, ?_⟩
    · rw [r5]
      by_cases hn : 0 ≤ (w.heap p).pre_handler_nargs ∧ (w.heap p).pre_handler_nargs ≤ 3
      · simp [hn, hc]
      · simp [hn, hc]
    · rw [r6]
      by_cases hn : 0 ≤ (w.heap p).pre_handler_nargs ∧ (w.heap p).pre_handler_nargs ≤ 3
      · simp [hn]
      · simp [hn]
  · rw [if_neg hc, if_neg hc, if_neg (by tauto)]
    simp

theorem before_singlestep_status (N : Nat) (execv_ok : Bool) (pre_entry : Nat) (w : World)
    (p : Nat) (regs : Regs) (a : Nat) (hh : ¬ pre_hands_off pre_entry w p) :
    (before_singlestep N execv_ok pre_entry w p regs a).status =
      if pre_aborts w p then ProcStatus.aborted else w.status :=
  (before_singlestep_proj N execv_ok pre_entry w p regs a hh).2.2.2.2.1

theorem before_singlestep_handoff (N : Nat) (execv_ok : Bool) (pre_entry : Nat) (w : World)
    (p : Nat) (regs : Regs) (a : Nat) (hh : pre_hands_off pre_entry w p) :
    (before_singlestep N execv_ok pre_entry w p regs a).status =
      (if execv_ok = true then ProcStatus.replaced else ProcStatus.aborted) ∧
    (∀ i, i < N → (before_singlestep N execv_ok pre_entry w p regs a).ctx.breakpoints i = none) ∧
    ∃ uninstalls, (∀ e, e ∈ uninstalls → e.is_uninstall = true) ∧
      (before_singlestep N execv_ok pre_entry w p regs a).trace =
        w.trace ++ [Event.ptrace_pokedata w.ctx.pid a (u64 (w.heap p).orig_data),
          Event.ptrace_setregs w.ctx.pid regs] ++ pre_stage w p regs ++
        handoff_events w.ctx.pid w.OPT_GDB_PATH uninstalls execv_ok := by
  obtain ⟨hc, hn, hf, hm⟩ := hh
  unfold before_singlestep pre_stage
  simp only [ptrace_pokedata, ptrace_setregs, setTracee_proj, emit_proj]
  rw [if_pos hc, if_pos hc, if_pos hn]
  obtain ⟨c1, c2, uninstalls, c3, c4⟩ := call_pre_handler_handoff N execv_ok pre_entry
    (((w.emit (Event.ptrace_pokedata w.ctx.pid a (u64 (w.heap p).orig_data))).setTracee
      { regs := w.tracee.regs, mem := poke w.tracee.mem a (u64 (w.heap p).orig_data) }).emit
      (Event.ptrace_setregs w.ctx.pid regs) |>.setTracee
      { regs := regs, mem := poke w.tracee.mem a (u64 (w.heap p).orig_data) }) p regs
    (by simpa using hn) (by simpa using hf) (by simpa using hm)
  refine ⟨c1, c2, uninstalls, c3, ?_⟩
  rw [c4]
  simp

theorem pre_hands_off_not_aborts {pre_entry : Nat} {w : World} {p : Nat}
    (h : pre_hands_off pre_entry w p) : ¬ pre_aborts w p :=
  fun ha => ha.2 h.2.1

/-! ## Entering and leaving a tracked call -/

theorem alloc_return_catcher_proj (w : World) (regs : Regs) :
    (alloc_return_catcher w regs).ctx.breakpoints = w.ctx.breakpoints ∧
    (alloc_return_catcher w regs).ctx.pid = w.ctx.pid ∧
    (alloc_return_catcher w regs).heap = (fun q => if q = w.next then
        tmp_breakpoint (peek w.tracee.mem regs.rsp) else w.heap q) ∧
    (alloc_return_catcher w regs).next = w.next + 1 ∧
    (alloc_return_catcher w regs).in_breakpoint = w.in_breakpoint ∧
    (alloc_return_catcher w regs).status = w.status ∧
    (alloc_return_catcher w regs).tracee = w.tracee ∧
    (alloc_return_catcher w regs).trace = w.trace ++ [Event.ptrace_peekdata w.ctx.pid regs.rsp] := by
  unfold alloc_return_catcher
  simp only [ptrace_peekdata, emit_proj]
  refine ⟨?_, ?_, ?_, ?_, ?_, ?_, ?_, ?_⟩ <;>
    (split_ifs <;> (try split) <;>
      simp [tmp_breakpoint, zero_breakpoint, funext_iff] <;> intro q <;> split_ifs <;> rfl)

theorem install_return_catcher_fail (N : Nat) (w : World) (p : Nat) (regs : Regs)
    (h : ¬ install_ok N (alloc_return_catcher w regs) w.next) :
    (install_return_catcher N w p regs).ctx.breakpoints = w.ctx.breakpoints ∧
    (install_return_catcher N w p regs).ctx.pid = w.ctx.pid ∧
    (install_return_catcher N w p regs).heap = (fun q => if q = w.next then
        { tmp_breakpoint (peek w.tracee.mem regs.rsp) with _bp := some p } else w.heap q) ∧
    (install_return_catcher N w p regs).next = w.next + 1 ∧
    (install_return_catcher N w p regs).in_breakpoint = w.in_breakpoint ∧
    (install_return_catcher N w p regs).status = w.status ∧
    (install_return_catcher N w p regs).trace = w.trace ++
      [Event.ptrace_peekdata w.ctx.pid regs.rsp,
       Event.install_breakpoint (tmp_breakpoint (peek w.tracee.mem regs.rsp)) false] := by
  unfold install_return_catcher
  simp only []
  rw [install_breakpoint_fail N _ _ h]
  simp [alloc_return_catcher_proj, funext_iff]
  intro q
  split_ifs <;> rfl

theorem install_return_catcher_ok (N : Nat) (w : World) (p : Nat) (regs : Regs)
    (h : install_ok N (alloc_return_catcher w regs) w.next) :
    ∃ slot, slot < N ∧ w.ctx.breakpoints slot = none ∧
    (install_return_catcher N w p regs).ctx.breakpoints =
        (fun i => if i = slot then some w.next else w.ctx.breakpoints i) ∧
    (install_return_catcher N w p regs).ctx.pid = w.ctx.pid ∧
    (install_return_catcher N w p regs).heap = (fun q => if q = w.next then
        { tmp_breakpoint (peek w.tracee.mem regs.rsp) with
          orig_data := peek w.tracee.mem (peek w.tracee.mem regs.rsp) % 256,
          _bp := some p } else w.heap q) ∧
    (install_return_catcher N w p regs).next = w.next + 1 ∧
    (install_return_catcher N w p regs).in_breakpoint = w.in_breakpoint ∧
    (install_return_catcher N w p regs).status = w.status ∧
    (install_return_catcher N w p regs).trace = w.trace ++
      [Event.ptrace_peekdata w.ctx.pid regs.rsp,
       Event.install_breakpoint (tmp_breakpoint (peek w.tracee.mem regs.rsp)) true,
       Event.ptrace_peekdata w.ctx.pid (peek w.tracee.mem regs.rsp),
       Event.ptrace_pokedata w.ctx.pid (peek w.tracee.mem regs.rsp)
        (peek w.tracee.mem (peek w.tracee.mem regs.rsp) -
          peek w.tracee.mem (peek w.tracee.mem regs.rsp) % 256 + 0xcc)] := by
  obtain ⟨slot, hs, hfree, heq⟩ := install_breakpoint_ok N _ _ h
  simp only [alloc_return_catcher_proj] at hfree
  refine ⟨slot, hs, hfree, ?_⟩
  unfold install_return_catcher
  simp only []
  rw [heq]
  simp [alloc_return_catcher_proj, install_at_proj, funext_iff, tmp_breakpoint]
  intro q
  split_ifs <;> rfl

/-- What a successful install of the return value catcher says about the address read. -/
theorem install_ok_catcher {N : Nat} {w : World} {regs : Regs}
    (h : install_ok N (alloc_return_catcher w regs) w.next) :
    peek w.tracee.mem regs.rsp ≠ 0 ∧
    ∀ k, k < N → ∀ q, w.ctx.breakpoints k = some q → q ≠ w.next →
      (w.heap q).addr ≠ peek w.tracee.mem regs.rsp := by
  obtain ⟨hc, -⟩ := h
  rw [not_or] at hc
  obtain ⟨h0, h1⟩ := hc
  simp only [alloc_return_catcher_proj, if_true, tmp_breakpoint] at h0 h1
  refine ⟨h0, ?_⟩
  intro k hk q hq hne
  have := addr_installed_false (by simpa using h1) k hk q
    (by simpa [alloc_return_catcher_proj] using hq)
  simpa [alloc_return_catcher_proj, hne] using this

/-! ## The cases of a hit -/

theorem stepped_proj (N : Nat) (cpu : Tracee → Tracee) (execv_ok : Bool) (pre_entry : Nat)
    (w : World) (p : Nat) (regs : Regs) (a : Nat) (hh : ¬ pre_hands_off pre_entry w p) :
    (stepped N cpu execv_ok pre_entry w p regs a).ctx.breakpoints = w.ctx.breakpoints ∧
    (stepped N cpu execv_ok pre_entry w p regs a).ctx.pid = w.ctx.pid ∧
    (stepped N cpu execv_ok pre_entry w p regs a).ctx.pme_head = w.ctx.pme_head ∧
    (stepped N cpu execv_ok pre_entry w p regs a).heap = w.heap ∧
    (stepped N cpu execv_ok pre_entry w p regs a).next = w.next ∧
    (stepped N cpu execv_ok pre_entry w p regs a).in_breakpoint = w.in_breakpoint ∧
    (stepped N cpu execv_ok pre_entry w p regs a).OPT_VERBOSE = w.OPT_VERBOSE ∧
    (stepped N cpu execv_ok pre_entry w p regs a).tracee =
      cpu { regs := regs, mem := poke w.tracee.mem a (u64 (w.heap p).orig_data) } ∧
    (stepped N cpu execv_ok pre_entry w p regs a).status =
      (if pre_aborts w p then ProcStatus.aborted else w.status) ∧
    (stepped N cpu execv_ok pre_entry w p regs a).trace =
      w.trace ++ [Event.ptrace_pokedata w.ctx.pid a (u64 (w.heap p).orig_data),
        Event.ptrace_setregs w.ctx.pid regs] ++ pre_stage w p regs ++
      [Event.ptrace_singlestep w.ctx.pid
        { regs := regs, mem := poke w.tracee.mem a (u64 (w.heap p).orig_data) }, Event.wait] := by
  have bp := before_singlestep_proj N execv_ok pre_entry w p regs a hh
  have bf := before_singlestep_fixed N execv_ok pre_entry w p regs a
  simp [stepped, bp, bf]

theorem hit_abort (N : Nat) (cpu : Tracee → Tracee) (execv_ok : Bool) (pre_entry : Nat)
    (w : World) (p : Nat) (regs : Regs) (a : Nat) (h : pre_aborts w p) :
    hit N cpu execv_ok pre_entry w p regs a =
      before_singlestep N execv_ok pre_entry w p { regs with rip := a } a := by
  unfold hit
  simp only []
  rw [if_pos]
  rw [before_singlestep_status _ _ _ _ _ _ _ (fun hh => pre_hands_off_not_aborts hh h), if_pos h]
  decide

theorem hit_handoff (N : Nat) (cpu : Tracee → Tracee) (execv_ok : Bool) (pre_entry : Nat)
    (w : World) (p : Nat) (regs : Regs) (a : Nat) (h : pre_hands_off pre_entry w p) :
    hit N cpu execv_ok pre_entry w p regs a =
      before_singlestep N execv_ok pre_entry w p { regs with rip := a } a := by
  unfold hit
  simp only []
  rw [if_pos]
  rw [(before_singlestep_handoff N execv_ok pre_entry w p { regs with rip := a } a h).1]
  cases execv_ok <;> simp

theorem hit_continue (N : Nat) (cpu : Tracee → Tracee) (execv_ok : Bool) (pre_entry : Nat)
    (w : World) (p : Nat) (regs : Regs) (a : Nat) (hrun : w.status = ProcStatus.running)
    (h : ¬ pre_aborts w p) (hh : ¬ pre_hands_off pre_entry w p) :
    hit N cpu execv_ok pre_entry w p regs a =
      after_singlestep N (stepped N cpu execv_ok pre_entry w p { regs with rip := a } a) p
        { regs with rip := a } a := by
  unfold hit
  simp only []
  rw [if_neg]
  · simp [stepped, before_singlestep_fixed]
  · rw [before_singlestep_status _ _ _ _ _ _ _ hh, if_neg h]
    simp [hrun]

theorem pre_stage_nil (w : World) (p : Nat) (regs : Regs)
    (h : (w.heap p)._is_inside = true ∨ w.in_breakpoint = true ∨ (w.heap p).pre_handler = 0) :
    pre_stage w p regs = [] ∧ ¬ pre_aborts w p := by
  unfold pre_stage pre_aborts
  have : ¬ (w.in_breakpoint = false ∧ (w.heap p)._is_inside = false ∧
      (w.heap p).pre_handler ≠ 0) := by
    rintro ⟨h1, h2, h3⟩
    rcases h with h | h | h
    · simp [h2] at h
    · simp [h1] at h
    · exact h3 h
  exact ⟨by rw [if_neg this], fun hh => this hh.1⟩

theorem pre_stage_nil_hands_off (pre_entry : Nat) (w : World) (p : Nat)
    (h : (w.heap p)._is_inside = true ∨ w.in_breakpoint = true ∨ (w.heap p).pre_handler = 0) :
    ¬ pre_hands_off pre_entry w p := by
  rintro ⟨⟨h1, h2, h3⟩, -⟩
  rcases h with h | h | h
  · simp [h2] at h
  · simp [h1] at h
  · exact h3 h

theorem pre_stage_call (w : World) (p : Nat) (regs : Regs)
    (h1 : w.in_breakpoint = false) (h2 : (w.heap p)._is_inside = false)
    (h3 : (w.heap p).pre_handler ≠ 0) (h4 : ¬ pre_aborts w p) :
    pre_stage w p regs = [Event.pre_handler (w.heap p)
        ([regs.rdi, regs.rsi, regs.rdx].take (w.heap p).pre_handler_nargs.toNat)] := by
  unfold pre_stage
  unfold pre_aborts at h4
  rw [if_pos ⟨h1, h2, h3⟩, if_pos]
  by_contra hc
  exact h4 ⟨⟨h1, h2, h3⟩, hc⟩

theorem after_singlestep_rearm (N : Nat) (v : World) (p : Nat) (regs : Regs) (a : Nat)
    (h : (v.heap p)._is_inside = true ∨ ((v.heap p)._bp = none ∧ v.in_breakpoint = true)) :
    after_singlestep N v p regs a = reinstall v p a := by
  unfold after_singlestep
  rcases h with h | ⟨h1, h2⟩
  · simp [h]
  · by_cases hin : (v.heap p)._is_inside = false
    · simp [hin, h1, h2]
    · simp [hin]

theorem after_singlestep_enter (N : Nat) (v : World) (p : Nat) (regs : Regs) (a : Nat)
    (h1 : (v.heap p)._is_inside = false) (h2 : (v.heap p)._bp = none)
    (h3 : v.in_breakpoint = false) :
    after_singlestep N v p regs a = reinstall (enter_breakpoint N v p regs) p a := by
  unfold after_singlestep
  simp [h1, h2, h3]

theorem after_singlestep_leave (N : Nat) (v : World) (p o : Nat) (regs : Regs) (a : Nat)
    (h1 : (v.heap p)._is_inside = false) (h2 : (v.heap p)._bp = some o) :
    after_singlestep N v p regs a = leave_breakpoint v p o regs := by
  unfold after_singlestep
  simp [h1, h2]

theorem enter_breakpoint_nopost (N : Nat) (v : World) (p : Nat) (regs : Regs)
    (h : (v.heap p).post_handler = 0) :
    enter_breakpoint N v p regs =
      ((v.set_in_breakpoint true).update p (fun b => { b with _is_inside := true })).set_in_breakpoint
        false := by
  unfold enter_breakpoint
  simp [h]

theorem enter_breakpoint_post (N : Nat) (v : World) (p : Nat) (regs : Regs)
    (h : (v.heap p).post_handler ≠ 0) :
    enter_breakpoint N v p regs =
      install_return_catcher N
        ((v.set_in_breakpoint true).update p (fun b => { b with _is_inside := true })) p regs := by
  unfold enter_breakpoint
  simp [h]

theorem leave_breakpoint_proj (v : World) (p o : Nat) (regs : Regs) :
    (leave_breakpoint v p o regs).ctx.breakpoints =
        (fun i => if v.ctx.breakpoints i = some p then none else v.ctx.breakpoints i) ∧
    (leave_breakpoint v p o regs).ctx.pid = v.ctx.pid ∧
    (leave_breakpoint v p o regs).heap =
        (fun q => if q = o then { v.heap q with _is_inside := false } else v.heap q) ∧
    (leave_breakpoint v p o regs).next = v.next ∧
    (leave_breakpoint v p o regs).in_breakpoint = false ∧
    (leave_breakpoint v p o regs).status = v.status ∧
    (leave_breakpoint v p o regs).trace = v.trace ++
      (if (v.heap o).post_handler ≠ 0 then [Event.post_handler (v.heap o) regs.rax] else []) ++
      [Event.remove_breakpoint (v.heap p),
       Event.ptrace_peekdata v.ctx.pid (v.heap p).addr,
       Event.ptrace_pokedata v.ctx.pid (v.heap p).addr
        (peek v.tracee.mem (v.heap p).addr - peek v.tracee.mem (v.heap p).addr % 256 +
          (v.heap p).orig_data % 256)] := by
  unfold leave_breakpoint
  simp only []
  split_ifs <;> simp [remove_breakpoint_proj]

/-! ## Outcome of a hit, case by case, in terms of the world at the hit -/

theorem hit_desc_abort (N : Nat) (cpu : Tracee → Tracee) (execv_ok : Bool) (pre_entry : Nat) (w : World) (p : Nat) (regs : Regs)
    (a : Nat) (h : pre_aborts w p) :
    Describes (hit N cpu execv_ok pre_entry w p regs a) w.ctx.breakpoints w.ctx.pid w.heap w.next w.in_breakpoint
      ProcStatus.aborted
      (w.trace ++ [Event.ptrace_pokedata w.ctx.pid a (u64 (w.heap p).orig_data),
        Event.ptrace_setregs w.ctx.pid { regs with rip := a }, Event.assert_failed]) := by
  rw [hit_abort N cpu execv_ok pre_entry w p regs a h]
  have hs : pre_stage w p { regs with rip := a } = [Event.assert_failed] := by
    unfold pre_stage
    rw [if_pos h.1, if_neg h.2]
  have bp := before_singlestep_proj N execv_ok pre_entry w p { regs with rip := a } a
    (fun hh => pre_hands_off_not_aborts hh h)
  have bf := before_singlestep_fixed N execv_ok pre_entry w p { regs with rip := a } a
  simp [Describes, bp, bf, h, hs]

theorem hit_desc_rearm (N : Nat) (cpu : Tracee → Tracee) (execv_ok : Bool) (pre_entry : Nat) (w : World) (p : Nat) (regs : Regs)
    (a : Nat) (hrun : w.status = ProcStatus.running)
    (h : (w.heap p)._is_inside = true ∨ ((w.heap p)._bp = none ∧ w.in_breakpoint = true)) :
    Describes (hit N cpu execv_ok pre_entry w p regs a) w.ctx.breakpoints w.ctx.pid w.heap w.next w.in_breakpoint
      ProcStatus.running
      (w.trace ++ step_events w p { regs with rip := a } a ++
        [Event.ptrace_pokedata w.ctx.pid a (trap_word (w.heap p).orig_data)]) := by
  have hp := pre_stage_nil w p { regs with rip := a }
    (by rcases h with h | ⟨_, h⟩ <;> simp [h])
  have h6 := pre_stage_nil_hands_off pre_entry w p
    (by rcases h with h | ⟨_, h⟩ <;> simp [h])
  have sp := stepped_proj N cpu execv_ok pre_entry w p { regs with rip := a } a h6
  rw [hit_continue N cpu execv_ok pre_entry w p regs a hrun hp.2 h6, after_singlestep_rearm]
  · simp [Describes, sp, hp.2, hrun, step_events]
  · simpa [sp] using h

theorem hit_desc_enter_nopost (N : Nat) (cpu : Tracee → Tracee) (execv_ok : Bool) (pre_entry : Nat) (w : World) (p : Nat)
    (regs : Regs) (a : Nat) (hrun : w.status = ProcStatus.running)
    (h1 : (w.heap p)._is_inside = false) (h2 : (w.heap p)._bp = none)
    (h3 : w.in_breakpoint = false) (h4 : (w.heap p).post_handler = 0)
    (h5 : ¬ pre_aborts w p) (h6 : ¬ pre_hands_off pre_entry w p) :
    Describes (hit N cpu execv_ok pre_entry w p regs a) w.ctx.breakpoints w.ctx.pid
      (fun q => if q = p then { w.heap q with _is_inside := true } else w.heap q)
      w.next false ProcStatus.running
      (w.trace ++ step_events w p { regs with rip := a } a ++
        [Event.ptrace_pokedata w.ctx.pid a (trap_word (w.heap p).orig_data)]) := by
  have sp := stepped_proj N cpu execv_ok pre_entry w p { regs with rip := a } a h6
  rw [hit_continue N cpu execv_ok pre_entry w p regs a hrun h5 h6, after_singlestep_enter, enter_breakpoint_nopost]
  · simp [Describes, sp, h5, hrun, step_events]
  · simpa [sp] using h4
  · simpa [sp] using h1
  · simpa [sp] using h2
  · simpa [sp] using h3

theorem entered_proj (N : Nat) (cpu : Tracee → Tracee) (execv_ok : Bool) (pre_entry : Nat)
    (w : World) (p : Nat) (regs : Regs) (a : Nat) (hh : ¬ pre_hands_off pre_entry w p) :
    (entered N cpu execv_ok pre_entry w p regs a).ctx.breakpoints = w.ctx.breakpoints ∧
    (entered N cpu execv_ok pre_entry w p regs a).ctx.pid = w.ctx.pid ∧
    (entered N cpu execv_ok pre_entry w p regs a).ctx.pme_head = w.ctx.pme_head ∧
    (entered N cpu execv_ok pre_entry w p regs a).heap =
      (fun q => if q = p then { w.heap q with _is_inside := true } else w.heap q) ∧
    (entered N cpu execv_ok pre_entry w p regs a).next = w.next ∧
    (entered N cpu execv_ok pre_entry w p regs a).in_breakpoint = true ∧
    (entered N cpu execv_ok pre_entry w p regs a).OPT_VERBOSE = w.OPT_VERBOSE ∧
    (entered N cpu execv_ok pre_entry w p regs a).tracee =
      cpu { regs := regs, mem := poke w.tracee.mem a (u64 (w.heap p).orig_data) } ∧
    (entered N cpu execv_ok pre_entry w p regs a).status =
      (if pre_aborts w p then ProcStatus.aborted else w.status) ∧
    (entered N cpu execv_ok pre_entry w p regs a).trace = w.trace ++ step_events w p regs a := by
  have sp := stepped_proj N cpu execv_ok pre_entry w p regs a hh
  simp [entered, sp, step_events]

theorem hit_enter_post (N : Nat) (cpu : Tracee → Tracee) (execv_ok : Bool) (pre_entry : Nat) (w : World) (p : Nat)
    (regs : Regs) (a : Nat) (hrun : w.status = ProcStatus.running)
    (h1 : (w.heap p)._is_inside = false) (h2 : (w.heap p)._bp = none)
    (h3 : w.in_breakpoint = false) (h4 : (w.heap p).post_handler ≠ 0)
    (h5 : ¬ pre_aborts w p) (h6 : ¬ pre_hands_off pre_entry w p) :
    hit N cpu execv_ok pre_entry w p regs a = reinstall (install_return_catcher N
      (entered N cpu execv_ok pre_entry w p { regs with rip := a } a) p { regs with rip := a }) p a := by
  have sp := stepped_proj N cpu execv_ok pre_entry w p { regs with rip := a } a h6
  rw [hit_continue N cpu execv_ok pre_entry w p regs a hrun h5 h6, after_singlestep_enter, enter_breakpoint_post]
  · rfl
  · simpa [sp] using h4
  · simpa [sp] using h1
  · simpa [sp] using h2
  · simpa [sp] using h3

theorem hit_desc_enter_fail (N : Nat) (cpu : Tracee → Tracee) (execv_ok : Bool) (pre_entry : Nat) (w : World) (p : Nat)
    (regs : Regs) (a : Nat) (hrun : w.status = ProcStatus.running)
    (h1 : (w.heap p)._is_inside = false) (h2 : (w.heap p)._bp = none)
    (h3 : w.in_breakpoint = false) (h4 : (w.heap p).post_handler ≠ 0)
    (h5 : ¬ pre_aborts w p) (h6 : ¬ pre_hands_off pre_entry w p) (hp : p < w.next)
    (hf : ¬ catcher_install_ok N cpu execv_ok pre_entry w p { regs with rip := a } a) :
    Describes (hit N cpu execv_ok pre_entry w p regs a) w.ctx.breakpoints w.ctx.pid
      (fun q => if q = w.next then
          { tmp_breakpoint (return_address N cpu execv_ok pre_entry w p { regs with rip := a } a) with _bp := some p }
        else if q = p then { w.heap q with _is_inside := true } else w.heap q)
      (w.next + 1) true ProcStatus.running
      (w.trace ++ step_events w p { regs with rip := a } a ++
        catcher_events w.ctx.pid regs.rsp (return_address N cpu execv_ok pre_entry w p { regs with rip := a } a) 0
          false ++
        [Event.ptrace_pokedata w.ctx.pid a (trap_word (w.heap p).orig_data)]) := by
  have ep := entered_proj N cpu execv_ok pre_entry w p { regs with rip := a } a h6
  rw [hit_enter_post N cpu execv_ok pre_entry w p regs a hrun h1 h2 h3 h4 h5 h6]
  have hne : p ≠ w.next := by omega
  have hf2 : ¬ install_ok N (alloc_return_catcher (entered N cpu execv_ok pre_entry w p { regs with rip := a } a)
      { regs with rip := a }) (entered N cpu execv_ok pre_entry w p { regs with rip := a } a).next := by
    simpa [ep, catcher_install_ok] using hf
  have := install_return_catcher_fail N _ p _ hf2
  simp only [ep] at this
  obtain ⟨e1, e2, e3, e4, e5, e6, e7⟩ := this
  refine ⟨?_, ?_, ?_, ?_, ?_, ?_, ?_⟩
  · simp [e1]
  · simp [e2]
  · simp [e3, return_address, ep]
  · simp [e4]
  · simp [e5]
  · simp [e6, h5, hrun]
  · simp [e7, e2, e3, hne, catcher_events, return_address, ep]

theorem hit_desc_enter_ok (N : Nat) (cpu : Tracee → Tracee) (execv_ok : Bool) (pre_entry : Nat) (w : World) (p : Nat)
    (regs : Regs) (a : Nat) (hrun : w.status = ProcStatus.running)
    (h1 : (w.heap p)._is_inside = false) (h2 : (w.heap p)._bp = none)
    (h3 : w.in_breakpoint = false) (h4 : (w.heap p).post_handler ≠ 0)
    (h5 : ¬ pre_aborts w p) (h6 : ¬ pre_hands_off pre_entry w p) (hp : p < w.next)
    (hf : catcher_install_ok N cpu execv_ok pre_entry w p { regs with rip := a } a) :
    ∃ slot word, slot < N ∧ w.ctx.breakpoints slot = none ∧
    Describes (hit N cpu execv_ok pre_entry w p regs a)
      (fun i => if i = slot then some w.next else w.ctx.breakpoints i) w.ctx.pid
      (fun q => if q = w.next then
          { tmp_breakpoint (return_address N cpu execv_ok pre_entry w p { regs with rip := a } a) with
            orig_data := word % 256, _bp := some p }
        else if q = p then { w.heap q with _is_inside := true } else w.heap q)
      (w.next + 1) true ProcStatus.running
      (w.trace ++ step_events w p { regs with rip := a } a ++
        catcher_events w.ctx.pid regs.rsp (return_address N cpu execv_ok pre_entry w p { regs with rip := a } a) word
          true ++
        [Event.ptrace_pokedata w.ctx.pid a (trap_word (w.heap p).orig_data)]) := by
  have ep := entered_proj N cpu execv_ok pre_entry w p { regs with rip := a } a h6
  rw [hit_enter_post N cpu execv_ok pre_entry w p regs a hrun h1 h2 h3 h4 h5 h6]
  have hne : p ≠ w.next := by omega
  have hf2 : install_ok N (alloc_return_catcher (entered N cpu execv_ok pre_entry w p { regs with rip := a } a)
      { regs with rip := a }) (entered N cpu execv_ok pre_entry w p { regs with rip := a } a).next := by
    simpa [ep, catcher_install_ok] using hf
  obtain ⟨slot, hs, hfree, this⟩ := install_return_catcher_ok N _ p _ hf2
  simp only [ep] at this hfree
  obtain ⟨e1, e2, e3, e4, e5, e6, e7⟩ := this
  refine ⟨slot, peek (entered N cpu execv_ok pre_entry w p { regs with rip := a } a).tracee.mem
    (return_address N cpu execv_ok pre_entry w p { regs with rip := a } a), hs, hfree, ?_, ?_, ?_, ?_, ?_, ?_, ?_⟩
  · simp [e1]
  · simp [e2]
  · simp [e3, return_address, ep]
  · simp [e4]
  · simp [e5]
  · simp [e6, h5, hrun]
  · simp [e7, e2, e3, hne, catcher_events, return_address, ep]

theorem hit_desc_leave (N : Nat) (cpu : Tracee → Tracee) (execv_ok : Bool) (pre_entry : Nat) (w : World) (p o : Nat)
    (regs : Regs) (a : Nat) (hrun : w.status = ProcStatus.running)
    (h1 : (w.heap p)._is_inside = false) (h2 : (w.heap p)._bp = some o)
    (h5 : ¬ pre_aborts w p) (h6 : ¬ pre_hands_off pre_entry w p) :
    ∃ word,
    Describes (hit N cpu execv_ok pre_entry w p regs a)
      (fun i => if w.ctx.breakpoints i = some p then none else w.ctx.breakpoints i) w.ctx.pid
      (fun q => if q = o then { w.heap q with _is_inside := false } else w.heap q)
      w.next false ProcStatus.running
      (w.trace ++ step_events w p { regs with rip := a } a ++
        (if (w.heap o).post_handler ≠ 0 then [Event.post_handler (w.heap o) regs.rax] else []) ++
        remove_events w.ctx.pid (w.heap p) word) := by
  have sp := stepped_proj N cpu execv_ok pre_entry w p { regs with rip := a } a h6
  rw [hit_continue N cpu execv_ok pre_entry w p regs a hrun h5 h6, after_singlestep_leave _ _ _ o]
  · refine ⟨peek (stepped N cpu execv_ok pre_entry w p { regs with rip := a } a).tracee.mem (w.heap p).addr, ?_⟩
    simp [Describes, leave_breakpoint_proj, sp, h5, hrun, step_events, remove_events]
  · simpa [sp] using h1
  · simpa [sp] using h2

theorem hit_desc_handoff (N : Nat) (cpu : Tracee → Tracee) (execv_ok : Bool) (pre_entry : Nat)
    (w : World) (p : Nat) (regs : Regs) (a : Nat) (h : pre_hands_off pre_entry w p) :
    ∃ uninstalls, (∀ e, e ∈ uninstalls → e.is_uninstall = true) ∧
    (∀ i, i < N → (hit N cpu execv_ok pre_entry w p regs a).ctx.breakpoints i = none) ∧
    (hit N cpu execv_ok pre_entry w p regs a).ctx.pid = w.ctx.pid ∧
    (hit N cpu execv_ok pre_entry w p regs a).heap = w.heap ∧
    (hit N cpu execv_ok pre_entry w p regs a).next = w.next ∧
    (hit N cpu execv_ok pre_entry w p regs a).in_breakpoint = w.in_breakpoint ∧
    (hit N cpu execv_ok pre_entry w p regs a).status =
      (if execv_ok = true then ProcStatus.replaced else ProcStatus.aborted) ∧
    (hit N cpu execv_ok pre_entry w p regs a).trace =
      w.trace ++ [Event.ptrace_pokedata w.ctx.pid a (u64 (w.heap p).orig_data),
        Event.ptrace_setregs w.ctx.pid { regs with rip := a }] ++
      pre_stage w p { regs with rip := a } ++
      handoff_events w.ctx.pid w.OPT_GDB_PATH uninstalls execv_ok := by
  rw [hit_handoff N cpu execv_ok pre_entry w p regs a h]
  obtain ⟨c1, c2, uninstalls, c3, c4⟩ :=
    before_singlestep_handoff N execv_ok pre_entry w p { regs with rip := a } a h
  obtain ⟨f1, f2, f3, f4⟩ :=
    before_singlestep_fixed N execv_ok pre_entry w p { regs with rip := a } a
  exact ⟨uninstalls, c3, c2, f1, f2, f3, f4, c1, c4⟩

theorem peek_poke (mem : Nat → Nat) (a v : Nat) : peek (poke mem a v) a = v % 2 ^ 64 := by
  have h : List.range 8 = [0, 1, 2, 3, 4, 5, 6, 7] := by decide
  simp only [peek, poke, h, List.foldr]
  simp
  omega

/-! ## The loop over the table -/

theorem visit_skip (N : Nat) (cpu : Tracee → Tracee) (execv_ok : Bool) (pre_entry : Nat) (regs : Regs) (a k : Nat) (w : World)
    (h : w.status ≠ ProcStatus.running ∨
      ∀ q, w.ctx.breakpoints k = some q → (w.heap q).addr ≠ a) :
    visit N cpu execv_ok pre_entry regs a k w = w := by
  unfold visit
  rcases h with h | h
  · rw [if_pos h]
  · split_ifs with h1
    · rfl
    · cases hq : w.ctx.breakpoints k with
      | none => rfl
      | some q => simp [h q hq]

theorem visit_from_skip (N : Nat) (cpu : Tracee → Tracee) (execv_ok : Bool) (pre_entry : Nat) (regs : Regs) (a : Nat) (w : World) :
    ∀ (n i : Nat), (w.status ≠ ProcStatus.running ∨
      ∀ k, i ≤ k → k < i + n → ∀ q, w.ctx.breakpoints k = some q → (w.heap q).addr ≠ a) →
    visit_from N cpu execv_ok pre_entry regs a n i w = w := by
  intro n
  induction n with
  | zero => intro i _; rfl
  | succ n ih =>
    intro i h
    have hv : visit N cpu execv_ok pre_entry regs a i w = w := by
      apply visit_skip
      rcases h with h | h
      · exact Or.inl h
      · exact Or.inr (fun q hq => h i (le_refl _) (by omega) q hq)
    simp only [visit_from]
    rw [hv]
    apply ih
    rcases h with h | h
    · exact Or.inl h
    · exact Or.inr (fun k hk1 hk2 q hq => h k (by omega) (by omega) q hq)

theorem visit_from_add (N : Nat) (cpu : Tracee → Tracee) (execv_ok : Bool) (pre_entry : Nat) (regs : Regs) (a : Nat) :
    ∀ (n m i : Nat) (w : World),
    visit_from N cpu execv_ok pre_entry regs a (n + m) i w =
      visit_from N cpu execv_ok pre_entry regs a m (i + n) (visit_from N cpu execv_ok pre_entry regs a n i w) := by
  intro n
  induction n with
  | zero => intro m i w; simp [visit_from]
  | succ n ih =>
    intro m i w
    have : n + 1 + m = (n + m) + 1 := by omega
    rw [this]
    simp only [visit_from]
    rw [ih]
    have : i + 1 + n = i + (n + 1) := by omega
    rw [this]

/-- With one matching slot `i`, and no other slot matching before or after the body
has run, the loop is one run of the body. -/
theorem visit_from_unique (N : Nat) (cpu : Tracee → Tracee) (execv_ok : Bool) (pre_entry : Nat) (regs : Regs) (a : Nat) (w : World)
    (i p : Nat) (hi : i < N) (hrun : w.status = ProcStatus.running)
    (hslot : w.ctx.breakpoints i = some p) (haddr : (w.heap p).addr = a)
    (hbefore : ∀ k, k < i → ∀ q, w.ctx.breakpoints k = some q → (w.heap q).addr ≠ a)
    (hafter : (hit N cpu execv_ok pre_entry w p regs a).status ≠ ProcStatus.running ∨
      ∀ k, i < k → k < N → ∀ q, (hit N cpu execv_ok pre_entry w p regs a).ctx.breakpoints k = some q →
        ((hit N cpu execv_ok pre_entry w p regs a).heap q).addr ≠ a) :
    visit_from N cpu execv_ok pre_entry regs a N 0 w = hit N cpu execv_ok pre_entry w p regs a := by
  have hN : N = i + (1 + (N - i - 1)) := by omega
  suffices hM : ∀ M, M = i + (1 + (N - i - 1)) →
      visit_from N cpu execv_ok pre_entry regs a M 0 w = hit N cpu execv_ok pre_entry w p regs a from hM N hN
  intro M hM
  rw [hM, visit_from_add, visit_from_add]
  rw [visit_from_skip N cpu execv_ok pre_entry regs a w i 0
    (Or.inr (fun k _ hk q hq => hbefore k (by omega) q hq))]
  have hv : visit_from N cpu execv_ok pre_entry regs a 1 (0 + i) w = hit N cpu execv_ok pre_entry w p regs a := by
    simp only [visit_from, visit, Nat.zero_add]
    rw [if_neg (by simp [hrun])]
    simp [hslot, haddr]
  rw [hv]
  apply visit_from_skip
  rcases hafter with h | h
  · exact Or.inl h
  · exact Or.inr (fun k hk1 hk2 q hq => h k (by omega) (by omega) q hq)

/-- The exhaustive case split of a hit on a valid pointer. -/
theorem hit_outcome (N : Nat) (cpu : Tracee → Tracee) (execv_ok : Bool) (pre_entry : Nat)
    (w : World) (p : Nat) (regs : Regs) (a : Nat) (hrun : w.status = ProcStatus.running)
    (hp : p < w.next) :
    HitOutcome N cpu execv_ok pre_entry w p regs a w.trace
      (hit N cpu execv_ok pre_entry w p regs a) := by
  unfold HitOutcome
  by_cases hho : pre_hands_off pre_entry w p
  · right; right; right; right; right; right
    obtain ⟨uninstalls, c⟩ := hit_desc_handoff N cpu execv_ok pre_entry w p regs a hho
    exact ⟨hho, uninstalls, c⟩
  by_cases hab : pre_aborts w p
  · exact Or.inl ⟨hab, hit_desc_abort N cpu execv_ok pre_entry w p regs a hab⟩
  right
  by_cases hin : (w.heap p)._is_inside = true
  · exact Or.inl ⟨Or.inl hin,
      hit_desc_rearm N cpu execv_ok pre_entry w p regs a hrun (Or.inl hin)⟩
  have hin : (w.heap p)._is_inside = false := by simpa using hin
  by_cases hbp : (w.heap p)._bp = none
  case neg =>
    obtain ⟨o, hbp⟩ := Option.ne_none_iff_exists'.mp hbp
    right; right; right; right; left
    exact ⟨o, ⟨hin, hbp, hab, hho⟩,
      hit_desc_leave N cpu execv_ok pre_entry w p o regs a hrun hin hbp hab hho⟩
  case pos =>
    by_cases hib : w.in_breakpoint = true
    · exact Or.inl ⟨Or.inr ⟨hbp, hib⟩,
        hit_desc_rearm N cpu execv_ok pre_entry w p regs a hrun (Or.inr ⟨hbp, hib⟩)⟩
    have hib : w.in_breakpoint = false := by simpa using hib
    right
    by_cases hpost : (w.heap p).post_handler = 0
    · exact Or.inl ⟨⟨hin, hbp, hib, hpost, hab, hho⟩,
        hit_desc_enter_nopost N cpu execv_ok pre_entry w p regs a hrun hin hbp hib hpost hab hho⟩
    right
    by_cases hok : catcher_install_ok N cpu execv_ok pre_entry w p { regs with rip := a } a
    · right; left
      exact ⟨⟨hin, hbp, hib, hpost, ⟨hab, hho⟩, hok⟩,
        hit_desc_enter_ok N cpu execv_ok pre_entry w p regs a hrun hin hbp hib hpost hab hho hp
          hok⟩
    · left
      exact ⟨⟨hin, hbp, hib, hpost, ⟨hab, hho⟩, hok⟩,
        hit_desc_enter_fail N cpu execv_ok pre_entry w p regs a hrun hin hbp hib hpost hab hho hp
          hok⟩

theorem catcher_install_ok_addr {N : Nat} {cpu : Tracee → Tracee} {execv_ok : Bool}
    {pre_entry : Nat} {w : World} {p : Nat} {regs : Regs} {a : Nat}
    (hh : ¬ pre_hands_off pre_entry w p)
    (h : catcher_install_ok N cpu execv_ok pre_entry w p regs a) :
    return_address N cpu execv_ok pre_entry w p regs a ≠ 0 ∧
    ∀ k, k < N → ∀ q, w.ctx.breakpoints k = some q → q < w.next →
      (w.heap q).addr ≠ return_address N cpu execv_ok pre_entry w p regs a := by
  have ep := entered_proj N cpu execv_ok pre_entry w p regs a hh
  unfold catcher_install_ok at h
  have hn : w.next = (entered N cpu execv_ok pre_entry w p regs a).next := by simp [ep]
  rw [hn] at h
  obtain ⟨h0, h1⟩ := install_ok_catcher h
  refine ⟨h0, ?_⟩
  intro k hk q hq hlt
  have := h1 k hk q (by simpa [ep] using hq) (by simp [ep]; omega)
  have e : ((entered N cpu execv_ok pre_entry w p regs a).heap q).addr = (w.heap q).addr := by
    simp only [ep]
    split_ifs <;> rfl
  rw [e] at this
  exact this

theorem hit_tail (N : Nat) (cpu : Tracee → Tracee) (execv_ok : Bool) (pre_entry : Nat) (w : World) (i p : Nat) (regs : Regs)
    (a : Nat) (hok : TableOk N w) (hrun : w.status = ProcStatus.running) (hi : i < N)
    (hslot : w.ctx.breakpoints i = some p) (haddr : (w.heap p).addr = a) :
    (hit N cpu execv_ok pre_entry w p regs a).status ≠ ProcStatus.running ∨
      ∀ k, k ≠ i → k < N → ∀ q, (hit N cpu execv_ok pre_entry w p regs a).ctx.breakpoints k = some q →
        ((hit N cpu execv_ok pre_entry w p regs a).heap q).addr ≠ a := by
  obtain ⟨hvalid, huniq⟩ := hok
  have hp : p < w.next := hvalid i hi p hslot
  have hno : ∀ k, k ≠ i → k < N → ∀ q, w.ctx.breakpoints k = some q → (w.heap q).addr ≠ a := by
    intro k hk hkN q hq he
    exact hk (huniq k hkN i hi q p hq hslot (he.trans haddr.symm))
  have key := hit_outcome N cpu execv_ok pre_entry w p regs a hrun hp
  unfold HitOutcome at key
  rcases key with
    ⟨-, d⟩ | ⟨-, d⟩ | ⟨-, d⟩ | ⟨-, d⟩ | ⟨⟨-, -, -, -, ⟨-, hh⟩, hc⟩, slot, word, hs, hfree, d⟩ |
    ⟨o, -, word, d⟩ | ⟨-, uninstalls, -, -, -, -, -, -, e, -⟩
  · left
    obtain ⟨-, -, -, -, -, e, -⟩ := d
    rw [e]; decide
  · right
    obtain ⟨e1, -, e3, -⟩ := d
    rw [e1, e3]
    exact hno
  · right
    obtain ⟨e1, -, e3, -⟩ := d
    rw [e1, e3]
    intro k hk hkN q hq
    have := hno k hk hkN q hq
    simp only []
    split_ifs <;> simpa using this
  · right
    obtain ⟨e1, -, e3, -⟩ := d
    rw [e1, e3]
    intro k hk hkN q hq
    have := hno k hk hkN q hq
    have hq2 : q ≠ w.next := by have := hvalid k hkN q hq; omega
    simp only [if_neg hq2]
    split_ifs <;> simpa using this
  · right
    obtain ⟨e1, -, e3, -⟩ := d
    rw [e1, e3]
    intro k hk hkN q hq
    simp only [] at hq
    by_cases hks : k = slot
    · rw [if_pos hks] at hq
      have hq2 : q = w.next := by simpa using hq.symm
      simp only [if_pos hq2, tmp_breakpoint]
      have := (catcher_install_ok_addr hh hc).2 i hi p hslot hp
      rw [haddr] at this
      exact fun h => this h.symm
    · rw [if_neg hks] at hq
      have := hno k hk hkN q hq
      have hq2 : q ≠ w.next := by have := hvalid k hkN q hq; omega
      simp only [if_neg hq2]
      split_ifs <;> simpa using this
  · right
    obtain ⟨e1, -, e3, -⟩ := d
    rw [e1, e3]
    intro k hk hkN q hq
    simp only [] at hq
    split_ifs at hq
    have := hno k hk hkN q hq
    simp only []
    split_ifs <;> simpa using this
  · left
    rw [e]
    cases execv_ok <;> decide

/-- A stop whose address matches the table entry at slot `i` runs the body once. -/
theorem check_unique (N : Nat) (cpu : Tracee → Tracee) (execv_ok : Bool) (pre_entry : Nat) (w : World) (i p : Nat)
    (hok : TableOk N w) (hrun : w.status = ProcStatus.running) (hi : i < N)
    (hslot : w.ctx.breakpoints i = some p)
    (haddr : (w.heap p).addr = hit_address w.tracee.regs) :
    _check_breakpoints N cpu execv_ok pre_entry w =
      hit N cpu execv_ok pre_entry (ptrace_getregs w w.ctx.pid) p w.tracee.regs (hit_address w.tracee.regs) := by
  unfold _check_breakpoints
  simp only []
  have hok' : TableOk N (ptrace_getregs w w.ctx.pid) := by simpa [TableOk] using hok
  apply visit_from_unique N cpu execv_ok pre_entry _ _ _ i p hi (by simpa using hrun) (by simpa using hslot)
    (by simpa using haddr)
  · intro k hk q hq he
    simp only [ptrace_getregs, emit_proj] at hq he
    have := hok.2 k (by omega) i hi q p hq hslot (he.trans haddr.symm)
    omega
  · rcases hit_tail N cpu execv_ok pre_entry _ i p w.tracee.regs _ hok' (by simpa using hrun) hi
      (by simpa using hslot) (by simpa using haddr) with h | h
    · exact Or.inl h
    · exact Or.inr (fun k hk1 hk2 q hq => h k (by omega) hk2 q hq)

/-- A stop whose address matches no table entry only reads the registers. -/
theorem check_nomatch (N : Nat) (cpu : Tracee → Tracee) (execv_ok : Bool) (pre_entry : Nat) (w : World)
    (h : w.status ≠ ProcStatus.running ∨ ∀ k, k < N → ∀ q, w.ctx.breakpoints k = some q →
      (w.heap q).addr ≠ hit_address w.tracee.regs) :
    _check_breakpoints N cpu execv_ok pre_entry w = ptrace_getregs w w.ctx.pid := by
  unfold _check_breakpoints
  simp only []
  apply visit_from_skip
  rcases h with h | h
  · exact Or.inl (by simpa using h)
  · exact Or.inr (fun k _ hk q hq => by
      simp only [ptrace_getregs, emit_proj] at hq ⊢
      exact h k (by omega) q hq)

/-! ## Handler calls and single-steps of the event lists -/

theorem pre_calls_append (s t : List Event) : pre_calls (s ++ t) = pre_calls s ++ pre_calls t := by
  simp [pre_calls, List.filterMap_append]

theorem post_calls_append (s t : List Event) :
    post_calls (s ++ t) = post_calls s ++ post_calls t := by
  simp [post_calls, List.filterMap_append]

theorem singlesteps_append (s t : List Event) :
    singlesteps (s ++ t) = singlesteps s ++ singlesteps t := by
  simp [singlesteps, List.filterMap_append]

theorem pre_stage_cases (w : World) (p : Nat) (regs : Regs) :
    pre_stage w p regs = [] ∨ pre_stage w p regs = [Event.assert_failed] ∨
    pre_stage w p regs = [Event.pre_handler (w.heap p)
        ([regs.rdi, regs.rsi, regs.rdx].take (w.heap p).pre_handler_nargs.toNat)] := by
  unfold pre_stage
  split_ifs <;> simp

theorem step_events_calls (w : World) (p : Nat) (regs : Regs) (a : Nat) :
    pre_calls (step_events w p regs a) = pre_calls (pre_stage w p regs) ∧
    post_calls (step_events w p regs a) = [] ∧
    singlesteps (step_events w p regs a) =
      [{ regs := regs, mem := poke w.tracee.mem a (u64 (w.heap p).orig_data) }] := by
  rcases pre_stage_cases w p regs with h | h | h <;>
    simp [step_events, h, pre_calls, post_calls, singlesteps]

theorem catcher_events_calls (pid : Int) (rsp val word : Nat) (ok : Bool) :
    pre_calls (catcher_events pid rsp val word ok) = [] ∧
    post_calls (catcher_events pid rsp val word ok) = [] ∧
    singlesteps (catcher_events pid rsp val word ok) = [] := by
  cases ok <;> simp [catcher_events, pre_calls, post_calls, singlesteps]

theorem remove_events_calls (pid : Int) (b : Breakpoint) (word : Nat) :
    pre_calls (remove_events pid b word) = [] ∧
    post_calls (remove_events pid b word) = [] ∧
    singlesteps (remove_events pid b word) = [] := by
  simp [remove_events, pre_calls, post_calls, singlesteps]

theorem uninstalls_calls (l : List Event) (h : ∀ e, e ∈ l → e.is_uninstall = true) :
    pre_calls l = [] ∧ post_calls l = [] ∧ singlesteps l = [] := by
  induction l with
  | nil => simp [pre_calls, post_calls, singlesteps]
  | cons e l ih =>
    obtain ⟨i1, i2, i3⟩ := ih (fun x hx => h x (List.mem_cons_of_mem _ hx))
    have he := h e (List.mem_cons_self _ _)
    have c1 : pre_calls (e :: l) = pre_calls [e] ++ pre_calls l := pre_calls_append [e] l
    have c2 : post_calls (e :: l) = post_calls [e] ++ post_calls l := post_calls_append [e] l
    have c3 : singlesteps (e :: l) = singlesteps [e] ++ singlesteps l := singlesteps_append [e] l
    rw [c1, c2, c3, i1, i2, i3]
    cases e <;> simp [Event.is_uninstall] at he <;> simp [pre_calls, post_calls, singlesteps]

theorem handoff_events_calls (pid : Int) (gdb : List Char) (uninstalls : List Event)
    (execv_ok : Bool) (h : ∀ e, e ∈ uninstalls → e.is_uninstall = true) :
    pre_calls (handoff_events pid gdb uninstalls execv_ok) = [] ∧
    post_calls (handoff_events pid gdb uninstalls execv_ok) = [] ∧
    singlesteps (handoff_events pid gdb uninstalls execv_ok) = [] := by
  obtain ⟨i1, i2, i3⟩ := uninstalls_calls uninstalls h
  unfold handoff_events
  simp only [pre_calls_append, post_calls_append, singlesteps_append, i1, i2, i3]
  cases execv_ok <;> simp [pre_calls, post_calls, singlesteps]

/-! ## The outcome of `_check_breakpoints` in terms of the world at the stop -/

theorem pre_stage_emit (w : World) (e : Event) (p : Nat) (regs : Regs) :
    pre_stage (w.emit e) p regs = pre_stage w p regs := by
  simp [pre_stage]

theorem pre_aborts_emit (w : World) (e : Event) (p : Nat) :
    pre_aborts (w.emit e) p ↔ pre_aborts w p := by
  simp [pre_aborts]

theorem step_events_emit (w : World) (e : Event) (p : Nat) (regs : Regs) (a : Nat) :
    step_events (w.emit e) p regs a = step_events w p regs a := by
  simp [step_events, pre_stage_emit]

theorem emit_BREAK_MAIN (w : World) (e : Event) : (w.emit e).BREAK_MAIN = w.BREAK_MAIN := rfl

theorem pre_hands_off_emit (pre_entry : Nat) (w : World) (e : Event) (p : Nat) :
    pre_hands_off pre_entry (w.emit e) p ↔ pre_hands_off pre_entry w p := by
  simp [pre_hands_off, emit_BREAK_MAIN]

theorem return_address_emit (N : Nat) (cpu : Tracee → Tracee) (execv_ok : Bool) (pre_entry : Nat)
    (w : World) (e : Event) (p : Nat) (regs : Regs) (a : Nat)
    (hh : ¬ pre_hands_off pre_entry w p) :
    return_address N cpu execv_ok pre_entry (w.emit e) p regs a =
      return_address N cpu execv_ok pre_entry w p regs a := by
  have ep := entered_proj N cpu execv_ok pre_entry w p regs a hh
  have ep2 := entered_proj N cpu execv_ok pre_entry (w.emit e) p regs a
    (by rwa [pre_hands_off_emit])
  simp [return_address, ep, ep2]

theorem catcher_install_ok_emit (N : Nat) (cpu : Tracee → Tracee) (execv_ok : Bool)
    (pre_entry : Nat) (w : World) (e : Event) (p : Nat) (regs : Regs) (a : Nat)
    (hh : ¬ pre_hands_off pre_entry w p) :
    catcher_install_ok N cpu execv_ok pre_entry (w.emit e) p regs a ↔
      catcher_install_ok N cpu execv_ok pre_entry w p regs a := by
  have ep := entered_proj N cpu execv_ok pre_entry w p regs a hh
  have ep2 := entered_proj N cpu execv_ok pre_entry (w.emit e) p regs a
    (by rwa [pre_hands_off_emit])
  simp [catcher_install_ok, install_ok, addr_installed, alloc_return_catcher_proj, ep, ep2]

/-- The exhaustive case split of `_check_breakpoints` for a stop at the address of the
table entry `p`. -/
theorem check_outcome (N : Nat) (cpu : Tracee → Tracee) (execv_ok : Bool) (pre_entry : Nat)
    (w : World) (i p : Nat)
    (hok : TableOk N w) (hrun : w.status = ProcStatus.running) (hi : i < N)
    (hslot : w.ctx.breakpoints i = some p)
    (haddr : (w.heap p).addr = hit_address w.tracee.regs) :
    HitOutcome N cpu execv_ok pre_entry w p w.tracee.regs (hit_address w.tracee.regs)
      (w.trace ++ [Event.ptrace_getregs w.ctx.pid]) (_check_breakpoints N cpu execv_ok pre_entry w) := by
  rw [check_unique N cpu execv_ok pre_entry w i p hok hrun hi hslot haddr]
  have hp : p < w.next := hok.1 i hi p hslot
  have key := hit_outcome N cpu execv_ok pre_entry (ptrace_getregs w w.ctx.pid) p w.tracee.regs
    (hit_address w.tracee.regs) (by simpa using hrun) (by simpa using hp)
  unfold HitOutcome at key ⊢
  by_cases hh : pre_hands_off pre_entry w p
  · simp only [ptrace_getregs, emit_proj, pre_aborts_emit, step_events_emit, pre_stage_emit,
      pre_hands_off_emit, hh, not_true_eq_false, and_false, false_and, false_or, or_false,
      exists_const, exists_false] at key ⊢
    exact key
  · have e1 := return_address_emit N cpu execv_ok pre_entry w (Event.ptrace_getregs w.ctx.pid) p
      { w.tracee.regs with rip := hit_address w.tracee.regs } (hit_address w.tracee.regs) hh
    have e2 := catcher_install_ok_emit N cpu execv_ok pre_entry w
      (Event.ptrace_getregs w.ctx.pid) p
      { w.tracee.regs with rip := hit_address w.tracee.regs } (hit_address w.tracee.regs) hh
    simp only [ptrace_getregs, emit_proj, pre_aborts_emit, step_events_emit, pre_stage_emit,
      pre_hands_off_emit, e1, e2] at key ⊢
    exact key

/-- A first hit on a regular breakpoint without post-handler, while `in_breakpoint` is
clear, returns with `in_breakpoint` clear and the breakpoint's `_is_inside` set: lines
64-65 set both, the branch of lines 84-87 resets only the global flag. -/
theorem check_breakpoints_no_post_handler (N : Nat) (cpu : Tracee → Tracee) (execv_ok : Bool) (pre_entry : Nat) (w : World)
    (i p : Nat) (hok : TableOk N w) (hrun : w.status = ProcStatus.running) (hi : i < N)
    (hslot : w.ctx.breakpoints i = some p)
    (haddr : (w.heap p).addr = hit_address w.tracee.regs)
    (hprim : (w.heap p)._bp = none) (hins : (w.heap p)._is_inside = false)
    (hflag : w.in_breakpoint = false) (hpost : (w.heap p).post_handler = 0)
    (harity : ¬ pre_aborts w p) (hoff : ¬ pre_hands_off pre_entry w p) :
    (_check_breakpoints N cpu execv_ok pre_entry w).in_breakpoint = false ∧
    (_check_breakpoints N cpu execv_ok pre_entry w).ctx.breakpoints = w.ctx.breakpoints ∧
    (_check_breakpoints N cpu execv_ok pre_entry w).heap p = { w.heap p with _is_inside := true } := by
  have key := check_outcome N cpu execv_ok pre_entry w i p hok hrun hi hslot haddr
  unfold HitOutcome at key
  rcases key with ⟨h, -⟩ | ⟨h, -⟩ | ⟨-, d⟩ | ⟨h, -⟩ | ⟨h, -⟩ | ⟨o, h, -⟩ | ⟨h, -⟩
  · exact absurd h harity
  · rcases h with h | ⟨-, h⟩
    · simp [hins] at h
    · simp [hflag] at h
  · obtain ⟨e1, -, e3, -, e5, -, -⟩ := d
    refine ⟨e5, e1, ?_⟩
    rw [e3]
    simp
  · exact absurd hpost h.2.2.2.1
  · exact absurd hpost h.2.2.2.1
  · simp [hprim] at h
  · exact absurd h hoff

/-! ## Preservation of the invariant, on components -/

theorem count_setregs (pid : Int) (regs : Regs) :
    pre_count [Event.ptrace_setregs pid regs] = 0 ∧
    post_count [Event.ptrace_setregs pid regs] = 0 := by
  simp [pre_count, post_count, pre_calls, post_calls]

/-- Claim C1: a hit on a breakpoint with a pre-handler, while `in_breakpoint` is clear and the
breakpoint is not inside, calls the pre-handler exactly once with the first
`pre_handler_nargs` of `(rdi, rsi, rdx)` read at the hit when that number is in `0..3`;
otherwise the assertion of line 53 fails and no handler is called. The call is made, and is
the only one, also when the handler is `_pre_entry` and hands the tracee to the debugger. -/
theorem check_breakpoints_pre_handler (N : Nat) (cpu : Tracee → Tracee) (execv_ok : Bool)
    (pre_entry : Nat) (w : World) (i p : Nat)
    (hok : TableOk N w) (hrun : w.status = ProcStatus.running) (hi : i < N)
    (hslot : w.ctx.breakpoints i = some p)
    (haddr : (w.heap p).addr = hit_address w.tracee.regs)
    (hpre : (w.heap p).pre_handler ≠ 0) (hflag : w.in_breakpoint = false)
    (hins : (w.heap p)._is_inside = false) :
    (0 ≤ (w.heap p).pre_handler_nargs ∧ (w.heap p).pre_handler_nargs ≤ 3 →
      pre_calls (_check_breakpoints N cpu execv_ok pre_entry w).trace = pre_calls w.trace ++
        [(w.heap p, [w.tracee.regs.rdi, w.tracee.regs.rsi, w.tracee.regs.rdx].take
          (w.heap p).pre_handler_nargs.toNat)]) ∧
    (¬ (0 ≤ (w.heap p).pre_handler_nargs ∧ (w.heap p).pre_handler_nargs ≤ 3) →
      (_check_breakpoints N cpu execv_ok pre_entry w).status = ProcStatus.aborted ∧
      (_check_breakpoints N cpu execv_ok pre_entry w).trace = w.trace ++
        [Event.ptrace_getregs w.ctx.pid,
         Event.ptrace_pokedata w.ctx.pid (hit_address w.tracee.regs) (u64 (w.heap p).orig_data),
         Event.ptrace_setregs w.ctx.pid (rewound w.tracee.regs),
         Event.assert_failed] ∧
      pre_calls (_check_breakpoints N cpu execv_ok pre_entry w).trace = pre_calls w.trace) := by
  have key := check_outcome N cpu execv_ok pre_entry w i p hok hrun hi hslot haddr
  unfold HitOutcome at key
  constructor
  · intro hn
    have hab : ¬ pre_aborts w p := fun h => h.2 hn
    have hst := pre_stage_call w p { w.tracee.regs with rip := hit_address w.tracee.regs }
      hflag hins hpre hab
    rcases key with ⟨h, -⟩ | ⟨h, -⟩ | ⟨-, d⟩ | ⟨-, d⟩ | ⟨-, slot, word, -, -, d⟩ |
      ⟨o, -, word, d⟩ | ⟨-, uninstalls, hun, -, -, -, -, -, -, e⟩
    · exact absurd h hab
    · rcases h with h | ⟨-, h⟩
      · simp [hins] at h
      · simp [hflag] at h
    rotate_right
    · rw [e]
      simp only [pre_calls_append, hst,
        (handoff_events_calls w.ctx.pid w.OPT_GDB_PATH uninstalls execv_ok hun).1]
      simp [pre_calls]
    all_goals
      obtain ⟨-, -, -, -, -, -, e⟩ := d
      rw [e]
      simp only [pre_calls_append, step_events_calls, catcher_events_calls,
        remove_events_calls, hst]
      try split_ifs
      all_goals simp [pre_calls]
  · intro hn
    have hab : pre_aborts w p := ⟨⟨hflag, hins, hpre⟩, hn⟩
    rcases key with ⟨-, d⟩ | ⟨h, -⟩ | ⟨h, -⟩ | ⟨h, -⟩ | ⟨h, -⟩ | ⟨o, h, -⟩ | ⟨h, -⟩
    · obtain ⟨-, -, -, -, -, e6, e7⟩ := d
      refine ⟨e6, ?_, ?_⟩
      · rw [e7]; simp [rewound]
      · rw [e7]; simp [pre_calls_append]; simp [pre_calls]
    · rcases h with h | ⟨-, h⟩
      · simp [hins] at h
      · simp [hflag] at h
    · exact absurd hab h.2.2.2.2.1
    · exact absurd hab h.2.2.2.2.1.1
    · exact absurd hab h.2.2.2.2.1.1
    · exact absurd hab h.2.2.1
    · exact absurd hab (pre_hands_off_not_aborts h)

/-- Claim C2: a hit on a return value catcher whose owner has a post-handler calls that
post-handler exactly once with the `rax` read at the hit, then removes the catcher from
the table; afterwards the owner is not inside and `in_breakpoint` is clear, and no
pre-handler was called. -/
theorem check_breakpoints_return_catcher (N : Nat) (cpu : Tracee → Tracee) (execv_ok : Bool)
    (pre_entry : Nat) (w : World) (i p o : Nat) (hok : TableOk N w) (hrun : w.status = ProcStatus.running) (hi : i < N)
    (hslot : w.ctx.breakpoints i = some p)
    (haddr : (w.heap p).addr = hit_address w.tracee.regs)
    (hcatch : (w.heap p)._bp = some o) (hins : (w.heap p)._is_inside = false)
    (hnopre : (w.heap p).pre_handler = 0) (hpost : (w.heap o).post_handler ≠ 0) :
    post_calls (_check_breakpoints N cpu execv_ok pre_entry w).trace =
      post_calls w.trace ++ [(w.heap o, w.tracee.regs.rax)] ∧
    pre_calls (_check_breakpoints N cpu execv_ok pre_entry w).trace = pre_calls w.trace ∧
    (∃ word, (_check_breakpoints N cpu execv_ok pre_entry w).trace =
      w.trace ++ [Event.ptrace_getregs w.ctx.pid] ++
        step_events w p (rewound w.tracee.regs) (hit_address w.tracee.regs) ++
        [Event.post_handler (w.heap o) w.tracee.regs.rax] ++
        remove_events w.ctx.pid (w.heap p) word) ∧
    (∀ k, (_check_breakpoints N cpu execv_ok pre_entry w).ctx.breakpoints k ≠ some p) ∧
    (∀ k, k < N → k ≠ i →
      (_check_breakpoints N cpu execv_ok pre_entry w).ctx.breakpoints k = w.ctx.breakpoints k) ∧
    ((_check_breakpoints N cpu execv_ok pre_entry w).heap o)._is_inside = false ∧
    (_check_breakpoints N cpu execv_ok pre_entry w).in_breakpoint = false ∧
    (_check_breakpoints N cpu execv_ok pre_entry w).status = ProcStatus.running := by
  have key := check_outcome N cpu execv_ok pre_entry w i p hok hrun hi hslot haddr
  unfold HitOutcome at key
  have hnil := pre_stage_nil w p { w.tracee.regs with rip := hit_address w.tracee.regs }
    (Or.inr (Or.inr hnopre))
  rcases key with ⟨h, -⟩ | ⟨h, -⟩ | ⟨h, -⟩ | ⟨h, -⟩ | ⟨h, -⟩ | ⟨o', h, word, d⟩ | ⟨h, -⟩
  rotate_right
  · exact absurd h (pre_stage_nil_hands_off pre_entry w p (Or.inr (Or.inr hnopre)))
  · exact absurd h hnil.2
  · rcases h with h | ⟨h, -⟩
    · simp [hins] at h
    · simp [hcatch] at h
  · simp [hcatch] at h
  · simp [hcatch] at h
  · simp [hcatch] at h
  · have ho : o' = o := by
      have := h.2.1
      rw [hcatch] at this
      exact (Option.some.inj this).symm
    subst ho
    obtain ⟨e1, -, e3, -, e5, e6, e7⟩ := d
    rw [if_pos hpost] at e7
    refine ⟨?_, ?_, ⟨word, e7⟩, ?_, ?_, ?_, e5, e6⟩
    · rw [e7]
      simp only [post_calls_append, step_events_calls, remove_events_calls]
      simp [post_calls]
    · rw [e7]
      simp only [pre_calls_append, step_events_calls, remove_events_calls]
      simp [pre_calls, hnil.1]
    · intro k
      rw [e1]
      simp only []
      split_ifs with hk
      · simp
      · exact hk
    · intro k hk hne
      rw [e1]
      simp only []
      rw [if_neg]
      intro hkp
      exact hne (hok.2 k hk i hi p p hkp hslot rfl)
    · rw [e3]
      simp

theorem peek_lt (mem : Nat → Nat) (a : Nat) : peek mem a < 2 ^ 64 := by
  have h : List.range 8 = [0, 1, 2, 3, 4, 5, 6, 7] := by decide
  simp only [peek, h, List.foldr]
  omega

/-- Claim C6 as stated fails: with a binary region and no libc region in the map, a dynamic-plt
symbol whose GOT word 0x401036 lies inside the binary resolves to 0, not to 0x401030,
and nothing is read. -/
theorem calc_offset_plt_without_libc :
    pme_walk example_world.ctx.pme_head ProcELFType.PROCELF_TYPE_BINARY =
      some { pet := ProcELFType.PROCELF_TYPE_BINARY, base := 0x400000, end_ := 0x500000 } ∧
    example_plt_symbol.type = SEType.SE_TYPE_DYNAMIC_PLT ∧
    peek example_world.tracee.mem (0x400000 + example_plt_symbol.offset) = 0x401036 ∧
    plt_adjusted { pet := ProcELFType.PROCELF_TYPE_BINARY, base := 0x400000, end_ := 0x500000 }
      0x401036 = 0x401030 ∧
    (_calc_offset example_world example_plt_symbol).2 = 0 ∧
    (_calc_offset example_world example_plt_symbol).1.trace.length = 0 := by
  decide

/-- Claim C6, amended: for a dynamic-plt symbol and a map with a binary region, `_calc_offset`
reads the word at `binary.base + offset` and returns it, less 6 modulo `2 ^ 64` when it
lies in `[binary.base, binary.end)`, provided the map has a libc region; without a libc
region it reads nothing and returns 0. -/
theorem calc_offset_plt (w : World) (se : SymbolEntry) (bin : ProcMapsEntry)
    (hbin : pme_walk w.ctx.pme_head ProcELFType.PROCELF_TYPE_BINARY = some bin)
    (hty : se.type = SEType.SE_TYPE_DYNAMIC_PLT) :
    (pme_walk w.ctx.pme_head ProcELFType.PROCELF_TYPE_LIBC ≠ none →
      _calc_offset w se =
        (ptrace_peekdata w w.ctx.pid (u64 (bin.base + se.offset)),
          plt_adjusted bin (peek w.tracee.mem (u64 (bin.base + se.offset))))) ∧
    (pme_walk w.ctx.pme_head ProcELFType.PROCELF_TYPE_LIBC = none →
      _calc_offset w se = (w, 0)) := by
  have hpk : u64 (peek w.tracee.mem (u64 (bin.base + se.offset))) =
      peek w.tracee.mem (u64 (bin.base + se.offset)) :=
    Nat.mod_eq_of_lt (peek_lt _ _)
  constructor
  · intro hl
    obtain ⟨libc, hl⟩ := Option.ne_none_iff_exists'.mp hl
    simp only [_calc_offset, hbin, hty, hl, hpk, plt_adjusted]
    simp
    split_ifs <;> rfl
  · intro hl
    simp [_calc_offset, hbin, hty, hl]

theorem assign_signature_proj (sig : FunctionSignature) (ptr : Nat) (bps : List Nat) :
    ∀ w : World,
    (assign_signature w bps sig ptr).ctx = w.ctx ∧
    (assign_signature w bps sig ptr).trace = w.trace ∧
    (assign_signature w bps sig ptr).status = w.status ∧
    (assign_signature w bps sig ptr).tracee = w.tracee ∧
    ∀ q, (assign_signature w bps sig ptr).heap q =
      if q ∈ bps ∧ sig.name = (w.heap q).name then { w.heap q with addr := ptr } else w.heap q := by
  induction bps with
  | nil => intro w; simp [assign_signature]
  | cons bp t ih =>
    intro w
    simp only [assign_signature, List.foldl_cons]
    by_cases hn : sig.name = (w.heap bp).name
    · rw [if_pos hn]
      obtain ⟨h1, h2, h3, h4, h5⟩ := ih (w.update bp (fun b => { b with addr := ptr }))
      simp only [assign_signature] at h1 h2 h3 h4 h5
      refine ⟨by simp [h1], by simp [h2], by simp [h3], by simp [h4], ?_⟩
      intro q
      rw [h5 q]
      simp only [update_proj, List.mem_cons]
      by_cases hq : q = bp
      · subst hq
        simp [hn]
      · simp [hq]
    · rw [if_neg hn]
      obtain ⟨h1, h2, h3, h4, h5⟩ := ih w
      simp only [assign_signature] at h1 h2 h3 h4 h5
      refine ⟨h1, h2, h3, h4, ?_⟩
      intro q
      rw [h5 q]
      simp only [List.mem_cons]
      by_cases hq : q = bp
      · subst hq
        simp [hn]
      · simp [hq]

theorem apply_signatures_heap (base : Nat) (bps : List Nat) (sigs : List FunctionSignature) :
    ∀ w : World,
    let w' := sigs.foldl (fun w sig =>
      if sig.offset ≠ 0 then assign_signature w bps sig (u64 (base + sig.offset)) else w) w
    w'.ctx = w.ctx ∧ w'.trace = w.trace ∧ w'.status = w.status ∧ w'.tracee = w.tracee ∧
    ∀ q, w'.heap q =
      if q ∈ bps then
        { w.heap q with addr := funcid_addr base sigs (w.heap q).name (w.heap q).addr }
      else w.heap q := by
  induction sigs with
  | nil => intro w; simp [funcid_addr]
  | cons sig t ih =>
    intro w
    simp only [List.foldl_cons]
    by_cases ho : sig.offset ≠ 0
    · rw [if_pos ho]
      obtain ⟨h1, h2, h3, h4, h5⟩ := ih (assign_signature w bps sig (u64 (base + sig.offset)))
      obtain ⟨a1, a2, a3, a4, a5⟩ := assign_signature_proj sig (u64 (base + sig.offset)) bps w
      refine ⟨h1.trans a1, h2.trans a2, h3.trans a3, h4.trans a4, ?_⟩
      intro q
      rw [h5 q, a5 q]
      by_cases hq : q ∈ bps
      · simp only [if_pos hq, funcid_addr, List.foldl_cons, signature_matches]
        by_cases hn : sig.name = (w.heap q).name
        · simp [hq, hn, ho]
        · simp [hn]
      · simp [hq]
    · rw [if_neg ho]
      obtain ⟨h1, h2, h3, h4, h5⟩ := ih w
      refine ⟨h1, h2, h3, h4, ?_⟩
      intro q
      rw [h5 q]
      have : sig.offset = 0 := by simpa using ho
      simp [funcid_addr, signature_matches, this]

theorem funcid_addr_last (base : Nat) (name : String) (addr : Nat)
    (sigs : List FunctionSignature) :
    funcid_addr base sigs name addr =
      match (sigs.filter (signature_matches name)).getLast? with
      | some sig => u64 (base + sig.offset)
      | none => addr := by
  induction sigs using List.reverseRecOn with
  | nil => simp [funcid_addr]
  | append_singleton l s ih =>
    unfold funcid_addr at ih ⊢
    rw [List.foldl_append, List.filter_append]
    simp only [List.foldl_cons, List.foldl_nil]
    by_cases hm : signature_matches name s = true
    · simp [hm, List.filter_cons]
    · have hm : signature_matches name s = false := by simpa using hm
      simp only [hm, List.filter_cons, List.filter_nil]
      simpa using ih

/-- Claim C7: with five signatures returned by the finder, after `evaluate_funcid` every
breakpoint of the list whose name is the name of a signature with non-zero offset has the
address `binary.base + offset` (unsigned 64-bit) of the last such signature, and every
other breakpoint, in the list or not, is unchanged. -/
theorem evaluate_funcid_addresses (w : World) (bps : List Nat) (sigs : List FunctionSignature)
    (bin : ProcMapsEntry)
    (hbin : pme_walk w.ctx.pme_head ProcELFType.PROCELF_TYPE_BINARY = some bin)
    (hlen : sigs.length = 5) :
    (∀ bp sig, bp ∈ bps →
      (sigs.filter (signature_matches (w.heap bp).name)).getLast? = some sig →
      (evaluate_funcid w bps sigs).heap bp =
        { w.heap bp with addr := u64 (bin.base + sig.offset) } ∧
      (bin.base + sig.offset < 2 ^ 64 →
        ((evaluate_funcid w bps sigs).heap bp).addr = bin.base + sig.offset)) ∧
    (∀ bp, bp ∈ bps →
      (sigs.filter (signature_matches (w.heap bp).name)).getLast? = none →
      (evaluate_funcid w bps sigs).heap bp = w.heap bp) ∧
    (∀ q, q ∉ bps → (evaluate_funcid w bps sigs).heap q = w.heap q) := by
  have htake : sigs.take 5 = sigs := List.take_of_length_le (by omega)
  have key := (apply_signatures_heap bin.base bps sigs w).2.2.2.2
  simp only [] at key
  have heq : ∀ q, (evaluate_funcid w bps sigs).heap q =
      if q ∈ bps then
        { w.heap q with addr := funcid_addr bin.base sigs (w.heap q).name (w.heap q).addr }
      else w.heap q := by
    intro q
    simp only [evaluate_funcid, hbin, htake]
    exact key q
  refine ⟨?_, ?_, ?_⟩
  · intro bp sig hbp hlast
    have h1 : (evaluate_funcid w bps sigs).heap bp =
        { w.heap bp with addr := u64 (bin.base + sig.offset) } := by
      rw [heq bp, if_pos hbp, funcid_addr_last, hlast]
    refine ⟨h1, ?_⟩
    intro hlt
    rw [h1]
    exact Nat.mod_eq_of_lt hlt
  · intro bp hbp hlast
    rw [heq bp, if_pos hbp, funcid_addr_last, hlast]
  · intro q hq
    rw [heq q, if_neg hq]

/-- What `get_oid` computes: the sum of the five counters modulo `2 ^ 64`; its assertion
passes, and the value is returned with the world unchanged, exactly when that value is
below `0xFFFFFFFFFFFFFFF0`; the value is the exact sum whenever the exact sum is below
`2 ^ 64`. -/
theorem get_oid_value (w : World) :
    (get_oid w).2 = counter_sum w.ctx % 2 ^ 64 ∧
    ((get_oid w).2 < 0xFFFFFFFFFFFFFFF0 → (get_oid w).1 = w) ∧
    (¬ (get_oid w).2 < 0xFFFFFFFFFFFFFFF0 → (get_oid w).1.status = ProcStatus.aborted) ∧
    (counter_sum w.ctx < 2 ^ 64 → (get_oid w).2 = counter_sum w.ctx) := by
  have hval : (get_oid w).2 = counter_sum w.ctx % 2 ^ 64 := by
    simp only [get_oid, counter_sum, u64]
    omega
  refine ⟨hval, ?_, ?_, ?_⟩
  · intro h
    simp only [get_oid] at h ⊢
    simp [ASSERT, h]
  · intro h
    simp only [get_oid] at h ⊢
    simp [ASSERT, h]
  · intro h
    rw [hval]
    exact Nat.mod_eq_of_lt h

/-- Claim C9: `check_should_break` hands the tracee off exactly when `break_at` equals `oid`:
then, for a pid of at most 9 decimal characters, it removes all breakpoints, detaches
`ctx.pid` with `SIGSTOP` and calls `execv` with the debugger path, `-p` and the decimal
pid, in this order; otherwise it does nothing and returns the world unchanged. -/
theorem check_should_break_handoff (N : Nat) (execv_ok : Bool) (w : World) (oid break_at : Nat)
    (prepend_newline : Int) :
    (break_at = oid → (decimal w.ctx.pid).length ≤ 9 →
      (∀ i, i < N →
        (check_should_break N execv_ok w oid break_at prepend_newline).ctx.breakpoints i = none) ∧
      (check_should_break N execv_ok w oid break_at prepend_newline).status =
        (if execv_ok = true then ProcStatus.replaced else ProcStatus.aborted) ∧
      ∃ uninstalls, (∀ e, e ∈ uninstalls → e.is_uninstall = true) ∧
        (check_should_break N execv_ok w oid break_at prepend_newline).trace =
          w.trace ++ [Event.remove_breakpoints] ++ uninstalls ++
            [Event.ptrace_detach w.ctx.pid SIGSTOP,
             Event.execv [w.OPT_GDB_PATH, ['-', 'p'], decimal w.ctx.pid]] ++
            (if execv_ok = true then [] else [Event.assert_failed])) ∧
    (break_at ≠ oid → check_should_break N execv_ok w oid break_at prepend_newline = w) := by
  constructor
  · intro heq hlen
    obtain ⟨h1, h2, h3, h4, rest, h5, h6⟩ := remove_breakpoints_spec N w
    have hbuf : snprintf_d 10 w.ctx.pid = decimal w.ctx.pid := by
      unfold snprintf_d
      exact List.take_of_length_le (by omega)
    cases execv_ok with
    | true =>
      simp only [check_should_break, heq, decide_True, if_true, ptrace_detach, emit_proj,
        halt_proj, h1, h2, hbuf, h5]
      exact ⟨h4, trivial, rest, h6, by simp [h5]⟩
    | false =>
      simp only [check_should_break, heq, decide_True, if_true, ptrace_detach, emit_proj,
        halt_proj, h1, h2, hbuf, h5, ASSERT_false]
      exact ⟨h4, by simp, rest, h6, by simp [h5]⟩
  · intro hne
    simp [check_should_break, hne]

theorem int_of_long_id (n : Int) (h1 : -2 ^ 31 ≤ n) (h2 : n < 2 ^ 31) : int_of_long n = n := by
  unfold int_of_long
  omega

theorem fork_status_routes (status : Nat) (hstop : status % 256 = 0x7f)
    (hev : status / 65536 = PTRACE_EVENT_FORK ∨ status / 65536 = PTRACE_EVENT_VFORK ∨
      status / 65536 = PTRACE_EVENT_CLONE) :
    ¬ (WIFEXITED status = true ∨ WIFSIGNALED status = true ∨ status = STATUS_SIGSEGV ∨
      status = 0x67f) ∧ status ≠ 0x57f := by
  have h128 : status % 128 = 127 := by omega
  have hge : 65536 ≤ status := by
    simp only [PTRACE_EVENT_FORK, PTRACE_EVENT_VFORK, PTRACE_EVENT_CLONE] at hev
    omega
  refine ⟨?_, by omega⟩
  rintro (h | h | h | h)
  · simp [WIFEXITED, h128] at h
  · simp [WIFSIGNALED, h128] at h
  · simp only [STATUS_SIGSEGV] at h; omega
  · omega

/-- Claim C10: on a fork, vfork or clone event reporting the new pid `n` while `p` is tracked:
with follow-fork off the iteration issues one detach, to `n` with `SIGSTOP`, keeps
tracking `p` and continues `p`; with follow-fork on it issues one detach, to `p` with
`SIGCONT`, tracks `n` (both `child` and `ctx->pid`) and continues `n`. -/
theorem fork_event_iteration (N : Nat) (cpu : Tracee → Tracee) (execv_ok : Bool)
    (map_symbols : Int → World → World) (at_entry pre_entry : Nat) (junk : Breakpoint)
    (n : Int) (status : Nat) (s : LoopState)
    (hrun : s.w.status = ProcStatus.running) (hfirst : s.first_signal = false)
    (hmap : s.w.ctx.should_map_syms = false)
    (hstop : status % 256 = 0x7f)
    (hev : status / 65536 = PTRACE_EVENT_FORK ∨ status / 65536 = PTRACE_EVENT_VFORK ∨
      status / 65536 = PTRACE_EVENT_CLONE)
    (hn1 : -2 ^ 31 ≤ n) (hn2 : n < 2 ^ 31) :
    (s.w.OPT_FOLLOW_FORK = false →
      (loop_iteration N cpu execv_ok map_symbols at_entry pre_entry junk n status s).w.trace =
        s.w.trace ++ [Event.ptrace_setoptions s.child PTRACE_O_TRACEEXEC,
          Event.ptrace_getregs s.child, Event.ptrace_geteventmsg s.child,
          Event.ptrace_detach n SIGSTOP, Event.ptrace_cont s.child 0] ∧
      (loop_iteration N cpu execv_ok map_symbols at_entry pre_entry junk n status s).child =
        s.child ∧
      (loop_iteration N cpu execv_ok map_symbols at_entry pre_entry junk n status s).w.ctx.pid =
        s.w.ctx.pid) ∧
    (s.w.OPT_FOLLOW_FORK = true →
      (loop_iteration N cpu execv_ok map_symbols at_entry pre_entry junk n status s).w.trace =
        s.w.trace ++ [Event.ptrace_setoptions s.child
            (PTRACE_O_TRACEFORK + PTRACE_O_TRACEVFORK + PTRACE_O_TRACECLONE + PTRACE_O_TRACEEXEC),
          Event.ptrace_getregs s.child, Event.ptrace_geteventmsg s.child,
          Event.ptrace_detach s.child SIGCONT,
          Event.ptrace_setoptions n
            (PTRACE_O_TRACEFORK + PTRACE_O_TRACEVFORK + PTRACE_O_TRACECLONE),
          Event.ptrace_cont n 0] ∧
      (loop_iteration N cpu execv_ok map_symbols at_entry pre_entry junk n status s).child = n ∧
      (loop_iteration N cpu execv_ok map_symbols at_entry pre_entry junk n status s).w.ctx.pid =
        n) := by
  obtain ⟨hr1, hr2⟩ := fork_status_routes status hstop hev
  have hid := int_of_long_id n hn1 hn2
  constructor
  · intro hff
    simp [loop_iteration, loop_prologue, loop_first_signal, loop_dispatch, loop_epilogue,
      loop_fork, hfirst, hrun, hff, hmap, hr1, hr2, hev, hid]
  · intro hff
    simp [loop_iteration, loop_prologue, loop_first_signal, loop_dispatch, loop_epilogue,
      loop_fork, hfirst, hrun, hff, hmap, hr1, hr2, hev, hid]

set_option maxRecDepth 100000

theorem example_world_ok : TableOk 4 example_world := by
  constructor
  · intro i hi p hp
    interval_cases i <;> simp [example_world, example_ctx] at hp ⊢ <;> omega
  · intro i hi j hj p q hp hq he
    interval_cases i <;> interval_cases j <;>
      simp [example_world, example_ctx, example_entry, example_malloc] at hp hq he ⊢ <;>
      (subst hp; subst hq; simp at he)

theorem example_world_inside_ok : TableOk 4 example_world_inside := by
  constructor
  · intro i hi p hp
    interval_cases i <;> simp [example_world_inside, example_ctx] at hp ⊢ <;> omega
  · intro i hi j hj p q hp hq he
    interval_cases i <;> interval_cases j <;>
      simp [example_world_inside, example_ctx, example_entry, example_malloc,
        example_catcher] at hp hq he ⊢ <;>
      (subst hp; subst hq; simp at he)

theorem example_world_initial : Initial 4 example_world := by
  refine ⟨rfl, rfl, rfl, example_world_ok, ?_⟩
  intro i hi p hp
  interval_cases i <;> simp [example_world, example_ctx] at hp ⊢ <;> subst hp <;> decide

theorem example_world_break_main_ok : TableOk 4 example_world_break_main := example_world_ok

/-- Witness of C1: the hit at `malloc(24)` calls the pre-handler of `malloc` once,
with 24. -/
theorem check_breakpoints_pre_handler_witness :
    pre_calls (_check_breakpoints 4 example_cpu true 3 example_world).trace =
      [(example_malloc, [24])] :=
  (check_breakpoints_pre_handler 4 example_cpu true 3 example_world 1 1 example_world_ok rfl
    (by decide) rfl (by decide) (by decide) rfl rfl).1 (by decide)

/-- Witness of C2: the hit at the return address calls the post-handler of `malloc` once
with `rax = 0x405000` and clears the slot of the return value catcher. -/
theorem check_breakpoints_return_catcher_witness :
    post_calls (_check_breakpoints 4 example_cpu true 3 example_world_inside).trace =
      [({ example_malloc with _is_inside := true }, 0x405000)] ∧
    (_check_breakpoints 4 example_cpu true 3 example_world_inside).in_breakpoint = false :=
  have h := check_breakpoints_return_catcher 4 example_cpu true 3 example_world_inside 2 2 1
    example_world_inside_ok rfl (by decide) rfl (by decide) rfl rfl rfl (by decide)
  ⟨h.1, h.2.2.2.2.2.2.1⟩

/-- Claim C5 (failing input): from the initial state, one hit on the entry breakpoint,
a regular breakpoint with a pre-handler and no post-handler, leaves `in_breakpoint`
clear while the entry breakpoint, still in the table, has `_is_inside` set. -/
theorem entry_hit_leaves_inside_set :
    Initial 4 example_world ∧
    (dispatch_hits 4 example_cpu true 3 example_world [example_stop_entry]).in_breakpoint = false ∧
    (dispatch_hits 4 example_cpu true 3 example_world [example_stop_entry]).ctx.breakpoints 0 =
      some 0 ∧
    ((dispatch_hits 4 example_cpu true 3 example_world [example_stop_entry]).heap 0)._bp = none ∧
    ((dispatch_hits 4 example_cpu true 3 example_world [example_stop_entry]).heap 0).post_handler
      = 0 ∧
    ((dispatch_hits 4 example_cpu true 3 example_world [example_stop_entry]).heap 0)._is_inside
      = true :=
  ⟨example_world_initial, by decide, by decide, by decide, by decide, by decide⟩

/-- Witness of C6: with a libc region in the map, the GOT word 0x401036 of the example
resolves to 0x401030. -/
theorem calc_offset_plt_witness :
    (_calc_offset example_world_libc example_plt_symbol).2 = 0x401030 :=
  (congrArg Prod.snd ((calc_offset_plt example_world_libc example_plt_symbol
    { pet := ProcELFType.PROCELF_TYPE_BINARY, base := 0x400000, end_ := 0x500000 }
    (by decide) rfl).1 (by decide))).trans (by decide)

/-- Witness of C7: the signature of `malloc` at offset 0x1180 moves the `malloc`
breakpoint to 0x401180. -/
theorem evaluate_funcid_addresses_witness :
    ((evaluate_funcid example_world [1] example_signatures).heap 1).addr = 0x401180 :=
  ((evaluate_funcid_addresses example_world [1] example_signatures
    { pet := ProcELFType.PROCELF_TYPE_BINARY, base := 0x400000, end_ := 0x500000 }
    (by decide) (by decide)).1 1 { name := "malloc", offset := 0x1180 } (by decide)
    (by decide)).2 (by decide)

/-- Witness of C10: with follow-fork off, the fork event reporting pid 4243 while 4242 is
tracked detaches 4243 with `SIGSTOP` and continues 4242. -/
theorem fork_event_iteration_witness :
    (loop_iteration 4 example_cpu true (fun _ w => w) 0x400800 3 zero_breakpoint 4243 0x1057f
      example_loop).w.trace =
      [Event.ptrace_setoptions 4242 PTRACE_O_TRACEEXEC, Event.ptrace_getregs 4242,
        Event.ptrace_geteventmsg 4242, Event.ptrace_detach 4243 SIGSTOP,
        Event.ptrace_cont 4242 0] ∧
    (loop_iteration 4 example_cpu true (fun _ w => w) 0x400800 3 zero_breakpoint 4243 0x1057f
      example_loop).child = 4242 :=
  have h := (fork_event_iteration 4 example_cpu true (fun _ w => w) 0x400800 3 zero_breakpoint
    4243 0x1057f example_loop rfl rfl rfl (by decide) (by decide) (by decide) (by decide)).1 rfl
  ⟨h.1, h.2.1⟩

/-- Witness of C9: with `oid = break_at = 1` the tracer is replaced by the debugger and
the table is empty; with `break_at = 2` nothing happens. -/
theorem check_should_break_handoff_witness :
    (check_should_break 4 true example_world 1 1 0).status = ProcStatus.replaced ∧
    (check_should_break 4 true example_world 1 1 0).ctx.breakpoints 1 = none ∧
    check_should_break 4 true example_world 1 2 0 = example_world :=
  have h := (check_should_break_handoff 4 true example_world 1 1 0).1 rfl (by decide)
  ⟨h.2.1, h.1 1 (by decide), (check_should_break_handoff 4 true example_world 1 2 0).2
    (by decide)⟩

/-! ## Shutdown: when `end_debugger` hands the tracee to the debugger -/

theorem log_between_pre_and_post_cases (w : World) :
    log_between_pre_and_post w = w ∨
    log_between_pre_and_post w = (w.emit Event.assert_failed).halt ProcStatus.aborted := by
  unfold log_between_pre_and_post
  split_ifs with h
  · by_cases hq : (get_oid w).2 < 0xFFFFFFFFFFFFFFF0
    · left
      simp only [get_oid] at hq ⊢
      simp [ASSERT, hq]
    · right
      simp only [get_oid] at hq ⊢
      simp [ASSERT, hq]
  · exact Or.inl rfl

theorem check_should_break_due (N : Nat) (execv_ok : Bool) (w : World) (x : Nat) (z : Int) :
    (check_should_break N execv_ok w x x z).status =
      (if execv_ok = true then ProcStatus.replaced else ProcStatus.aborted) ∧
    ∃ uninstalls, (∀ e, e ∈ uninstalls → e.is_uninstall = true) ∧
      (check_should_break N execv_ok w x x z).trace =
        w.trace ++ ([Event.remove_breakpoints] ++ uninstalls ++
          [Event.ptrace_detach w.ctx.pid SIGSTOP,
           Event.execv [w.OPT_GDB_PATH, ['-', 'p'], snprintf_d 10 w.ctx.pid]] ++
          (if execv_ok = true then [] else [Event.assert_failed])) := by
  obtain ⟨h1, h2, h3, -, rest, h5, h6⟩ := remove_breakpoints_spec N w
  cases execv_ok with
  | true =>
    simp only [check_should_break, decide_True, if_true, ptrace_detach, emit_proj,
      halt_proj, h1, h2, h5]
    exact ⟨by simp, rest, h6, by simp⟩
  | false =>
    simp only [check_should_break, decide_True, if_true, ptrace_detach, emit_proj,
      halt_proj, h1, h2, h5, ASSERT_false]
    exact ⟨by simp, rest, h6, by simp [h5]⟩

theorem check_should_break_not_due (N : Nat) (execv_ok : Bool) (w : World) (x y : Nat) (z : Int)
    (h : y ≠ x) : check_should_break N execv_ok w x y z = w := by
  simp [check_should_break, h]

theorem end_debugger_tail (w : World) (should_detach : Bool) :
    ∃ rest, ((if should_detach = true then ptrace_detach w w.ctx.pid SIGCONT else w).halt
        ProcStatus.exited).trace = w.trace ++ rest ∧
      ∀ e, e ∈ rest → e.is_handoff = false := by
  cases should_detach with
  | true => exact ⟨[Event.ptrace_detach w.ctx.pid SIGCONT], by simp [ptrace_detach], by
      simp [Event.is_handoff, SIGCONT, SIGSTOP]⟩
  | false => exact ⟨[], by simp, by simp⟩

/-- Claim C11, amended: `end_debugger` hands the tracee to the debugger exactly when the
stop is not an exec event, the wait status is the sigsegv stop `0xb7f`, the abort stop
`0x67f` or a death by any signal, `BREAK_SIGSEGV` is 1 and the report did not abort: it
then removes all breakpoints, detaches with `SIGSTOP` and calls `execv` on the debugger.
In every other case, a normal exit and an exec event among them, no event of a handoff
is issued, whatever `BREAK_SIGSEGV` is. -/
theorem end_debugger_handoff (N : Nat) (execv_ok : Bool) (w : World) (should_detach : Bool) :
    ∃ rest, (end_debugger N execv_ok w should_detach).trace = w.trace ++ rest ∧
      (handoff_due w →
        (end_debugger N execv_ok w should_detach).status =
          (if execv_ok = true then ProcStatus.replaced else ProcStatus.aborted) ∧
        ∃ uninstalls, (∀ e, e ∈ uninstalls → e.is_uninstall = true) ∧
          rest = [Event.remove_breakpoints] ++ uninstalls ++
            [Event.ptrace_detach w.ctx.pid SIGSTOP,
             Event.execv [w.OPT_GDB_PATH, ['-', 'p'], snprintf_d 10 w.ctx.pid]] ++
            (if execv_ok = true then [] else [Event.assert_failed])) ∧
      (¬ handoff_due w → ∀ e, e ∈ rest → e.is_handoff = false) := by
  have hl := log_between_pre_and_post_cases w
  by_cases hA : w.ctx.status16 = PTRACE_EVENT_EXEC
  · have hnd : ¬ handoff_due w := fun h => h.2.1 hA
    rcases hl with hl | hl
    · by_cases hr : w.status = ProcStatus.running
      · obtain ⟨rest, h1, h2⟩ := end_debugger_tail w should_detach
        refine ⟨rest, ?_, fun h => absurd h hnd, fun _ => h2⟩
        rw [← h1]
        simp [end_debugger, hA, hl, hr]
      · refine ⟨[], ?_, fun h => absurd h hnd, by simp⟩
        simp [end_debugger, hA, hl, hr]
    · refine ⟨[Event.assert_failed], ?_, fun h => absurd h hnd, by simp [Event.is_handoff]⟩
      simp [end_debugger, hA, hl]
  · by_cases hB : w.ctx.status = STATUS_SIGSEGV ∨ w.ctx.status = 0x67f ∨
        (WIFSIGNALED w.ctx.status = true ∧ WIFEXITED w.ctx.status = false)
    · rcases hl with hl | hl
      · by_cases hr : w.status = ProcStatus.running
        · by_cases hbrk : u64_of_int w.BREAK_SIGSEGV = 1
          · obtain ⟨c1, uninstalls, c2, c3⟩ := check_should_break_due N execv_ok w 1 0
            have hstop : (check_should_break N execv_ok w 1 1 0).status ≠
                ProcStatus.running := by
              rw [c1]; cases execv_ok <;> simp
            have heq : end_debugger N execv_ok w should_detach =
                check_should_break N execv_ok w 1 1 0 := by
              simp [end_debugger, hA, hB, hl, hr, hbrk, hstop]
            refine ⟨_, heq ▸ c3, fun _ => ⟨heq ▸ c1, uninstalls, c2, rfl⟩, fun h => ?_⟩
            exact absurd ⟨by rw [hl]; exact hr, hA, hB, hbrk⟩ h
          · have hnd : ¬ handoff_due w := fun h => hbrk h.2.2.2
            obtain ⟨rest, h1, h2⟩ := end_debugger_tail w should_detach
            refine ⟨rest, ?_, fun h => absurd h hnd, fun _ => h2⟩
            rw [← h1]
            simp [end_debugger, hA, hB, hl, hr,
              check_should_break_not_due N execv_ok w 1 _ 0 hbrk]
        · have hnd : ¬ handoff_due w := fun h => hr (by rw [← hl]; exact h.1)
          refine ⟨[], ?_, fun h => absurd h hnd, by simp⟩
          simp [end_debugger, hA, hB, hl, hr]
      · have hnd : ¬ handoff_due w := fun h => by
          have := h.1
          rw [hl] at this
          simp at this
        refine ⟨[Event.assert_failed], ?_, fun h => absurd h hnd, by simp [Event.is_handoff]⟩
        simp [end_debugger, hA, hB, hl]
    · have hnd : ¬ handoff_due w := fun h => hB h.2.2.1
      by_cases hr : w.status = ProcStatus.running
      · obtain ⟨rest, h1, h2⟩ := end_debugger_tail w should_detach
        refine ⟨rest, ?_, fun h => absurd h hnd, fun _ => h2⟩
        rw [← h1]
        simp [end_debugger, hA, hB, hr]
      · refine ⟨[], ?_, fun h => absurd h hnd, by simp⟩
        simp [end_debugger, hA, hB, hr]

/-! ## A trap that belongs to no breakpoint -/

/-- Claim C12, amended: when the tracee stops with `SIGTRAP` (status `0x57f`) at an address
that matches no breakpoint of the table, `_check_breakpoints` only reads the registers,
and the iteration of the event loop consists of the option and register calls, that
read, and `PTRACE_CONT` with signal 0: the tracee, the table, the breakpoint objects and
`in_breakpoint` are as before and no signal is delivered. -/
theorem stray_trap_iteration (N : Nat) (cpu : Tracee → Tracee) (execv_ok : Bool)
    (map_symbols : Int → World → World) (at_entry pre_entry : Nat) (junk : Breakpoint)
    (newpid : Int) (s : LoopState)
    (hrun : s.w.status = ProcStatus.running) (hfirst : s.first_signal = false)
    (hmap : s.w.ctx.should_map_syms = false)
    (hstray : addr_installed N s.w (hit_address s.w.tracee.regs) = false) :
    _check_breakpoints N cpu execv_ok pre_entry s.w = s.w.emit (Event.ptrace_getregs s.w.ctx.pid) ∧
    (loop_iteration N cpu execv_ok map_symbols at_entry pre_entry junk newpid 0x57f s).w.trace =
      s.w.trace ++ [Event.ptrace_setoptions s.child
          (if s.w.OPT_FOLLOW_FORK = true then
            PTRACE_O_TRACEFORK + PTRACE_O_TRACEVFORK + PTRACE_O_TRACECLONE + PTRACE_O_TRACEEXEC
          else PTRACE_O_TRACEEXEC),
        Event.ptrace_getregs s.child, Event.ptrace_getregs s.w.ctx.pid,
        Event.ptrace_cont s.child 0] ∧
    (loop_iteration N cpu execv_ok map_symbols at_entry pre_entry junk newpid 0x57f s).w.tracee =
      s.w.tracee ∧
    (loop_iteration N cpu execv_ok map_symbols at_entry pre_entry junk newpid 0x57f
      s).w.ctx.breakpoints = s.w.ctx.breakpoints ∧
    (loop_iteration N cpu execv_ok map_symbols at_entry pre_entry junk newpid 0x57f s).w.heap =
      s.w.heap ∧
    (loop_iteration N cpu execv_ok map_symbols at_entry pre_entry junk newpid 0x57f
      s).w.in_breakpoint = s.w.in_breakpoint ∧
    (loop_iteration N cpu execv_ok map_symbols at_entry pre_entry junk newpid 0x57f s).w.status =
      ProcStatus.running ∧
    (loop_iteration N cpu execv_ok map_symbols at_entry pre_entry junk newpid 0x57f s).child =
      s.child := by
  have hno := addr_installed_false hstray
  have h1 : _check_breakpoints N cpu execv_ok pre_entry s.w = s.w.emit (Event.ptrace_getregs s.w.ctx.pid) :=
    check_nomatch N cpu execv_ok pre_entry s.w (Or.inr hno)
  have hE : WIFEXITED 0x57f = false := by decide
  have hS : WIFSIGNALED 0x57f = false := by decide
  have hG : ¬ (0x57f : Nat) = STATUS_SIGSEGV := by decide
  obtain ⟨w1, hw1, t1, t2, t3, t4, t5, t6, t7, t8⟩ : ∃ w1, loop_prologue s 0x57f = { s with w := w1 } ∧
      w1.trace = s.w.trace ++ [Event.ptrace_setoptions s.child
          (if s.w.OPT_FOLLOW_FORK = true then
            PTRACE_O_TRACEFORK + PTRACE_O_TRACEVFORK + PTRACE_O_TRACECLONE + PTRACE_O_TRACEEXEC
          else PTRACE_O_TRACEEXEC), Event.ptrace_getregs s.child] ∧
      w1.tracee = s.w.tracee ∧ w1.ctx.breakpoints = s.w.ctx.breakpoints ∧ w1.heap = s.w.heap ∧
      w1.in_breakpoint = s.w.in_breakpoint ∧ w1.status = ProcStatus.running ∧
      w1.ctx.pid = s.w.ctx.pid ∧ w1.ctx.should_map_syms = false := by
    refine ⟨_, rfl, ?_⟩
    cases hff : s.w.OPT_FOLLOW_FORK <;>
      simp [loop_prologue, hff, ptrace_setoptions, hrun, hmap]
  have hno1 : ∀ k, k < N → ∀ q, w1.ctx.breakpoints k = some q →
      (w1.heap q).addr ≠ hit_address w1.tracee.regs := by
    rw [t3, t4, t2]; exact hno
  have h2 : _check_breakpoints N cpu execv_ok pre_entry w1 = w1.emit (Event.ptrace_getregs s.w.ctx.pid) := by
    rw [← t7]; exact check_nomatch N cpu execv_ok pre_entry w1 (Or.inr hno1)
  have hit : loop_iteration N cpu execv_ok map_symbols at_entry pre_entry junk newpid 0x57f s =
      LoopState.mk ((w1.emit (Event.ptrace_getregs s.w.ctx.pid)).emit
        (Event.ptrace_cont s.child 0)) s.child s.first_signal := by
    simp [loop_iteration, hw1, loop_first_signal, hfirst, loop_dispatch, hE, hS, hG, h2, t6,
      loop_epilogue, t8, ptrace_cont]
  refine ⟨h1, ?_⟩
  rw [hit]
  simp [t1, t2, t3, t4, t5, t6]

/-! ## The warning about symbols and the breakpoints that are skipped -/

theorem assign_offset_unresolved (w : World) (bp : Nat) (se : SymbolEntry)
    (hrun : w.status = ProcStatus.running)
    (hbin : (pme_walk w.ctx.pme_head ProcELFType.PROCELF_TYPE_BINARY).isSome = true)
    (ht : se.type = SEType.SE_TYPE_UNRESOLVED) :
    assign_offset w bp se = w.update bp (fun b => { b with addr := 0 }) := by
  obtain ⟨b, hb⟩ := Option.isSome_iff_exists.mp hbin
  simp [assign_offset, _calc_offset, hrun, hb, ht]

theorem evaluate_funcid_no_match (w : World) (bps : List Nat) (sigs : List FunctionSignature)
    (hbin : (pme_walk w.ctx.pme_head ProcELFType.PROCELF_TYPE_BINARY).isSome = true)
    (h0 : ∀ sig, sig ∈ sigs.take 5 → sig.offset = 0) :
    evaluate_funcid w bps sigs = w := by
  obtain ⟨b, hb⟩ := Option.isSome_iff_exists.mp hbin
  simp only [evaluate_funcid, hb]
  generalize sigs.take 5 = l at h0
  induction l with
  | nil => rfl
  | cons a t ih =>
    simp only [List.foldl_cons]
    rw [if_neg (by simpa using h0 a (List.mem_cons_self a t))]
    exact ih (fun sig hs => h0 sig (List.mem_cons_of_mem a hs))

theorem install_breakpoint_skipped (N : Nat) (w : World) (p : Nat) (h : (w.heap p).addr = 0) :
    install_breakpoint N w p = w.emit (Event.install_breakpoint (w.heap p) false) := by
  simp [install_breakpoint, h]

theorem install_all_skipped (N : Nat) (bps : List Nat) :
    ∀ w : World, (∀ p, p ∈ bps → (w.heap p).addr = 0) →
    (bps.foldl (fun w bp => install_breakpoint N w bp) w).ctx = w.ctx ∧
    (bps.foldl (fun w bp => install_breakpoint N w bp) w).heap = w.heap ∧
    (bps.foldl (fun w bp => install_breakpoint N w bp) w).tracee = w.tracee ∧
    (bps.foldl (fun w bp => install_breakpoint N w bp) w).trace =
      w.trace ++ bps.map (fun bp => Event.install_breakpoint (w.heap bp) false) := by
  induction bps with
  | nil => intro w _; simp
  | cons a t ih =>
    intro w h
    simp only [List.foldl_cons]
    rw [install_breakpoint_skipped N w a (h a (List.mem_cons_self a t))]
    obtain ⟨i1, i2, i3, i4⟩ := ih (w.emit (Event.install_breakpoint (w.heap a) false))
      (fun p hp => by simpa using h p (List.mem_cons_of_mem a hp))
    refine ⟨by simpa using i1, by simpa using i2, by simpa using i3, ?_⟩
    rw [i4]
    simp

theorem start_debugger_flags_warnings
    (se_malloc se_calloc se_free se_realloc se_reallocarray : SymbolEntry)
    (symbol_defs_str : List Char) :
    (start_debugger_flags se_malloc se_calloc se_free se_realloc se_reallocarray
      symbol_defs_str).warnings =
      (if (se_malloc.type = SEType.SE_TYPE_UNRESOLVED ∧
          se_calloc.type = SEType.SE_TYPE_UNRESOLVED ∧
          se_free.type = SEType.SE_TYPE_UNRESOLVED ∧
          se_realloc.type = SEType.SE_TYPE_UNRESOLVED ∧
          se_reallocarray.type = SEType.SE_TYPE_UNRESOLVED) ∧ symbol_defs_str = []
        then [symbols_warning] else []) ∧
    (start_debugger_flags se_malloc se_calloc se_free se_realloc se_reallocarray
      symbol_defs_str).target_is_stripped =
      decide (se_malloc.type = SEType.SE_TYPE_UNRESOLVED ∧
          se_calloc.type = SEType.SE_TYPE_UNRESOLVED ∧
          se_free.type = SEType.SE_TYPE_UNRESOLVED ∧
          se_realloc.type = SEType.SE_TYPE_UNRESOLVED ∧
          se_reallocarray.type = SEType.SE_TYPE_UNRESOLVED) := by
  unfold start_debugger_flags
  by_cases h : (se_malloc.type = SEType.SE_TYPE_UNRESOLVED ∧
          se_calloc.type = SEType.SE_TYPE_UNRESOLVED ∧
          se_free.type = SEType.SE_TYPE_UNRESOLVED ∧
          se_realloc.type = SEType.SE_TYPE_UNRESOLVED ∧
          se_reallocarray.type = SEType.SE_TYPE_UNRESOLVED)
  · obtain ⟨h1, h2, h3, h4, h5⟩ := h
    by_cases hs : symbol_defs_str = []
    · simp [h1, h2, h3, h4, h5, hs]
    · simp [h1, h2, h3, h4, h5, hs]
  · have hd : (decide (se_malloc.type = SEType.SE_TYPE_UNRESOLVED) &&
        decide (se_calloc.type = SEType.SE_TYPE_UNRESOLVED) &&
        decide (se_free.type = SEType.SE_TYPE_UNRESOLVED) &&
        decide (se_realloc.type = SEType.SE_TYPE_UNRESOLVED) &&
        decide (se_reallocarray.type = SEType.SE_TYPE_UNRESOLVED)) = false := by
      rw [Bool.eq_false_iff]
      intro hc
      apply h
      simpa [and_assoc] using hc
    simp only [hd, Bool.false_and]
    simp [h]

theorem update_addr_zero (v : World) (q p : Nat)
    (h : p = q ∨ (v.heap p).addr = 0) :
    ((v.update q (fun b => { b with addr := 0 })).heap p).addr = 0 := by
  simp only [update_proj]
  split_ifs with hq
  · rfl
  · rcases h with h | h
    · exact absurd h hq
    · exact h

theorem map_symbols_all_skipped (N : Nat) (maps : List ProcMapsEntry)
    (se_malloc se_calloc se_free se_realloc se_reallocarray : SymbolEntry)
    (bp_malloc bp_calloc bp_free bp_realloc bp_reallocarray : Nat)
    (sigs : List FunctionSignature) (evaluate_symbol_defs : World → List Nat → World)
    (w : World) (hrun : w.status = ProcStatus.running)
    (hbin : (pme_walk maps ProcELFType.PROCELF_TYPE_BINARY).isSome = true)
    (h1 : se_malloc.type = SEType.SE_TYPE_UNRESOLVED)
    (h2 : se_calloc.type = SEType.SE_TYPE_UNRESOLVED)
    (h3 : se_free.type = SEType.SE_TYPE_UNRESOLVED)
    (h4 : se_realloc.type = SEType.SE_TYPE_UNRESOLVED)
    (h5 : se_reallocarray.type = SEType.SE_TYPE_UNRESOLVED)
    (hsigs : ∀ sig, sig ∈ sigs.take 5 → sig.offset = 0)
    (hdefs : ∀ v, evaluate_symbol_defs v
      [bp_malloc, bp_calloc, bp_free, bp_realloc, bp_reallocarray] = v) :
    (map_symbols N maps se_malloc se_calloc se_free se_realloc se_reallocarray bp_malloc
      bp_calloc bp_free bp_realloc bp_reallocarray true sigs evaluate_symbol_defs
      w).ctx.breakpoints = w.ctx.breakpoints ∧
    (map_symbols N maps se_malloc se_calloc se_free se_realloc se_reallocarray bp_malloc
      bp_calloc bp_free bp_realloc bp_reallocarray true sigs evaluate_symbol_defs
      w).tracee = w.tracee ∧
    ∃ rest, (map_symbols N maps se_malloc se_calloc se_free se_realloc se_reallocarray
      bp_malloc bp_calloc bp_free bp_realloc bp_reallocarray true sigs evaluate_symbol_defs
      w).trace = w.trace ++ rest ∧ rest.length = 5 ∧
      ∀ e, e ∈ rest → e.is_install_failure = true := by
  generalize hw0 : ({ w with ctx := { w.ctx with pme_head := maps } } : World) = w0
  have r0 : w0.status = ProcStatus.running := by rw [← hw0]; exact hrun
  have b0 : (pme_walk w0.ctx.pme_head ProcELFType.PROCELF_TYPE_BINARY).isSome = true := by
    rw [← hw0]; exact hbin
  have e1 := assign_offset_unresolved w0 bp_malloc se_malloc r0 b0 h1
  generalize hw1 : w0.update bp_malloc (fun b => { b with addr := 0 }) = w1 at e1
  have r1 : w1.status = ProcStatus.running := by rw [← hw1]; simpa using r0
  have b1 : (pme_walk w1.ctx.pme_head ProcELFType.PROCELF_TYPE_BINARY).isSome = true := by
    rw [← hw1]; simpa using b0
  have e2 := assign_offset_unresolved w1 bp_calloc se_calloc r1 b1 h2
  generalize hw2 : w1.update bp_calloc (fun b => { b with addr := 0 }) = w2 at e2
  have r2 : w2.status = ProcStatus.running := by rw [← hw2]; simpa using r1
  have b2 : (pme_walk w2.ctx.pme_head ProcELFType.PROCELF_TYPE_BINARY).isSome = true := by
    rw [← hw2]; simpa using b1
  have e3 := assign_offset_unresolved w2 bp_free se_free r2 b2 h3
  generalize hw3 : w2.update bp_free (fun b => { b with addr := 0 }) = w3 at e3
  have r3 : w3.status = ProcStatus.running := by rw [← hw3]; simpa using r2
  have b3 : (pme_walk w3.ctx.pme_head ProcELFType.PROCELF_TYPE_BINARY).isSome = true := by
    rw [← hw3]; simpa using b2
  have e4 := assign_offset_unresolved w3 bp_realloc se_realloc r3 b3 h4
  generalize hw4 : w3.update bp_realloc (fun b => { b with addr := 0 }) = w4 at e4
  have r4 : w4.status = ProcStatus.running := by rw [← hw4]; simpa using r3
  have b4 : (pme_walk w4.ctx.pme_head ProcELFType.PROCELF_TYPE_BINARY).isSome = true := by
    rw [← hw4]; simpa using b3
  have e5 := assign_offset_unresolved w4 bp_reallocarray se_reallocarray r4 b4 h5
  generalize hw5 : w4.update bp_reallocarray (fun b => { b with addr := 0 }) = w5 at e5
  have r5 : w5.status = ProcStatus.running := by rw [← hw5]; simpa using r4
  have b5 : (pme_walk w5.ctx.pme_head ProcELFType.PROCELF_TYPE_BINARY).isSome = true := by
    rw [← hw5]; simpa using b4
  have hzero : ∀ p, p ∈ [bp_malloc, bp_calloc, bp_free, bp_realloc, bp_reallocarray] →
      (w5.heap p).addr = 0 := by
    intro p hp
    simp only [List.mem_cons, List.mem_singleton, List.not_mem_nil, or_false] at hp
    rw [← hw5]
    apply update_addr_zero
    by_cases k5 : p = bp_reallocarray
    · exact Or.inl k5
    right
    rw [← hw4]
    apply update_addr_zero
    by_cases k4 : p = bp_realloc
    · exact Or.inl k4
    right
    rw [← hw3]
    apply update_addr_zero
    by_cases k3 : p = bp_free
    · exact Or.inl k3
    right
    rw [← hw2]
    apply update_addr_zero
    by_cases k2 : p = bp_calloc
    · exact Or.inl k2
    right
    rw [← hw1]
    apply update_addr_zero
    left
    rcases hp with h | h | h | h | h
    · exact h
    · exact absurd h k2
    · exact absurd h k3
    · exact absurd h k4
    · exact absurd h k5
  have hfun := evaluate_funcid_no_match w5
    [bp_malloc, bp_calloc, bp_free, bp_realloc, bp_reallocarray] sigs b5 hsigs
  obtain ⟨i1, -, i3, i4⟩ := install_all_skipped N
    [bp_malloc, bp_calloc, bp_free, bp_realloc, bp_reallocarray] w5 hzero
  have hms : map_symbols N maps se_malloc se_calloc se_free se_realloc se_reallocarray
      bp_malloc bp_calloc bp_free bp_realloc bp_reallocarray true sigs evaluate_symbol_defs w =
      [bp_malloc, bp_calloc, bp_free, bp_realloc, bp_reallocarray].foldl
        (fun w bp => install_breakpoint N w bp) w5 := by
    simp only [map_symbols, hbin, ASSERT_true, hw0, e1, e2, e3, e4, e5, r5, hfun, hdefs,
      if_true, ne_eq, not_true_eq_false, if_false]
  have c5 : w5.ctx.breakpoints = w.ctx.breakpoints := by
    rw [← hw5, ← hw4, ← hw3, ← hw2, ← hw1, ← hw0]; simp
  have t5 : w5.tracee = w.tracee := by
    rw [← hw5, ← hw4, ← hw3, ← hw2, ← hw1, ← hw0]; simp
  have tr5 : w5.trace = w.trace := by
    rw [← hw5, ← hw4, ← hw3, ← hw2, ← hw1, ← hw0]; simp
  rw [hms]
  refine ⟨by rw [i1, c5], by rw [i3, t5], _, by rw [i4, tr5], by simp, ?_⟩
  intro e he
  simp only [List.map_cons, List.map_nil, List.mem_cons, List.mem_singleton,
    List.not_mem_nil, or_false] at he
  rcases he with h | h | h | h | h <;> subst h <;> rfl

/-- Claim C13, amended: the warning about `--symbols` is issued at startup exactly when
`lookup_symbols` resolved none of the five allocator symbols and the `--symbols` string
is empty; the signature finder, which runs later, has no part in it. When the warning was
issued and then neither the signature finder nor an override supplies an address, each of
the five allocator breakpoints is skipped at install. -/
theorem symbols_warning_emitted (N : Nat) (maps : List ProcMapsEntry)
    (se_malloc se_calloc se_free se_realloc se_reallocarray : SymbolEntry)
    (bp_malloc bp_calloc bp_free bp_realloc bp_reallocarray : Nat)
    (symbol_defs_str : List Char) (sigs : List FunctionSignature)
    (evaluate_symbol_defs : World → List Nat → World) (w : World) :
    (start_debugger_flags se_malloc se_calloc se_free se_realloc se_reallocarray
      symbol_defs_str).warnings =
      (if (se_malloc.type = SEType.SE_TYPE_UNRESOLVED ∧
          se_calloc.type = SEType.SE_TYPE_UNRESOLVED ∧
          se_free.type = SEType.SE_TYPE_UNRESOLVED ∧
          se_realloc.type = SEType.SE_TYPE_UNRESOLVED ∧
          se_reallocarray.type = SEType.SE_TYPE_UNRESOLVED) ∧ symbol_defs_str = []
        then [symbols_warning] else []) ∧
    ((start_debugger_flags se_malloc se_calloc se_free se_realloc se_reallocarray
        symbol_defs_str).warnings ≠ [] →
      w.status = ProcStatus.running →
      (pme_walk maps ProcELFType.PROCELF_TYPE_BINARY).isSome = true →
      (∀ sig, sig ∈ sigs.take 5 → sig.offset = 0) →
      (∀ v, evaluate_symbol_defs v
        [bp_malloc, bp_calloc, bp_free, bp_realloc, bp_reallocarray] = v) →
      (map_symbols N maps se_malloc se_calloc se_free se_realloc se_reallocarray bp_malloc
        bp_calloc bp_free bp_realloc bp_reallocarray
        (start_debugger_flags se_malloc se_calloc se_free se_realloc se_reallocarray
          symbol_defs_str).target_is_stripped sigs evaluate_symbol_defs
        w).ctx.breakpoints = w.ctx.breakpoints ∧
      (map_symbols N maps se_malloc se_calloc se_free se_realloc se_reallocarray bp_malloc
        bp_calloc bp_free bp_realloc bp_reallocarray
        (start_debugger_flags se_malloc se_calloc se_free se_realloc se_reallocarray
          symbol_defs_str).target_is_stripped sigs evaluate_symbol_defs
        w).tracee = w.tracee ∧
      ∃ rest, (map_symbols N maps se_malloc se_calloc se_free se_realloc se_reallocarray
        bp_malloc bp_calloc bp_free bp_realloc bp_reallocarray
        (start_debugger_flags se_malloc se_calloc se_free se_realloc se_reallocarray
          symbol_defs_str).target_is_stripped sigs evaluate_symbol_defs
        w).trace = w.trace ++ rest ∧ rest.length = 5 ∧
        ∀ e, e ∈ rest → e.is_install_failure = true) := by
  obtain ⟨f1, f2⟩ := start_debugger_flags_warnings se_malloc se_calloc se_free se_realloc
    se_reallocarray symbol_defs_str
  refine ⟨f1, ?_⟩
  intro hw hrun hbin hsigs hdefs
  by_cases h : (se_malloc.type = SEType.SE_TYPE_UNRESOLVED ∧
      se_calloc.type = SEType.SE_TYPE_UNRESOLVED ∧
      se_free.type = SEType.SE_TYPE_UNRESOLVED ∧
      se_realloc.type = SEType.SE_TYPE_UNRESOLVED ∧
      se_reallocarray.type = SEType.SE_TYPE_UNRESOLVED) ∧ symbol_defs_str = []
  · rw [f2, decide_eq_true h.1]
    exact map_symbols_all_skipped N maps se_malloc se_calloc se_free se_realloc se_reallocarray
      bp_malloc bp_calloc bp_free bp_realloc bp_reallocarray sigs evaluate_symbol_defs w hrun
      hbin h.1.1 h.1.2.1 h.1.2.2.1 h.1.2.2.2.1 h.1.2.2.2.2 hsigs hdefs
  · rw [f1, if_neg h] at hw
    exact absurd rfl hw

/-! ## The re-arm word -/

theorem and_not64_ff (y : Nat) (hy : y < 2 ^ 64) : y &&& not64 0xff = 2 ^ 8 * (y / 2 ^ 8) := by
  have hm : not64 0xff = 2 ^ 8 * (2 ^ 56 - 1) := by decide
  rw [hm]
  apply Nat.eq_of_testBit_eq
  intro i
  rw [Nat.testBit_and, Nat.testBit_mul_pow_two, Nat.testBit_mul_pow_two,
    Nat.testBit_two_pow_sub_one, ← Nat.shiftRight_eq_div_pow, Nat.testBit_shiftRight]
  by_cases h8 : 8 ≤ i
  · by_cases h64 : i < 64
    · have : i - 8 < 56 := by omega
      have e : 8 + (i - 8) = i := by omega
      simp [h8, this, e]
    · have hf : y.testBit i = false := by
        apply Nat.testBit_lt_two_pow
        exact lt_of_lt_of_le hy (Nat.pow_le_pow_right (by decide) (by omega))
      have e : 8 + (i - 8) = i := by omega
      simp [hf, e]
  · simp [h8]

theorem rearm_word_eq (x : Nat) : rearm_word x = 2 ^ 8 * (u64 x / 2 ^ 8) + 0xcc := by
  have hlow : u64_of_int char_xcc &&& u64 0xff = 0xcc := by decide
  have hy : u64 x < 2 ^ 64 := Nat.mod_lt _ (by decide)
  unfold rearm_word
  rw [hlow, and_not64_ff _ hy]
  exact (Nat.mul_add_lt_is_or (by decide) _).symm

theorem trap_word_eq_rearm_word (x : Nat) : trap_word x = rearm_word x := by
  rw [rearm_word_eq]
  unfold trap_word
  omega

theorem rearm_word_bytes (x : Nat) :
    rearm_word x % 256 = 0xcc ∧ rearm_word x / 256 = u64 x / 256 ∧ rearm_word x < 2 ^ 64 := by
  have hy : u64 x < 2 ^ 64 := Nat.mod_lt _ (by decide)
  rw [rearm_word_eq]
  omega

/-! ## Hits on a primary breakpoint end with the re-arm write -/

theorem reinstall_proj (v : World) (p a : Nat) :
    (reinstall v p a).trace =
      v.trace ++ [Event.ptrace_pokedata v.ctx.pid a (rearm_word (v.heap p).orig_data)] ∧
    (reinstall v p a).status = v.status ∧
    (reinstall v p a).tracee.mem = poke v.tracee.mem a (rearm_word (v.heap p).orig_data) := by
  simp [reinstall, trap_word_eq_rearm_word]

theorem hit_primary_form (N : Nat) (cpu : Tracee → Tracee) (execv_ok : Bool) (pre_entry : Nat)
    (w : World) (p : Nat) (regs : Regs)
    (a : Nat) (hrun : w.status = ProcStatus.running) (hp : p < w.next)
    (hprim : (w.heap p)._bp = none) (harity : ¬ pre_aborts w p)
    (hoff : ¬ pre_hands_off pre_entry w p) :
    ∃ v, hit N cpu execv_ok pre_entry w p regs a = reinstall v p a ∧ v.ctx.pid = w.ctx.pid ∧
      (v.heap p).orig_data = (w.heap p).orig_data ∧ v.status = ProcStatus.running ∧
      ∃ evs, v.trace = w.trace ++ evs := by
  rw [hit_continue N cpu execv_ok pre_entry w p regs a hrun harity hoff]
  have sp := stepped_proj N cpu execv_ok pre_entry w p { regs with rip := a } a hoff
  by_cases h : (w.heap p)._is_inside = true ∨ w.in_breakpoint = true
  · refine ⟨stepped N cpu execv_ok pre_entry w p { regs with rip := a } a, ?_, ?_, ?_, ?_, ?_⟩
    · apply after_singlestep_rearm
      simp only [sp]
      rcases h with h | h
      · exact Or.inl h
      · exact Or.inr ⟨hprim, h⟩
    · simp [sp]
    · simp [sp]
    · simp [sp, harity, hrun]
    · exact ⟨_, by simp only [sp, List.append_assoc]; rfl⟩
  · rw [not_or] at h
    obtain ⟨h1, h3⟩ := h
    have h1 : (w.heap p)._is_inside = false := by simpa using h1
    have h3 : w.in_breakpoint = false := by simpa using h3
    rw [after_singlestep_enter N _ p _ a (by simpa [sp] using h1)
      (by simpa [sp] using hprim) (by simpa [sp] using h3)]
    by_cases h4 : (w.heap p).post_handler = 0
    · refine ⟨_, rfl, ?_, ?_, ?_, ?_⟩
      · rw [enter_breakpoint_nopost N _ p _ (by simpa [sp] using h4)]
        simp [sp]
      · rw [enter_breakpoint_nopost N _ p _ (by simpa [sp] using h4)]
        simp [sp]
      · rw [enter_breakpoint_nopost N _ p _ (by simpa [sp] using h4)]
        simp [sp, harity, hrun]
      · rw [enter_breakpoint_nopost N _ p _ (by simpa [sp] using h4)]
        exact ⟨_, by simp only [set_in_breakpoint_proj, update_proj, sp,
          List.append_assoc]; rfl⟩
    · refine ⟨_, rfl, ?_⟩
      rw [enter_breakpoint_post N _ p _ (by simpa [sp] using h4)]
      have hne : p ≠ w.next := Nat.ne_of_lt hp
      generalize hu : ((stepped N cpu execv_ok pre_entry w p { regs with rip := a } a).set_in_breakpoint true).update p
        (fun b => { b with _is_inside := true }) = u
      have hu1 : u.ctx.pid = w.ctx.pid := by rw [← hu]; simp [sp]
      have hu2 : u.next = w.next := by rw [← hu]; simp [sp]
      have hu3 : (u.heap p).orig_data = (w.heap p).orig_data := by rw [← hu]; simp [sp]
      have hu4 : u.status = ProcStatus.running := by
        rw [← hu]; simp [sp, harity, hrun]
      have hu5 : ∃ evs, u.trace = w.trace ++ evs := by
        rw [← hu]
        exact ⟨_, by simp only [set_in_breakpoint_proj, update_proj, sp,
          List.append_assoc]; rfl⟩
      obtain ⟨evs, hu5⟩ := hu5
      by_cases hok : install_ok N (alloc_return_catcher u { regs with rip := a }) u.next
      · obtain ⟨slot, -, -, -, k2, k3, -, -, k6, k7⟩ :=
          install_return_catcher_ok N u p { regs with rip := a } hok
        refine ⟨k2.trans hu1, ?_, k6.trans hu4, ?_⟩
        · rw [k3]
          simp [hu2, hne, hu3]
        · exact ⟨_, by rw [k7, hu5, List.append_assoc]⟩
      · obtain ⟨-, k2, k3, -, -, k6, k7⟩ :=
          install_return_catcher_fail N u p { regs with rip := a } hok
        refine ⟨k2.trans hu1, ?_, k6.trans hu4, ?_⟩
        · rw [k3]
          simp [hu2, hne, hu3]
        · exact ⟨_, by rw [k7, hu5, List.append_assoc]⟩

theorem poke_at (mem : Nat → Nat) (a v : Nat) : poke mem a v a = v % 256 := by
  simp [poke]

/-- Claim C14, amended: for every 64-bit word `x` the word written to re-arm a breakpoint,
`(x & ~0xff) | ('\xcc' & 0xff)`, has low byte 0xCC and the other seven bytes of `x`; and a
hit on a primary breakpoint (first hit, hit nested in another tracked call, or recursive
hit while inside) whose pre-handler stage returns ends with the write of this word at the
breakpoint's address as the last event of the dispatch, so that the byte at that address
is the trap opcode 0xCC when the dispatch returns. When the pre-handler stage does not
return, the dispatch does not re-arm: if the arity assertion of line 53 fails, the tracer
aborts right after restoring the original word; if `_pre_entry` hands the tracee to the
debugger, the restore is followed only by the handler call and the handoff, which removes
every breakpoint from the table. -/
theorem check_breakpoints_rearm_word (N : Nat) (cpu : Tracee → Tracee) (execv_ok : Bool)
    (pre_entry : Nat) (w : World) (i p : Nat)
    (hok : TableOk N w) (hrun : w.status = ProcStatus.running) (hi : i < N)
    (hslot : w.ctx.breakpoints i = some p)
    (haddr : (w.heap p).addr = hit_address w.tracee.regs)
    (hprim : (w.heap p)._bp = none) :
    (∀ x : Nat, x < 2 ^ 64 →
      rearm_word x < 2 ^ 64 ∧ rearm_word x % 256 = 0xcc ∧
      ∀ k, 1 ≤ k → k < 8 → rearm_word x / 256 ^ k % 256 = x / 256 ^ k % 256) ∧
    (¬ pre_aborts w p ∧ ¬ pre_hands_off pre_entry w p →
      (∃ before, (_check_breakpoints N cpu execv_ok pre_entry w).trace = w.trace ++ before ++
        [Event.ptrace_pokedata w.ctx.pid (w.heap p).addr (rearm_word (w.heap p).orig_data)]) ∧
      (_check_breakpoints N cpu execv_ok pre_entry w).status = ProcStatus.running ∧
      peek (_check_breakpoints N cpu execv_ok pre_entry w).tracee.mem (w.heap p).addr =
        rearm_word (w.heap p).orig_data ∧
      (_check_breakpoints N cpu execv_ok pre_entry w).tracee.mem (w.heap p).addr = 0xcc) ∧
    (pre_aborts w p →
      (_check_breakpoints N cpu execv_ok pre_entry w).status = ProcStatus.aborted ∧
      (_check_breakpoints N cpu execv_ok pre_entry w).trace = w.trace ++
        [Event.ptrace_getregs w.ctx.pid,
         Event.ptrace_pokedata w.ctx.pid (w.heap p).addr (u64 (w.heap p).orig_data),
         Event.ptrace_setregs w.ctx.pid (rewound w.tracee.regs),
         Event.assert_failed]) ∧
    (pre_hands_off pre_entry w p →
      (_check_breakpoints N cpu execv_ok pre_entry w).status =
        (if execv_ok = true then ProcStatus.replaced else ProcStatus.aborted) ∧
      (∀ k, k < N → (_check_breakpoints N cpu execv_ok pre_entry w).ctx.breakpoints k = none) ∧
      ∃ uninstalls, (∀ e, e ∈ uninstalls → e.is_uninstall = true) ∧
        (_check_breakpoints N cpu execv_ok pre_entry w).trace = w.trace ++
          [Event.ptrace_getregs w.ctx.pid,
           Event.ptrace_pokedata w.ctx.pid (w.heap p).addr (u64 (w.heap p).orig_data),
           Event.ptrace_setregs w.ctx.pid (rewound w.tracee.regs),
           Event.pre_handler (w.heap p)
             ([w.tracee.regs.rdi, w.tracee.regs.rsi, w.tracee.regs.rdx].take
               (w.heap p).pre_handler_nargs.toNat)] ++
          handoff_events w.ctx.pid w.OPT_GDB_PATH uninstalls execv_ok) := by
  have key0 := check_outcome N cpu execv_ok pre_entry w i p hok hrun hi hslot haddr
  refine ⟨?_, ?_, ?_, ?_⟩
  · intro x hx
    obtain ⟨h1, h2, h3⟩ := rearm_word_bytes x
    have hu : u64 x = x := Nat.mod_eq_of_lt hx
    rw [hu] at h2
    refine ⟨h3, h1, ?_⟩
    intro k hk1 _
    obtain ⟨j, rfl⟩ : ∃ j, k = j + 1 := ⟨k - 1, by omega⟩
    rw [pow_succ', ← Nat.div_div_eq_div_mul, ← Nat.div_div_eq_div_mul, h2]
  · intro ⟨harity, hoff⟩
    have hp : p < w.next := hok.1 i hi p hslot
    rw [check_unique N cpu execv_ok pre_entry w i p hok hrun hi hslot haddr]
    obtain ⟨v, hv, v1, v2, v3, evs, v5⟩ := hit_primary_form N cpu execv_ok pre_entry
      (ptrace_getregs w w.ctx.pid) p w.tracee.regs (hit_address w.tracee.regs)
      (by simpa using hrun) (by simpa using hp) (by simpa using hprim)
      (by simpa [pre_aborts_emit] using harity)
      (by simpa [ptrace_getregs, pre_hands_off_emit] using hoff)
    have v1 : v.ctx.pid = w.ctx.pid := by simpa using v1
    have v2 : (v.heap p).orig_data = (w.heap p).orig_data := by simpa using v2
    have v5 : v.trace = w.trace ++ ([Event.ptrace_getregs w.ctx.pid] ++ evs) := by
      simpa using v5
    obtain ⟨r1, r2, r3⟩ := reinstall_proj v p (hit_address w.tracee.regs)
    rw [hv, haddr]
    refine ⟨⟨[Event.ptrace_getregs w.ctx.pid] ++ evs, ?_⟩, r2.trans v3, ?_, ?_⟩
    · rw [r1, v5, v1, v2]
    · rw [r3, peek_poke, v2]
      exact Nat.mod_eq_of_lt (rearm_word_bytes _).2.2
    · rw [r3, poke_at, v2]
      exact (rearm_word_bytes _).1
  · intro hab
    have key := key0
    unfold HitOutcome at key
    rcases key with ⟨-, d⟩ | ⟨h, -⟩ | ⟨h, -⟩ | ⟨h, -⟩ | ⟨h, -⟩ | ⟨o, h, -⟩ | ⟨h, -⟩
    · obtain ⟨-, -, -, -, -, e6, e7⟩ := d
      refine ⟨e6, ?_⟩
      rw [e7, haddr]
      simp [rewound]
    · exact absurd hab (pre_stage_nil w p (rewound w.tracee.regs)
        (by rcases h with h | ⟨-, h⟩ <;> simp [h])).2
    · exact absurd hab h.2.2.2.2.1
    · exact absurd hab h.2.2.2.2.1.1
    · exact absurd hab h.2.2.2.2.1.1
    · exact absurd hab h.2.2.1
    · exact absurd hab (pre_hands_off_not_aborts h)
  · intro hho
    have key := key0
    unfold HitOutcome at key
    rcases key with ⟨h, -⟩ | ⟨h, -⟩ | ⟨h, -⟩ | ⟨h, -⟩ | ⟨h, -⟩ | ⟨o, h, -⟩ |
      ⟨-, uninstalls, hun, htab, -, -, -, -, e6, e7⟩
    · exact absurd h (pre_hands_off_not_aborts hho)
    · exact absurd hho (pre_stage_nil_hands_off pre_entry w p
        (by rcases h with h | ⟨-, h⟩ <;> simp [h]))
    · exact absurd hho h.2.2.2.2.2
    · exact absurd hho h.2.2.2.2.1.2
    · exact absurd hho h.2.2.2.2.1.2
    · exact absurd hho h.2.2.2
    · refine ⟨e6, htab, uninstalls, hun, ?_⟩
      have hps := pre_stage_call w p { w.tracee.regs with rip := hit_address w.tracee.regs }
        hho.1.1 hho.1.2.1 hho.1.2.2 (pre_hands_off_not_aborts hho)
      rw [e7, hps, haddr]
      simp [rewound]

/-- Claim C11 as stated fails: with break-at-sigsegv set, the abort stop `0x67f`, which is
not the sigsegv stop, makes `end_debugger` hand the tracee to the debugger, reached from
the event loop as well; so does a death by `SIGKILL` (wait status 9). -/
theorem end_debugger_abort_stop_hands_off :
    example_world_abort.ctx.status = 0x67f ∧
    example_world_abort.ctx.status ≠ STATUS_SIGSEGV ∧
    example_world_abort.BREAK_SIGSEGV = 1 ∧
    (end_debugger 4 true example_world_abort false).trace.any Event.is_handoff = true ∧
    (end_debugger 4 true example_world_abort false).status = ProcStatus.replaced ∧
    (loop_iteration 4 example_cpu true (fun _ w => w) 0x400800 3 zero_breakpoint 0 0x67f
      example_loop_break_sigsegv).w.trace.any Event.is_handoff = true ∧
    example_world_killed.ctx.status ≠ STATUS_SIGSEGV ∧
    WIFSIGNALED example_world_killed.ctx.status = true ∧
    (end_debugger 4 true example_world_killed false).trace.any Event.is_handoff = true := by
  decide

/-- Witness of C11: after a normal exit with break-at-sigsegv set, `end_debugger` issues
no event of a handoff. -/
theorem end_debugger_handoff_witness :
    example_world_exit.BREAK_SIGSEGV = 1 ∧
    ∃ rest, (end_debugger 4 true example_world_exit false).trace =
        example_world_exit.trace ++ rest ∧
      ∀ e, e ∈ rest → e.is_handoff = false := by
  obtain ⟨rest, h1, -, h3⟩ := end_debugger_handoff 4 true example_world_exit false
  exact ⟨rfl, rest, h1, h3 (by unfold handoff_due; decide)⟩

/-- Claim C12 as stated fails: at a `SIGTRAP` stop whose hit address 0x402000 matches no
breakpoint, the iteration of the event loop issues four calls, the last of which
continues the tracee with signal 0; none continues it with `SIGTRAP`. -/
theorem stray_trap_continued_without_signal :
    addr_installed 4 example_loop_stray.w (hit_address example_loop_stray.w.tracee.regs) =
      false ∧
    (loop_iteration 4 example_cpu true (fun _ w => w) 0x400800 3 zero_breakpoint 0 0x57f
      example_loop_stray).w.trace.length = 4 ∧
    ((loop_iteration 4 example_cpu true (fun _ w => w) 0x400800 3 zero_breakpoint 0 0x57f
      example_loop_stray).w.trace.drop 3).all (Event.is_cont_with 0) = true ∧
    (loop_iteration 4 example_cpu true (fun _ w => w) 0x400800 3 zero_breakpoint 0 0x57f
      example_loop_stray).w.trace.any (Event.is_cont_with SIGTRAP) = false := by
  decide

/-- Witness of C12: the iteration for the stray trap of the example. -/
theorem stray_trap_iteration_witness :
    (loop_iteration 4 example_cpu true (fun _ w => w) 0x400800 3 zero_breakpoint 0 0x57f
      example_loop_stray).w.trace =
      [Event.ptrace_setoptions 4242 PTRACE_O_TRACEEXEC, Event.ptrace_getregs 4242,
        Event.ptrace_getregs 4242, Event.ptrace_cont 4242 0] ∧
    (loop_iteration 4 example_cpu true (fun _ w => w) 0x400800 3 zero_breakpoint 0 0x57f
      example_loop_stray).w.tracee.regs.rip = 0x402001 :=
  have h := stray_trap_iteration 4 example_cpu true (fun _ w => w) 0x400800 3 zero_breakpoint 0
    example_loop_stray rfl rfl rfl (by decide)
  ⟨h.2.1, by rw [h.2.2.1]; rfl⟩

/-- Claim C13 as stated fails: for a fully stripped target run without `--symbols` the
warning is issued, although the signature finder then returns the offsets 0x1180 and 0x1200
of `malloc` and `free` and both breakpoints are installed. -/
theorem stripped_target_warned_although_resolved :
    (start_debugger_flags (example_unresolved "malloc") (example_unresolved "calloc")
      (example_unresolved "free") (example_unresolved "realloc")
      (example_unresolved "reallocarray") []).warnings.length = 1 ∧
    (example_map_symbols example_signatures).trace.any (Event.is_install_of "malloc") = true ∧
    (example_map_symbols example_signatures).trace.any (Event.is_install_of "free") = true ∧
    (example_map_symbols example_signatures).ctx.breakpoints 0 = some 0 ∧
    ((example_map_symbols example_signatures).heap 0).name = "malloc" ∧
    ((example_map_symbols example_signatures).heap 0).addr = 0x401180 ∧
    (example_map_symbols example_signatures).ctx.breakpoints 1 = some 2 ∧
    ((example_map_symbols example_signatures).heap 2).name = "free" ∧
    ((example_map_symbols example_signatures).heap 2).addr = 0x401200 ∧
    (example_map_symbols example_signatures).tracee.mem 0x401180 = 0xcc ∧
    (example_map_symbols example_signatures).tracee.mem 0x401200 = 0xcc := by
  decide

/-- Witness of C13: for the stripped example without `--symbols` the warning is issued,
and when the signature finder returns nothing the five installs are skipped. -/
theorem symbols_warning_emitted_witness :
    (start_debugger_flags (example_unresolved "malloc") (example_unresolved "calloc")
      (example_unresolved "free") (example_unresolved "realloc")
      (example_unresolved "reallocarray") []).warnings = [symbols_warning] ∧
    (example_map_symbols []).ctx.breakpoints = example_world_stripped.ctx.breakpoints ∧
    ∃ rest, (example_map_symbols []).trace = example_world_stripped.trace ++ rest ∧
      rest.length = 5 ∧ ∀ e, e ∈ rest → e.is_install_failure = true :=
  have h := symbols_warning_emitted 8 example_maps (example_unresolved "malloc")
    (example_unresolved "calloc") (example_unresolved "free") (example_unresolved "realloc")
    (example_unresolved "reallocarray") 0 1 2 3 4 [] [] (fun w _ => w) example_world_stripped
  have h2 := h.2 (by decide) (by decide) (by decide) (by simp) (fun _ => rfl)
  ⟨h.1, h2.1, h2.2.2⟩

/-- Witness of C14: the hit at `malloc`, whose saved word is 0x55, ends with the write of
0xcc at 0x401000, and the byte there is then 0xcc; the hit at the entry point of a tracer
run with `--break-main` ends with the tracer replaced by the debugger and an empty
table. -/
theorem check_breakpoints_rearm_word_witness :
    rearm_word 0x1122334455667788 = 0x11223344556677cc ∧
    (∃ before, (_check_breakpoints 4 example_cpu true 3 example_world).trace =
      example_world.trace ++ before ++ [Event.ptrace_pokedata 4242 0x401000 0xcc]) ∧
    (_check_breakpoints 4 example_cpu true 3 example_world).tracee.mem 0x401000 = 0xcc ∧
    (_check_breakpoints 4 example_cpu true 3 example_world_break_main).status =
      ProcStatus.replaced ∧
    (_check_breakpoints 4 example_cpu true 3 example_world_break_main).ctx.breakpoints 0 =
      none :=
  have h := (check_breakpoints_rearm_word 4 example_cpu true 3 example_world 1 1
    example_world_ok rfl (by decide) rfl (by decide) rfl).2.1
    ⟨by decide, by unfold pre_hands_off; decide⟩
  have k := (check_breakpoints_rearm_word 4 example_cpu true 3 example_world_break_main 0 0
    example_world_break_main_ok rfl (by decide) rfl (by decide) rfl).2.2.2
    (by unfold pre_hands_off; decide)
  ⟨by decide, h.1, h.2.2.2, k.1, k.2.1 0 (by decide)⟩

/-- Claim C14 as stated fails: in a tracer run with `--break-main`, the stop at the entry
point is a first hit on a primary breakpoint; its dispatch writes the original word 0x31
back at the entry point and never the re-arm word 0xcc, because `_pre_entry` hands the
tracee to the debugger before the single-step: when the dispatch ends the byte at the
entry point is 0x31, not the trap opcode, and so is the byte at `malloc` restored. -/
theorem entry_hit_break_main_leaves_breakpoint_disarmed :
    example_world_break_main.status = ProcStatus.running ∧
    example_world_break_main.in_breakpoint = false ∧
    example_world_break_main.ctx.breakpoints 0 = some 0 ∧
    (example_world_break_main.heap 0)._bp = none ∧
    (example_world_break_main.heap 0)._is_inside = false ∧
    (example_world_break_main.heap 0).addr =
      hit_address example_world_break_main.tracee.regs ∧
    (example_world_break_main.heap 0).addr = 0x400800 ∧
    (example_world_break_main.heap 0).orig_data = 0x31 ∧
    example_world_break_main.tracee.mem 0x400800 = 0xcc ∧
    rearm_word 0x31 = 0xcc ∧
    (_check_breakpoints 4 example_cpu true 3 example_world_break_main).trace.any
      (Event.is_poke_of 0x400800 (rearm_word 0x31)) = false ∧
    (_check_breakpoints 4 example_cpu true 3 example_world_break_main).trace.any
      (Event.is_poke_of 0x400800 0x31) = true ∧
    (_check_breakpoints 4 example_cpu true 3 example_world_break_main).tracee.mem 0x400800 =
      0x31 ∧
    (_check_breakpoints 4 example_cpu true 3 example_world_break_main).tracee.mem 0x401000 =
      0x55 ∧
    (_check_breakpoints 4 example_cpu true 3 example_world_break_main).status =
      ProcStatus.replaced := by
  decide

end Heaptrace
